import Mathlib

/-!
# TermiScope: the pulse accounting engine and the agent scheduler

A shallow embedding of `MonitorHandler.Pulse` (`internal/handlers/monitor.go`)
and of the records it reads and writes, and of the agent's task loop, probes
and report buffer (`cmd/agent/network.go`); further of the handlers that
stop the monitoring of a host, of `SSHHostHandler.Update`
(`internal/handlers/ssh_host.go`), of the task and template handlers
(`internal/handlers/network_monitor.go`) and of the allowed origins
(`internal/config/db_sync.go`).  The hub (package `internal/monitor`), which
is outside the given sources, is a state machine written from the
specification.  Unsigned 64-bit integers are natural
numbers with an explicit reduction modulo `2 ^ 64` wherever the Go code can
overflow; Go `int` values are integers.  The database table of hosts is a
finite map from primary key to row, the notifier, the hub, the status log and
the snapshot table are append-only lists.  A statement that hands the
database a `uint64` of `2 ^ 63` or more is refused by `database/sql` and
changes nothing; `Pulse` does not look at the result of its statements.  A
request is handled at one instant `now`, which stands for every reading of
the clock the handler makes.  The strings of the allowed origins are
sequences of bytes.
-/

namespace TermiScope

/-! ## Go runtime pieces used by the handler -/

/-- Number of values of a Go `uint64`. -/
def u64 : Nat := 2 ^ 64

/-- Go `uint64` addition. -/
def addU64 (a b : Nat) : Nat := (a + b) % u64

/-- Go `uint64` multiplication. -/
def mulU64 (a b : Nat) : Nat := (a * b) % u64

/-- Go conversion `uint64(x)` of an `int`. -/
def toU64 (x : Int) : Nat := (x % (u64 : Int)).toNat

/-- An instant as read from `time.Now()`: its position on the time line and
its civil date in the server's location. -/
structure Time where
  unixNano : Int
  year : Int
  month : Nat
  day : Nat
deriving DecidableEq, Repr

/-- Go `Time.Day`. -/
def Time.Day (t : Time) : Int := (t.day : Int)

/-- The decimal digits of a natural number, zero-padded on the left to
`width` characters (`appendInt` of package `time`, for a value that is not
negative). -/
def padNat (n width : Nat) : List Char :=
  List.replicate (width - (Nat.toDigits 10 n).length) '0' ++ Nat.toDigits 10 n

/-- Go `appendInt` of package `time`. -/
def appendInt (x : Int) (width : Nat) : List Char :=
  if x < 0 then '-' :: padNat x.natAbs width else padNat x.natAbs width

/-- Go `t.Format("2006-01-02")`. -/
def Time.FormatDate (t : Time) : String :=
  String.mk (appendInt t.year 4 ++ '-' :: appendInt (t.month : Int) 2
    ++ '-' :: appendInt (t.day : Int) 2)

/-- Go `unicode.IsSpace`. -/
def isSpace (c : Char) : Bool :=
  c = '\t' || c = '\n' || c = '\x0b' || c = '\x0c' || c = '\r' || c = ' '
    || c.toNat = 0x85 || c.toNat = 0xA0 || c.toNat = 0x1680
    || (0x2000 ≤ c.toNat && c.toNat ≤ 0x200a)
    || c.toNat = 0x2028 || c.toNat = 0x2029 || c.toNat = 0x202f
    || c.toNat = 0x205f || c.toNat = 0x3000

/-- Go `strings.TrimSpace` on the characters of a string. -/
def trimSpaceChars (cs : List Char) : List Char :=
  ((cs.dropWhile isSpace).reverse.dropWhile isSpace).reverse

/-- Go `strings.TrimSpace`. -/
def TrimSpace (s : String) : String := String.mk (trimSpaceChars s.data)

/-- Go `strings.Split(s, ",")` on the characters of a string: the pieces
between commas, one more than the number of commas. -/
def splitCommaChars : List Char → List (List Char)
  | [] => [[]]
  | c :: cs =>
    if c = ',' then [] :: splitCommaChars cs
    else
      match splitCommaChars cs with
      | [] => [[c]]
      | piece :: rest => (c :: piece) :: rest

/-- Go `strings.Split(s, ",")`. -/
def SplitComma (s : String) : List String :=
  (splitCommaChars s.data).map String.mk

/-! ## Records -/

/-- Modelled from the spec: `models.SSHHost` is declared outside the given
sources; these are the columns `Pulse` reads or writes, with the Go types
the handlers use for them (`uint64` as `Nat`, `int` as `Int`).  The primary
key `ID` is the key of the row in `Server.hosts`. -/
structure SSHHost where
  Name : String
  MonitorSecret : String
  MonitorEnabled : Bool
  NetInterface : String
  NetResetDay : Int
  NetLastResetDate : String
  NetMonthlyRx : Nat
  NetMonthlyTx : Nat
  NetLastRawRx : Nat
  NetLastRawTx : Nat
  NetTrafficLimit : Nat
  NetTrafficUsedAdjustment : Nat
  NetTrafficCounterMode : String
  NotifyTrafficEnabled : Bool
  NotifyTrafficThreshold : Int
  NotifyOfflineEnabled : Bool
  TrafficAlerted : Bool
  AgentVersion : String
  Status : String
  LastPulse : Time
deriving DecidableEq, Repr

/-- Modelled from the spec: one entry of `MetricData.Interfaces`
(package `internal/monitor`, outside the given sources). -/
structure InterfaceData where
  Name : String
  Rx : Nat
  Tx : Nat
deriving DecidableEq, Repr

/-- Modelled from the spec: `monitor.MetricData`, the decoded pulse
(package `internal/monitor`, outside the given sources); the fields `Pulse`
and the snapshot use. -/
structure MetricData where
  HostID : Nat
  CPU : Nat
  MemUsed : Nat
  MemTotal : Nat
  DiskUsed : Nat
  DiskTotal : Nat
  NetRx : Nat
  NetTx : Nat
  Interfaces : List InterfaceData
  AgentVersion : String
  NetMonthlyRx : Nat
  NetMonthlyTx : Nat
  NetTrafficLimit : Nat
  NetTrafficUsedAdjustment : Nat
  NetTrafficCounterMode : String
deriving DecidableEq, Repr

/-- The `uint64` fields of a decoded pulse hold 64-bit values:
`ShouldBindJSON` fails on a number that does not fit its field. -/
def MetricData.fits (d : MetricData) : Bool :=
  decide (d.NetRx < u64) && decide (d.NetTx < u64)
    && d.Interfaces.all (fun i => decide (i.Rx < u64) && decide (i.Tx < u64))

/-- Modelled from the spec: `utils.SendNotification` is outside the given
sources; a call of it by `Pulse` is kept as the values that go into its
title and message. -/
inductive Notification where
  | trafficWarning (hostID : Nat) (name : String) (percent totalUsed limit : Nat)
  | backOnline (hostID : Nat) (name : String)
deriving DecidableEq, Repr

/-- Modelled from the spec: `monitor.GlobalHub` is outside the given sources;
a call of its `Update` or `RemoveHost` is kept as the message handed over. -/
inductive HubEvent where
  | update (data : MetricData)
  | removeHost (hostID : Nat)
deriving DecidableEq, Repr

/-- Modelled from the spec: a row of `models.MonitorStatusLog` (declared
outside the given sources), with the fields `Pulse` sets. -/
structure MonitorStatusLog where
  HostID : Nat
  Status : String
  CreatedAt : Time
deriving DecidableEq, Repr

/-- Modelled from the spec: a row of `models.MonitorRecord` (declared outside
the given sources), the downsampled snapshot, with the fields `Pulse` sets. -/
structure MonitorRecord where
  HostID : Nat
  CPU : Nat
  MemUsed : Nat
  MemTotal : Nat
  DiskUsed : Nat
  DiskTotal : Nat
  NetRx : Nat
  NetTx : Nat
deriving DecidableEq, Repr

/-- The server state `Pulse` works on: the `ssh_hosts` table by primary key,
the handler's `lastDbSave` map, and what has been sent or inserted so far
(latest last).  A row of the snapshot table is kept with the instant at
which the pulse that inserted it was handled. -/
structure Server where
  hosts : Nat → Option SSHHost
  lastDbSave : Nat → Option Time
  notifications : List Notification
  hub : List HubEvent
  statusLogs : List MonitorStatusLog
  records : List (Time × MonitorRecord)

/-- The HTTP request of a pulse: the `Authorization` header and the body as
`ShouldBindJSON` decodes it (`none` when it does not decode). -/
structure PulseRequest where
  authHeader : String
  body : Option MetricData
deriving DecidableEq, Repr

/-! ## `MonitorHandler.Pulse` -/

/-- Lines 159-184 of `Pulse`: the bearer header, the decoded body, the host
row selected by primary key and the comparison of the secret.  The result is
the HTTP status of the rejection, or the loaded host and the pulse. -/
def authenticate (s : Server) (req : PulseRequest) : Except Nat (SSHHost × MetricData) :=
  if req.authHeader.data.length < 7 ∨ req.authHeader.data.take 7 ≠ "Bearer ".data then
    .error 401
  else
    let secret := String.mk (req.authHeader.data.drop 7)
    match req.body with
    | none => .error 400
    | some data =>
      if !data.fits then .error 400
      else
        match s.hosts data.HostID with
        | none => .error 404
        | some host =>
          if host.MonitorSecret ≠ secret then .error 403 else .ok (host, data)

/-- The inner loop of lines 203-210: the first interface of the pulse whose
name is the target. -/
def findInterface (target : String) : List InterfaceData → Option InterfaceData
  | [] => none
  | iface :: rest =>
    if iface.Name = target then some iface else findInterface target rest

/-- The outer loop of lines 201-211 over the allow-list, on the running
values of `currentRx`, `currentTx` and `foundAny`. -/
def sumInterfaces (ifaces : List InterfaceData) :
    List String → Nat × Nat × Bool → Nat × Nat × Bool
  | [], acc => acc
  | target :: rest, (rx, tx, foundAny) =>
    match findInterface (TrimSpace target) ifaces with
    | some iface =>
      sumInterfaces ifaces rest (addU64 rx iface.Rx, addU64 tx iface.Tx, true)
    | none => sumInterfaces ifaces rest (rx, tx, foundAny)

/-- Lines 193-223: the counters `currentRx`, `currentTx` of this pulse. -/
def selectCounters (host : SSHHost) (data : MetricData) : Nat × Nat :=
  if host.NetInterface ≠ "" ∧ host.NetInterface ≠ "auto" then
    match sumInterfaces data.Interfaces (SplitComma host.NetInterface) (0, 0, false) with
    | (rx, tx, foundAny) => if !foundAny then (data.NetRx, data.NetTx) else (rx, tx)
  else (data.NetRx, data.NetTx)

/-- The condition of line 232: today is the reset day and no reset has been
recorded today. -/
def resetDue (now : Time) (host : SSHHost) : Bool :=
  decide (now.Day = host.NetResetDay) && decide (host.NetLastResetDate ≠ now.FormatDate)

/-- Lines 232-238: the reset-day check. -/
def resetStage (now : Time) (host : SSHHost) : SSHHost :=
  if resetDue now host then
    { host with
      NetMonthlyRx := 0
      NetMonthlyTx := 0
      NetLastResetDate := now.FormatDate
      TrafficAlerted := false }
  else host

/-- Lines 253-261 (and 264-270 for tx): the delta of one direction. -/
def delta (lastRaw current : Nat) : Nat :=
  if lastRaw > 0 then
    if current ≥ lastRaw then current - lastRaw else current
  else 0

/-- Lines 279-285: `percent`, computed on `uint64`. -/
def usagePercent (host : SSHHost) : Nat :=
  if host.NetTrafficLimit > 0 then
    mulU64 (addU64 host.NetMonthlyRx host.NetMonthlyTx) 100 / host.NetTrafficLimit
  else 0

/-- Lines 287-290: `threshold`, with its default. -/
def trafficThreshold (host : SSHHost) : Nat :=
  if toU64 host.NotifyTrafficThreshold = 0 then 90 else toU64 host.NotifyTrafficThreshold

/-- The conditions of lines 278 and 292 on the host after accumulation. -/
def warningDue (host : SSHHost) : Bool :=
  decide (host.NetTrafficLimit > 0) && host.NotifyTrafficEnabled
    && decide (usagePercent host ≥ trafficThreshold host) && !host.TrafficAlerted

/-- Lines 273-274: the accumulation of the two deltas. -/
def accumulate (host : SSHHost) (deltaRx deltaTx : Nat) : SSHHost :=
  { host with
    NetMonthlyRx := addU64 host.NetMonthlyRx deltaRx
    NetMonthlyTx := addU64 host.NetMonthlyTx deltaTx }

/-- Lines 272-276: the deltas are accumulated when one of them is not zero. -/
def accumulateStage (deltaRx deltaTx : Nat) (host : SSHHost) : SSHHost :=
  if deltaRx > 0 ∨ deltaTx > 0 then accumulate host deltaRx deltaTx else host

/-- The condition under which lines 292-301 run: a delta was accumulated and
the threshold check on the accumulated host succeeds. -/
def warns (deltaRx deltaTx : Nat) (host : SSHHost) : Bool :=
  decide (deltaRx > 0 ∨ deltaTx > 0) && warningDue host

/-- Line 293: the alert flag is raised when the warning is sent. -/
def alertStage (warned : Bool) (host : SSHHost) : SSHHost :=
  if warned then { host with TrafficAlerted := true } else host

/-- Lines 306-310: the raw counters of this pulse are kept. -/
def rawStage (currentRx currentTx : Nat) (host : SSHHost) : SSHHost :=
  if host.NetLastRawRx ≠ currentRx ∨ host.NetLastRawTx ≠ currentTx then
    { host with NetLastRawRx := currentRx, NetLastRawTx := currentTx }
  else host

/-- The condition of line 316. -/
def versionChanged (data : MetricData) (host : SSHHost) : Bool :=
  decide (data.AgentVersion ≠ "" ∧ host.AgentVersion ≠ data.AgentVersion)

/-- Lines 316-319: the agent version of the pulse is kept. -/
def versionStage (data : MetricData) (host : SSHHost) : SSHHost :=
  if versionChanged data host then { host with AgentVersion := data.AgentVersion } else host

/-- Lines 321-322: a host that was not online becomes online. -/
def statusStage (host : SSHHost) : SSHHost :=
  if host.Status ≠ "online" then { host with Status := "online" } else host

/-- The local variables of `Pulse` at line 342, before the write to the
database, and what the handler has sent on the way. -/
structure PulseOutcome where
  host : SSHHost
  dbUpdated : Bool
  currentRx : Nat
  currentTx : Nat
  resetFired : Bool
  deltaRx : Nat
  deltaTx : Nat
  warned : Bool
  cameOnline : Bool
  notifications : List Notification
deriving DecidableEq, Repr

/-- Lines 193-341 of `Pulse` on the loaded host `host` with primary key
`hostID`: interface selection, reset-day check, deltas, accumulation,
threshold check, raw counters, heartbeat, agent version and status. -/
def account (hostID : Nat) (host : SSHHost) (data : MetricData) (now : Time) : PulseOutcome :=
  let currentRx := (selectCounters host data).1
  let currentTx := (selectCounters host data).2
  let h1 := resetStage now host
  let deltaRx := delta h1.NetLastRawRx currentRx
  let deltaTx := delta h1.NetLastRawTx currentTx
  let h2 := accumulateStage deltaRx deltaTx h1
  let warned := warns deltaRx deltaTx h2
  let h3 := alertStage warned h2
  let rawChanged := decide (h3.NetLastRawRx ≠ currentRx ∨ h3.NetLastRawTx ≠ currentTx)
  let h4 := rawStage currentRx currentTx h3
  let h5 := { h4 with LastPulse := now }
  let h6 := versionStage data h5
  let cameOnline := decide (h6.Status ≠ "online")
  let h7 := statusStage h6
  { host := h7
    dbUpdated :=
      resetDue now host || decide (deltaRx > 0 ∨ deltaTx > 0) || warned || rawChanged
        || versionChanged data h5 || cameOnline
    currentRx := currentRx
    currentTx := currentTx
    resetFired := resetDue now host
    deltaRx := deltaRx
    deltaTx := deltaTx
    warned := warned
    cameOnline := cameOnline
    notifications :=
      (if warned then
        [Notification.trafficWarning hostID h3.Name (usagePercent h2)
          (addU64 h2.NetMonthlyRx h2.NetMonthlyTx) h2.NetTrafficLimit]
      else [])
      ++ (if cameOnline && h7.NotifyOfflineEnabled then
        [Notification.backOnline hostID h7.Name]
      else []) }

/-- The effect of `UPDATE ssh_hosts SET ... WHERE id = hostID` on the table. -/
def updateRow (hosts : Nat → Option SSHHost) (hostID : Nat) (f : SSHHost → SSHHost) :
    Nat → Option SSHHost :=
  fun k => if k = hostID then (hosts k).map f else hosts k

/-- Lines 344-353: the columns `Updates` writes from the handler's copy
`host` into the stored row. -/
def persistSelected (host : SSHHost) (row : SSHHost) : SSHHost :=
  { row with
    MonitorEnabled := host.MonitorEnabled
    NetMonthlyRx := host.NetMonthlyRx
    NetMonthlyTx := host.NetMonthlyTx
    NetLastRawRx := host.NetLastRawRx
    NetLastRawTx := host.NetLastRawTx
    NetLastResetDate := host.NetLastResetDate
    TrafficAlerted := host.TrafficAlerted
    AgentVersion := host.AgentVersion
    Status := host.Status
    LastPulse := host.LastPulse }

/-- One minute in nanoseconds (`1*time.Minute`). -/
def minute : Int := 60 * 1000000000

/-- Lines 377-378: `shouldSave`. -/
def shouldSave (lastDbSave : Nat → Option Time) (hostID : Nat) (now : Time) : Bool :=
  match lastDbSave hostID with
  | none => true
  | some lastSave => decide (now.unixNano - lastSave.unixNano > minute)

/-- Lines 186-191: the handler's copy of the host after first-pulse
activation. -/
def enable (host : SSHHost) : SSHHost :=
  if !host.MonitorEnabled then { host with MonitorEnabled := true } else host

/-- Lines 356-362: the pulse as it is handed to the hub. -/
def enrich (data : MetricData) (host : SSHHost) : MetricData :=
  { data with
    NetMonthlyRx := host.NetMonthlyRx
    NetMonthlyTx := host.NetMonthlyTx
    NetTrafficLimit := host.NetTrafficLimit
    NetTrafficUsedAdjustment := host.NetTrafficUsedAdjustment
    NetTrafficCounterMode := host.NetTrafficCounterMode }

/-- Lines 386-395: the snapshot row of a pulse. -/
def snapshot (d : MetricData) : MonitorRecord :=
  { HostID := d.HostID, CPU := d.CPU, MemUsed := d.MemUsed, MemTotal := d.MemTotal,
    DiskUsed := d.DiskUsed, DiskTotal := d.DiskTotal, NetRx := d.NetRx, NetTx := d.NetTx }

/-- Whether Go's `database/sql` takes a `uint64` as the argument of a
statement: its default converter returns an error for a `uint64` whose high
bit is set, and the statement is then not run. -/
def sqlAccepts (n : Nat) : Bool := decide (n < 2 ^ 63)

/-- Whether the `UPDATE` of lines 344-354 is carried out: each of the four
`uint64` columns it writes must be a value `database/sql` takes.  `Pulse`
does not look at the result of `Updates`, and after a refused statement the
stored row is as it was.  A row of the table has passed this test whenever
it was written, so it holds of every row `Pulse` loads. -/
def writable (host : SSHHost) : Bool :=
  sqlAccepts host.NetMonthlyRx && sqlAccepts host.NetMonthlyTx
    && sqlAccepts host.NetLastRawRx && sqlAccepts host.NetLastRawTx

/-- Whether the `INSERT` of line 396 is carried out: each byte count of the
record (memory, disk and network, `uint64` like the fields of the pulse they
are copied from) must be a value `database/sql` takes.  `Pulse` does not
look at the result of `Create`, and after a refused statement no row is
added. -/
def insertable (r : MonitorRecord) : Bool :=
  sqlAccepts r.MemUsed && sqlAccepts r.MemTotal && sqlAccepts r.DiskUsed
    && sqlAccepts r.DiskTotal && sqlAccepts r.NetRx && sqlAccepts r.NetTx

/-- The handler `MonitorHandler.Pulse` at the instant `now`: the new server
state and the HTTP status of the response.  The handler does not look at the
result of its `UPDATE` of the host row (line 354) nor of its `INSERT` of the
snapshot (line 396): a statement that is refused (`writable`, `insertable`)
changes nothing in the table, while the notifications, the message to the
hub, the entry of `lastDbSave` and the response 200 are as for a statement
that is carried out. -/
def Pulse (s : Server) (req : PulseRequest) (now : Time) : Server × Nat :=
  match authenticate s req with
  | .error code => (s, code)
  | .ok (host0, data) =>
    let hosts1 :=
      if !host0.MonitorEnabled then
        updateRow s.hosts data.HostID (fun row => { row with MonitorEnabled := true })
      else s.hosts
    let out := account data.HostID (enable host0) data now
    let hosts2 :=
      if out.dbUpdated && writable out.host then
        updateRow hosts1 data.HostID (persistSelected out.host)
      else hosts1
    let sent := enrich data out.host
    let save := shouldSave s.lastDbSave data.HostID now
    ({ hosts := hosts2
       lastDbSave :=
         if save then fun k => if k = data.HostID then some now else s.lastDbSave k
         else s.lastDbSave
       notifications := s.notifications ++ out.notifications
       hub := s.hub ++ [HubEvent.update sent]
       statusLogs :=
         if out.cameOnline then
           s.statusLogs ++ [{ HostID := data.HostID, Status := "online", CreatedAt := now }]
         else s.statusLogs
       records :=
         if save && insertable (snapshot sent) then s.records ++ [(now, snapshot sent)]
         else s.records },
     200)

/-- The server after a sequence of pulse requests, each with the instant at
which it is handled. -/
def runPulses (s : Server) : List (PulseRequest × Time) → Server
  | [] => s
  | (req, now) :: rest => runPulses (Pulse s req now).1 rest

/-- Per request of a run, what the handler computed: `none` for a rejected
request, otherwise the host id and the outcome of the accounting. -/
def pulseLog (s : Server) : List (PulseRequest × Time) → List (Option (Nat × PulseOutcome))
  | [] => []
  | (req, now) :: rest =>
    (match authenticate s req with
      | .error _ => none
      | .ok (host, data) => some (data.HostID, account data.HostID (enable host) data now))
    :: pulseLog (Pulse s req now).1 rest

/-- The row of a host after an accepted pulse whose `UPDATE`, if the handler
issues one, is carried out: the handler's copy, with the heartbeat written
only when the handler writes at all. -/
def storedAfter (k : Nat) (h : SSHHost) (d : MetricData) (now : Time) : SSHHost :=
  { (account k (enable h) d now).host with
    LastPulse := if (account k (enable h) d now).dbUpdated then now else h.LastPulse }

/-! ## Concrete hosts and pulses -/

/-- The second of May 2024, `secs` seconds into the day. -/
def may2 (secs : Nat) : Time :=
  { unixNano := (1714608000 + (secs : Int)) * 1000000000, year := 2024, month := 5, day := 2 }

/-- A host that counts all interfaces, resets on the first of the month and
has no traffic limit, with the given accounting columns. -/
def plainHost (monthlyRx monthlyTx lastRawRx lastRawTx : Nat) : SSHHost :=
  { Name := "edge-1", MonitorSecret := "k3y", MonitorEnabled := true, NetInterface := "",
    NetResetDay := 1, NetLastResetDate := "2024-05-01",
    NetMonthlyRx := monthlyRx, NetMonthlyTx := monthlyTx,
    NetLastRawRx := lastRawRx, NetLastRawTx := lastRawTx,
    NetTrafficLimit := 0, NetTrafficUsedAdjustment := 0, NetTrafficCounterMode := "total",
    NotifyTrafficEnabled := true, NotifyTrafficThreshold := 90, NotifyOfflineEnabled := false,
    TrafficAlerted := false, AgentVersion := "1.0", Status := "online", LastPulse := may2 0 }

/-- A server whose only host, with primary key 1, is `host`. -/
def serverOf (host : SSHHost) : Server :=
  { hosts := fun k => if k = 1 then some host else none
    lastDbSave := fun _ => none
    notifications := [], hub := [], statusLogs := [], records := [] }

/-- A pulse of host 1 with the given totals and interface list. -/
def pulseOf (rx tx : Nat) (ifaces : List InterfaceData) : MetricData :=
  { HostID := 1, CPU := 3, MemUsed := 10, MemTotal := 20, DiskUsed := 30, DiskTotal := 40,
    NetRx := rx, NetTx := tx, Interfaces := ifaces, AgentVersion := "1.0",
    NetMonthlyRx := 0, NetMonthlyTx := 0, NetTrafficLimit := 0,
    NetTrafficUsedAdjustment := 0, NetTrafficCounterMode := "" }

/-- The request carrying `pulseOf rx tx ifaces` with the secret of the
concrete hosts. -/
def requestOf (rx tx : Nat) (ifaces : List InterfaceData) : PulseRequest :=
  { authHeader := "Bearer k3y", body := some (pulseOf rx tx ifaces) }

/-- Whether a notification is a traffic warning for host `k`. -/
def Notification.isTrafficWarning (k : Nat) : Notification → Bool
  | .trafficWarning j _ _ _ _ => decide (j = k)
  | .backOnline _ _ => false

/-- The traffic warnings for host `k` among the notifications sent. -/
def trafficWarnings (k : Nat) (ns : List Notification) : List Notification :=
  ns.filter (Notification.isTrafficWarning k)

/-- Whether handling `req` at `now` sends a traffic warning: one is among the
notifications the handler adds to those already sent. -/
def sendsTrafficWarning (s : Server) (req : PulseRequest) (now : Time) : Bool :=
  ((Pulse s req now).1.notifications.drop s.notifications.length).any
    (fun n => match n with
      | .trafficWarning _ _ _ _ _ => true
      | .backOnline _ _ => false)

/-- A host with a traffic limit of 100 bytes, the default threshold of 90
per cent and traffic notifications enabled, that counts all interfaces. -/
def meteredHost (monthlyRx lastRawRx : Nat) (alerted : Bool) (resetDay : Int) : SSHHost :=
  { plainHost monthlyRx 0 lastRawRx 0 with
    NetTrafficLimit := 100, NetResetDay := resetDay, NetLastResetDate := "2024-04-02",
    TrafficAlerted := alerted }

/-- The host `meteredHost monthlyRx lastRawRx false 2` once it has been reset
on the second of May by a pulse handled 5 seconds into the day. -/
def resetHost (monthlyRx lastRawRx : Nat) : SSHHost :=
  { meteredHost monthlyRx lastRawRx false 2 with
    NetLastResetDate := "2024-05-02", LastPulse := may2 5 }

/-- A host whose interface setting is the allow-list `eth0, eth1`. -/
def filteredHost : SSHHost :=
  { plainHost 0 0 0 0 with NetInterface := "eth0, eth1" }

/-- Three pulses of host 1 with rx 100, 150, 400 and tx 10, 20, 50. -/
def climbRequests : List (PulseRequest × Time) :=
  [(requestOf 100 10 [], may2 0), (requestOf 150 20 [], may2 0), (requestOf 400 50 [], may2 0)]

/-- What the handler computes on the first of `climbRequests`, from the row
`plainHost 0 0 0 0`. -/
def climbFirst : PulseOutcome :=
  account 1 (enable (plainHost 0 0 0 0)) (pulseOf 100 10 []) (may2 0)

/-- What the handler computes on the second and third of `climbRequests`,
from the rows the pulses before them leave. -/
def climbRest : List PulseOutcome :=
  [account 1 (enable (plainHost 0 0 100 10)) (pulseOf 150 20 []) (may2 0),
    account 1 (enable (plainHost 50 10 150 20)) (pulseOf 400 50 []) (may2 0)]

/-- Whether handling `req` at `now` sends a "back online" notification: one
is among the notifications the handler adds to those already sent. -/
def sendsBackOnline (s : Server) (req : PulseRequest) (now : Time) : Bool :=
  ((Pulse s req now).1.notifications.drop s.notifications.length).any
    (fun n => match n with
      | .trafficWarning _ _ _ _ _ => false
      | .backOnline _ _ => true)

/-- The least `uint64` whose high bit is set, `2 ^ 63`: the least counter
that `database/sql` does not take. -/
def highBit : Nat := 9223372036854775808

/-- A host that is offline and has offline notifications enabled, otherwise
like `plainHost 0 0 0 0`. -/
def offlineHost (notify : Bool) : SSHHost :=
  { plainHost 0 0 0 0 with Status := "offline", NotifyOfflineEnabled := notify }

/-- Whether a request carries a pulse of host `k`. -/
def targets (k : Nat) (r : PulseRequest × Time) : Bool :=
  match r.1.body with
  | some d => decide (d.HostID = k)
  | none => false

/-- The pulses of a run for which the handler decides to save a snapshot,
oldest first: for every accepted pulse for which `shouldSave` holds, the host
id and the instant.  The `INSERT` of such a pulse may still be refused. -/
def snapshotLog (s : Server) : List (PulseRequest × Time) → List (Nat × Time)
  | [] => []
  | (req, now) :: rest =>
    (match authenticate s req with
      | .error _ => []
      | .ok (_, data) =>
        if shouldSave s.lastDbSave data.HostID now then [(data.HostID, now)] else [])
    ++ snapshotLog (Pulse s req now).1 rest

/-- The instants at which the handler decides to save a snapshot of host
`k` in a run, oldest first. -/
def snapshotTimes (k : Nat) (s : Server) (reqs : List (PulseRequest × Time)) : List Time :=
  ((snapshotLog s reqs).filter (fun e => decide (e.1 = k))).map (fun e => e.2)

/-- The instants of the rows of host `k` in the snapshot table, oldest
first. -/
def recordTimes (k : Nat) (records : List (Time × MonitorRecord)) : List Time :=
  (records.filter (fun r => decide (r.2.HostID = k))).map (fun r => r.1)

/-- A server with two hosts: host 1 is `plainHost 500 0 1000 0` and host 2 is
`plainHost 0 0 50 0`. -/
def twoHosts : Server :=
  { hosts := fun k =>
      if k = 1 then some (plainHost 500 0 1000 0)
      else if k = 2 then some (plainHost 0 0 50 0) else none
    lastDbSave := fun _ => none
    notifications := [], hub := [], statusLogs := [], records := [] }

/-- The request carrying a pulse of host `k` with the given rx total. -/
def requestFor (k rx : Nat) : PulseRequest :=
  { authHeader := "Bearer k3y", body := some { pulseOf rx 0 [] with HostID := k } }

/-- The trimmed names of the allow-list of a host, in order. -/
def allowList (host : SSHHost) : List String :=
  (SplitComma host.NetInterface).map TrimSpace

/-- The interfaces of a pulse whose name is an entry of the allow-list. -/
def listedInterfaces (host : SSHHost) (data : MetricData) : List InterfaceData :=
  data.Interfaces.filter (fun i => decide (i.Name ∈ allowList host))

/-- A host whose allow-list names `eth0` twice. -/
def doubledHost : SSHHost :=
  { plainHost 0 0 0 0 with NetInterface := "eth0,eth0" }

/-! ## The agent's scheduler (`cmd/agent/network.go`)

Instants and durations of the agent are integers, in nanoseconds.  The map
`nm.tasks` is the list of its entries, whose order stands for the order in
which Go happens to iterate the map. -/

/-- The struct `NetworkTask`; its field `Type` is `Type_` here. -/
structure NetworkTask where
  ID : Nat
  Type_ : String
  Target : String
  Port : Int
  Frequency : Int
deriving DecidableEq, Repr

/-- The value of an integer as a Go `int64` (two's complement wrap). -/
def wrapI64 (x : Int) : Int := (x + 2 ^ 63) % 2 ^ 64 - 2 ^ 63

/-- Go `time.Second`, in nanoseconds. -/
def second : Int := 1000000000

/-- Go `t.Sub(u)`: the difference of two instants, saturated to the range of
`time.Duration`. -/
def subTime (t u : Int) : Int :=
  if t - u > 2 ^ 63 - 1 then 2 ^ 63 - 1
  else if t - u < -(2 ^ 63) then -(2 ^ 63)
  else t - u

/-- Lines 121-124 of `StartSimple`: `freq`, the product on `int64` with its
default. -/
def taskFreq (task : NetworkTask) : Int :=
  if wrapI64 (task.Frequency * second) = 0 then 60 * second
  else wrapI64 (task.Frequency * second)

/-- The condition of line 126 on the map `taskState`. -/
def due (taskState : Nat → Option Int) (task : NetworkTask) (now : Int) : Bool :=
  match taskState task.ID with
  | none => true
  | some lastRun => decide (subTime now lastRun ≥ taskFreq task)

/-- Lines 119-131: the loop of one tick over the slice `tasks`, on the map
`taskState` and the launches `go nm.executeTask(task)` made so far (newest
first, each with the instant `now` of its tick). -/
def runDue (now : Int) :
    List NetworkTask → (Nat → Option Int) × List (NetworkTask × Int) →
      (Nat → Option Int) × List (NetworkTask × Int)
  | [], st => st
  | task :: rest, (taskState, launches) =>
    if due taskState task now then
      runDue now rest
        (fun k => if k = task.ID then some now else taskState k, (task, now) :: launches)
    else runDue now rest (taskState, launches)

/-- What `syncConfig` gets from the server: no response at all (the request
could not be built or sent), or a response with its status and its body as
the JSON decoder reads it (`none` when decoding fails). -/
inductive SyncReply where
  | requestFailed
  | response (status : Int) (body : Option (List NetworkTask))
deriving DecidableEq, Repr

/-- Go `m[t.ID] = t` on the entries of a map keyed by task id. -/
def mapSet (m : List NetworkTask) (t : NetworkTask) : List NetworkTask :=
  if m.any (fun u => decide (u.ID = t.ID)) then
    m.map (fun u => if u.ID = t.ID then t else u)
  else m ++ [t]

/-- Go `m[id]` on the entries of a map keyed by task id. -/
def mapGet (id : Nat) (m : List NetworkTask) : Option NetworkTask :=
  m.find? (fun u => decide (u.ID = id))

/-- The function `syncConfig` on the map `nm.tasks`. -/
def syncConfig (tasks : List NetworkTask) : SyncReply → List NetworkTask
  | .requestFailed => tasks
  | .response status body =>
    if status ≠ 200 then tasks
    else
      match body with
      | none => tasks
      | some respTasks => respTasks.foldl mapSet []

/-- The state of the goroutine of `StartSimple`: the map `nm.tasks` it reads,
its local map `taskState`, and the launches it has made (newest first). -/
structure Runner where
  tasks : List NetworkTask
  taskState : Nat → Option Int
  launches : List (NetworkTask × Int)

/-- What wakes the goroutine of `StartSimple`: the sync ticker, with the
reply the server then gives, or the run ticker, with the instant read by
`time.Now()`. -/
inductive AgentEvent where
  | sync (reply : SyncReply)
  | tick (now : Int)
deriving DecidableEq, Repr

/-- One round of the `select` of lines 106-132. -/
def Runner.step (r : Runner) : AgentEvent → Runner
  | .sync reply => { r with tasks := syncConfig r.tasks reply }
  | .tick now =>
    { r with
      taskState := (runDue now r.tasks (r.taskState, r.launches)).1
      launches := (runDue now r.tasks (r.taskState, r.launches)).2 }

/-- The goroutine of `StartSimple` over a sequence of events. -/
def Runner.run (r : Runner) : List AgentEvent → Runner
  | [] => r
  | e :: rest => (r.step e).run rest

/-- The goroutine of `StartSimple` when it starts: `NewNetworkMonitor` has
made an empty task map, `taskState` is empty, nothing is launched. -/
def Runner.start : Runner :=
  { tasks := [], taskState := fun _ => none, launches := [] }

/-- The instant of the latest launch of the task with the given id. -/
def lastLaunch (id : Nat) : List (NetworkTask × Int) → Option Int
  | [] => none
  | (t, n) :: older => if t.ID = id then some n else lastLaunch id older

/-- The seconds between launches a task asks for: its frequency, 60 when the
frequency is 0. -/
def wantedSeconds (task : NetworkTask) : Int :=
  if task.Frequency = 0 then 60 else task.Frequency

/-- Whether every launch of a task whose frequency in nanoseconds fits a
`time.Duration` comes at least that frequency after the launch before it of
the same task id. -/
def wellSpaced : List (NetworkTask × Int) → Prop
  | [] => True
  | (t, n) :: older =>
    (∀ last, lastLaunch t.ID older = some last →
        0 ≤ t.Frequency → t.Frequency * second < 2 ^ 63 →
        n - last ≥ wantedSeconds t * second) ∧
      wellSpaced older

/-- A ping task with the given id and frequency. -/
def pingTask (id : Nat) (frequency : Int) : NetworkTask :=
  { ID := id, Type_ := "ping", Target := "198.51.100.7", Port := 0, Frequency := frequency }

/-! ## The agent's probes and report buffer (`cmd/agent/network.go`)

The `float64` values of a probe result are kept as rationals: the code only
produces them from integers and passes them on. -/

/-- The struct `NetworkResult`. -/
structure NetworkResult where
  TaskID : Nat
  Latency : Rat
  PacketLoss : Rat
  Success : Bool
  CreatedAt : Int
deriving DecidableEq, Repr

/-- The fields of the pinger's `Statistics` that `ping` reads; `AvgRtt` is a
`time.Duration`, in nanoseconds. -/
structure Statistics where
  PacketsRecv : Int
  PacketLoss : Rat
  AvgRtt : Int
deriving DecidableEq, Repr

/-- What the pinger does for a target: `probing.NewPinger` returns an error,
or `pinger.Run` returns an error, or the run ends with its statistics. -/
inductive PingRun where
  | notCreated
  | runFailed
  | finished (stats : Statistics)
deriving DecidableEq, Repr

/-- Go `d.Milliseconds()` of a `time.Duration`. -/
def milliseconds (d : Int) : Int := Int.tdiv d 1000000

/-- Go `d.Microseconds()` of a `time.Duration`. -/
def microseconds (d : Int) : Int := Int.tdiv d 1000

/-- The function `ping` on what the pinger does: `(success, latency,
packetLoss)`. -/
def ping : PingRun → Bool × Rat × Rat
  | .notCreated => (false, 0, 100)
  | .runFailed => (false, 0, 100)
  | .finished stats =>
    let success := decide (stats.PacketsRecv > 0)
    let latency : Rat := (milliseconds stats.AvgRtt : Int)
    let latency :=
      if microseconds stats.AvgRtt > 0 ∧ latency = 0 then
        ((microseconds stats.AvgRtt : Int) : Rat) / 1000
      else latency
    (success, latency, stats.PacketLoss)

/-- What `net.DialTimeout` does for an address: it returns an error, or a
connection after the given time. -/
inductive DialRun where
  | failed
  | connected (elapsed : Int)
deriving DecidableEq, Repr

/-- The function `tcping` on what the dial does: `(success, latency)`. -/
def tcping : DialRun → Bool × Rat
  | .failed => (false, 0)
  | .connected elapsed => (true, (milliseconds elapsed : Int))

/-- What the network does for the probe of one task. -/
structure ProbeRun where
  pinged : PingRun
  dialled : DialRun
deriving DecidableEq, Repr

/-- Lines 186-194 of `executeTask`: the result of the probe of `task`
launched at `now`. -/
def probeResult (task : NetworkTask) (now : Int) (net : ProbeRun) : NetworkResult :=
  if task.Type_ = "ping" then
    { TaskID := task.ID, CreatedAt := now, Success := (ping net.pinged).1,
      Latency := (ping net.pinged).2.1, PacketLoss := (ping net.pinged).2.2 }
  else if task.Type_ = "tcping" then
    { TaskID := task.ID, CreatedAt := now, Success := (tcping net.dialled).1,
      Latency := (tcping net.dialled).2, PacketLoss := 0 }
  else { TaskID := task.ID, CreatedAt := now, Success := false, Latency := 0, PacketLoss := 0 }

/-- The function `executeTask` on the buffer `nm.resultsBuf`. -/
def executeTask (resultsBuf : List NetworkResult) (task : NetworkTask) (now : Int)
    (net : ProbeRun) : List NetworkResult :=
  resultsBuf ++ [probeResult task now net]

/-- What becomes of the POST of `flushResults`: the request could not be
built, or the client returned an error, or the client returned a response. -/
inductive PostReply where
  | notBuilt
  | sendFailed
  | responded
deriving DecidableEq, Repr

/-- What `flushResults` leaves: the buffer `nm.resultsBuf`, the batch `data`
it has taken out of the buffer for the POST (`none` when it returns at line
205), and whether it writes the log line of line 225. -/
structure Flushed where
  resultsBuf : List NetworkResult
  batch : Option (List NetworkResult)
  logged : Bool
deriving DecidableEq, Repr

/-- The function `flushResults` on the buffer `nm.resultsBuf`. -/
def flushResults (resultsBuf : List NetworkResult) (reply : PostReply) : Flushed :=
  if resultsBuf.length = 0 then { resultsBuf := resultsBuf, batch := none, logged := false }
  else
    { resultsBuf := []
      batch := some resultsBuf
      logged := decide (reply = PostReply.sendFailed) }

/-- What touches the buffer: a probe that ends, or the report ticker with
what becomes of the POST. -/
inductive BufferEvent where
  | probed (task : NetworkTask) (now : Int) (net : ProbeRun)
  | flush (reply : PostReply)
deriving DecidableEq, Repr

/-- The buffer and the batches taken out of it so far, oldest first. -/
structure Reporter where
  resultsBuf : List NetworkResult
  batches : List (List NetworkResult)
deriving DecidableEq, Repr

/-- One event on the buffer. -/
def Reporter.step (r : Reporter) : BufferEvent → Reporter
  | .probed task now net => { r with resultsBuf := executeTask r.resultsBuf task now net }
  | .flush reply =>
    { resultsBuf := (flushResults r.resultsBuf reply).resultsBuf
      batches :=
        match (flushResults r.resultsBuf reply).batch with
        | some b => r.batches ++ [b]
        | none => r.batches }

/-- A sequence of events on the buffer. -/
def Reporter.run (r : Reporter) : List BufferEvent → Reporter
  | [] => r
  | e :: rest => (r.step e).run rest

/-- The results the probes of a sequence of events append, in the order of
the events. -/
def probedResults : List BufferEvent → List NetworkResult
  | [] => []
  | .probed task now net :: rest => probeResult task now net :: probedResults rest
  | .flush _ :: rest => probedResults rest

/-- A ping that got two of its three replies, with a mean round trip of
12.5 ms. -/
def lossyPing : PingRun :=
  .finished { PacketsRecv := 2, PacketLoss := 100 / 3, AvgRtt := 12500000 }

/-! ## Tasks and templates (`internal/handlers/network_monitor.go`) -/

/-- The struct `models.NetworkMonitorTask`, without its two timestamps; its
field `Type` is `Type_` here. -/
structure NetworkMonitorTask where
  ID : Nat
  HostID : Nat
  TemplateID : Nat
  Type_ : String
  Target : String
  Port : Int
  Label : String
  Frequency : Int
deriving DecidableEq, Repr

/-- The struct `models.NetworkMonitorTemplate`, without its two timestamps;
its field `Type` is `Type_` here. -/
structure NetworkMonitorTemplate where
  ID : Nat
  Name : String
  Type_ : String
  Target : String
  Port : Int
  Label : String
  Frequency : Int
  Color : String
deriving DecidableEq, Repr

/-- The struct `BatchApplyRequest`. -/
structure BatchApplyRequest where
  TemplateID : Nat
  HostIDs : List Nat
deriving DecidableEq, Repr

/-- The tables the task and template handlers work on: the hosts by primary
key, and the rows of `network_monitor_tasks` and
`network_monitor_templates`. -/
structure NetworkStore where
  hosts : Nat → Option SSHHost
  tasks : List NetworkMonitorTask
  templates : List NetworkMonitorTemplate

/-- The primary key an insert without one gets: one more than the largest
key in the table. -/
def nextID (ids : List Nat) : Nat := ids.foldl max 0 + 1

/-- The row `First` finds among those that satisfy a condition: the one with
the least primary key. -/
def firstBy {α : Type} (key : α → Nat) (p : α → Bool) (rows : List α) : Option α :=
  (rows.filter p).foldl
    (fun best row =>
      match best with
      | none => some row
      | some b => if key row < key b then some row else some b)
    none

/-- The effect of `DB.Create(&task)`: a zero `Frequency` becomes the column
default 60 (the tag `default:60` of the field), a zero `ID` becomes the next key, and the
insert fails (`none`) on a key that is taken. -/
def insertTask (tasks : List NetworkMonitorTask) (task : NetworkMonitorTask) :
    Option (List NetworkMonitorTask) :=
  let frequency := if task.Frequency = 0 then 60 else task.Frequency
  if task.ID = 0 then
    some (tasks ++ [{ task with ID := nextID (tasks.map (fun t => t.ID)), Frequency := frequency }])
  else if tasks.any (fun t => decide (t.ID = task.ID)) then none
  else some (tasks ++ [{ task with Frequency := frequency }])

/-- The effect of `DB.Save(&task)` for a row loaded from the table: every
column of the row with that key is written. -/
def saveTask (tasks : List NetworkMonitorTask) (task : NetworkMonitorTask) :
    List NetworkMonitorTask :=
  tasks.map (fun t => if t.ID = task.ID then task else t)

/-- The effect of `DB.Create(&tmpl)`: an empty `Color` becomes the column
default, a zero `ID` becomes the next key, and the insert fails (`none`) on a
key that is taken. -/
def insertTemplate (templates : List NetworkMonitorTemplate) (tmpl : NetworkMonitorTemplate) :
    Option (List NetworkMonitorTemplate) :=
  let color := if tmpl.Color = "" then "#1890ff" else tmpl.Color
  if tmpl.ID = 0 then
    some (templates ++
      [{ tmpl with ID := nextID (templates.map (fun t => t.ID)), Color := color }])
  else if templates.any (fun t => decide (t.ID = tmpl.ID)) then none
  else some (templates ++ [{ tmpl with Color := color }])

/-- The effect of `DB.Save(&tmpl)` for a row loaded from the table. -/
def saveTemplate (templates : List NetworkMonitorTemplate) (tmpl : NetworkMonitorTemplate) :
    List NetworkMonitorTemplate :=
  templates.map (fun t => if t.ID = tmpl.ID then tmpl else t)

/-- The handler `CreateTask` on the decoded body (`none` when it does not
decode): the new store and the HTTP status. -/
def CreateTask (s : NetworkStore) (body : Option NetworkMonitorTask) : NetworkStore × Nat :=
  match body with
  | none => (s, 400)
  | some task =>
    match s.hosts task.HostID with
    | none => (s, 404)
    | some _ =>
      let task := if task.Frequency ≤ 0 then { task with Frequency := 60 } else task
      match insertTask s.tasks task with
      | none => (s, 500)
      | some tasks => ({ s with tasks := tasks }, 201)

/-- The handler `UpdateTask` for the task with primary key `id`. -/
def UpdateTask (s : NetworkStore) (id : Nat) (body : Option NetworkMonitorTask) :
    NetworkStore × Nat :=
  match firstBy (fun t => t.ID) (fun t => decide (t.ID = id)) s.tasks with
  | none => (s, 404)
  | some task =>
    match body with
    | none => (s, 400)
    | some req =>
      let task := { task with Target := req.Target, Type_ := req.Type_, Port := req.Port,
                              Label := req.Label }
      let task := if req.Frequency > 0 then { task with Frequency := req.Frequency } else task
      ({ s with tasks := saveTask s.tasks task }, 200)

/-- The handler `CreateTemplate`. -/
def CreateTemplate (s : NetworkStore) (body : Option NetworkMonitorTemplate) :
    NetworkStore × Nat :=
  match body with
  | none => (s, 400)
  | some tmpl =>
    let tmpl := if tmpl.Frequency ≤ 0 then { tmpl with Frequency := 60 } else tmpl
    let tmpl := if tmpl.Color = "" then { tmpl with Color := "#1890ff" } else tmpl
    match insertTemplate s.templates tmpl with
    | none => (s, 500)
    | some templates => ({ s with templates := templates }, 201)

/-- The handler `UpdateTemplate` for the template with primary key `id`. -/
def UpdateTemplate (s : NetworkStore) (id : Nat) (body : Option NetworkMonitorTemplate) :
    NetworkStore × Nat :=
  match body with
  | none => (s, 400)
  | some req =>
    match firstBy (fun t => t.ID) (fun t => decide (t.ID = id)) s.templates with
    | none => (s, 404)
    | some tmpl =>
      let tmpl := { tmpl with Name := req.Name, Type_ := req.Type_, Target := req.Target,
                              Port := req.Port, Frequency := req.Frequency, Label := req.Label,
                              Color := req.Color }
      ({ s with templates := saveTemplate s.templates tmpl }, 200)

/-- The loop of `BatchApplyTemplate` over the host ids, on the task table
inside the transaction (`none` when an insert fails and the transaction is
rolled back). -/
def applyTemplate (templateID : Nat) (tmpl : NetworkMonitorTemplate) :
    List Nat → List NetworkMonitorTask → Option (List NetworkMonitorTask)
  | [], tasks => some tasks
  | hostID :: rest, tasks =>
    match firstBy (fun t => t.ID)
        (fun t => decide (t.HostID = hostID ∧ t.Type_ = tmpl.Type_
          ∧ t.Target = tmpl.Target ∧ t.Port = tmpl.Port)) tasks with
    | some task =>
      applyTemplate templateID tmpl rest
        (saveTask tasks
          { task with TemplateID := templateID, Frequency := tmpl.Frequency,
                      Label := tmpl.Label })
    | none =>
      match insertTask tasks
          { ID := 0, HostID := hostID, TemplateID := templateID, Type_ := tmpl.Type_,
            Target := tmpl.Target, Port := tmpl.Port, Frequency := tmpl.Frequency,
            Label := tmpl.Label } with
      | none => none
      | some tasks => applyTemplate templateID tmpl rest tasks

/-- The handler `BatchApplyTemplate`. -/
def BatchApplyTemplate (s : NetworkStore) (body : Option BatchApplyRequest) :
    NetworkStore × Nat :=
  match body with
  | none => (s, 400)
  | some req =>
    match firstBy (fun t => t.ID) (fun t => decide (t.ID = req.TemplateID)) s.templates with
    | none => (s, 404)
    | some tmpl =>
      match applyTemplate req.TemplateID tmpl req.HostIDs s.tasks with
      | none => (s, 500)
      | some tasks => ({ s with tasks := tasks }, 200)

/-- A request to one of the five handlers that write tasks or templates. -/
inductive StoreRequest where
  | createTask (body : Option NetworkMonitorTask)
  | updateTask (id : Nat) (body : Option NetworkMonitorTask)
  | createTemplate (body : Option NetworkMonitorTemplate)
  | updateTemplate (id : Nat) (body : Option NetworkMonitorTemplate)
  | batchApplyTemplate (body : Option BatchApplyRequest)

/-- The store after one request. -/
def NetworkStore.handle (s : NetworkStore) : StoreRequest → NetworkStore
  | .createTask body => (CreateTask s body).1
  | .updateTask id body => (UpdateTask s id body).1
  | .createTemplate body => (CreateTemplate s body).1
  | .updateTemplate id body => (UpdateTemplate s id body).1
  | .batchApplyTemplate body => (BatchApplyTemplate s body).1

/-- The store after a sequence of requests. -/
def NetworkStore.handleAll (s : NetworkStore) : List StoreRequest → NetworkStore
  | [] => s
  | r :: rest => (s.handle r).handleAll rest

/-- Whether every stored task has a positive frequency. -/
def frequenciesPositive (s : NetworkStore) : Bool :=
  s.tasks.all (fun t => decide (t.Frequency > 0))

/-- Whether every stored template has a positive frequency. -/
def templatesPositive (s : NetworkStore) : Bool :=
  s.templates.all (fun t => decide (t.Frequency > 0))

/-- A store with host 1, no task and no template. -/
def emptyStore : NetworkStore :=
  { hosts := fun k => if k = 1 then some (plainHost 0 0 0 0) else none
    tasks := [], templates := [] }

/-- A ping template with the given frequency. -/
def pingTemplate (frequency : Int) : NetworkMonitorTemplate :=
  { ID := 0, Name := "dns", Type_ := "ping", Target := "198.51.100.7", Port := 0,
    Label := "dns", Frequency := frequency, Color := "#52c41a" }

/-- A template is created with frequency 30 and applied to host 1; then it is
updated with the given frequency and applied to host 1 again. -/
def retuneRequests (frequency : Int) : List StoreRequest :=
  [ .createTemplate (some (pingTemplate 30)),
    .batchApplyTemplate (some { TemplateID := 1, HostIDs := [1] }),
    .updateTemplate 1 (some (pingTemplate frequency)),
    .batchApplyTemplate (some { TemplateID := 1, HostIDs := [1] }) ]

/-- A template is created with frequency 30, updated with the given frequency
and then applied to host 1, which has no task yet. -/
def freshRequests (frequency : Int) : List StoreRequest :=
  [ .createTemplate (some (pingTemplate 30)),
    .updateTemplate 1 (some (pingTemplate frequency)),
    .batchApplyTemplate (some { TemplateID := 1, HostIDs := [1] }) ]

/-! ## Stopping the monitor (`internal/handlers/monitor.go`)

The SSH session the handlers open to stop the agent on the remote machine
does not touch the server state and is left out. -/

/-- The write `Update("monitor_enabled", false)` on the row of a host. -/
def disable (hosts : Nat → Option SSHHost) (hostID : Nat) : Nat → Option SSHHost :=
  updateRow hosts hostID (fun row => { row with MonitorEnabled := false })

/-- The handler `Stop` for the host whose primary key the path parameter
`id` spells. -/
def Stop (s : Server) (id : Nat) : Server × Nat :=
  match s.hosts id with
  | none => (s, 404)
  | some _ =>
    ({ s with hub := s.hub ++ [HubEvent.removeHost id], hosts := disable s.hosts id }, 200)

/-- The function `stopMonitorOnHost` for the loaded host with primary key
`id`. -/
def stopMonitorOnHost (s : Server) (id : Nat) : Server :=
  { s with hosts := disable s.hosts id }

/-- The handler `BatchStop` on the decoded list of host ids (`none` when the
body does not decode).  The goroutines of the hosts are taken one after the
other. -/
def BatchStop (s : Server) (body : Option (List Nat)) : Server × Nat :=
  match body with
  | none => (s, 400)
  | some hostIDs =>
    if hostIDs.length = 0 then (s, 400)
    else
      (hostIDs.foldl
        (fun s id =>
          match s.hosts id with
          | none => s
          | some _ => stopMonitorOnHost s id)
        s, 200)

/-- The handler `UninstallCallback` on the query parameters `secret` and
`host_id`, the latter as the primary key it spells (`none` when it is
empty). -/
def UninstallCallback (s : Server) (secret : String) (hostID : Option Nat) : Server × Nat :=
  match hostID with
  | none => (s, 400)
  | some id =>
    if secret = "" then (s, 400)
    else
      match s.hosts id with
      | none => (s, 404)
      | some host =>
        if host.MonitorSecret ≠ secret then (s, 403)
        else ({ s with hosts := disable s.hosts id }, 200)

/-! ## Two pulses at the same time -/

/-- Lines 186-401 of `Pulse` for a handler that has loaded the row `host0`
and decoded the pulse `data`, on the server state `s` it finds when it goes
on. -/
def finishPulse (s : Server) (host0 : SSHHost) (data : MetricData) (now : Time) : Server :=
  let hosts1 :=
    if !host0.MonitorEnabled then
      updateRow s.hosts data.HostID (fun row => { row with MonitorEnabled := true })
    else s.hosts
  let out := account data.HostID (enable host0) data now
  let hosts2 :=
    if out.dbUpdated && writable out.host then
      updateRow hosts1 data.HostID (persistSelected out.host)
    else hosts1
  let sent := enrich data out.host
  let save := shouldSave s.lastDbSave data.HostID now
  { hosts := hosts2
    lastDbSave :=
      if save then fun k => if k = data.HostID then some now else s.lastDbSave k
      else s.lastDbSave
    notifications := s.notifications ++ out.notifications
    hub := s.hub ++ [HubEvent.update sent]
    statusLogs :=
      if out.cameOnline then
        s.statusLogs ++ [{ HostID := data.HostID, Status := "online", CreatedAt := now }]
      else s.statusLogs
    records :=
      if save && insertable (snapshot sent) then s.records ++ [(now, snapshot sent)]
      else s.records }

/-- Two requests handled at the same time, in the order of events that the
handler allows by holding nothing between its load of the row (line 175) and
its write (line 344): both handlers load from `s`, then the handler of
`first` goes on to its end at `t1`, then the handler of `second` at `t2`. -/
def racedPulses (s : Server) (first second : PulseRequest) (t1 t2 : Time) : Server :=
  match authenticate s first, authenticate s second with
  | .ok (h1, d1), .ok (h2, d2) => finishPulse (finishPulse s h1 d1 t1) h2 d2 t2
  | .ok (h1, d1), .error _ => finishPulse s h1 d1 t1
  | .error _, .ok (h2, d2) => finishPulse s h2 d2 t2
  | .error _, .error _ => s

/-! ## The hub and `MonitorHandler.Stream` -/

/-- Modelled from the spec: what reaches the hub's coordination loop
(package `internal/monitor`, outside the given sources): a connection to
register, a connection to unregister, or an event to broadcast. -/
inductive HubMsg where
  | register (conn : Nat)
  | unregister (conn : Nat)
  | broadcast (event : HubEvent)
deriving DecidableEq, Repr

/-- Modelled from the spec: the state of the hub: its viewer set, and every
delivery it has made (connection and event, oldest first). -/
structure Hub where
  viewers : List Nat
  delivered : List (Nat × HubEvent)
deriving DecidableEq, Repr

/-- Modelled from the spec: one turn of the hub's loop `run`, which takes the
messages one at a time: `register` adds a viewer, `unregister` removes it
(whether or not it is in the set), a broadcast is delivered to every viewer
in the set. -/
def Hub.step (h : Hub) : HubMsg → Hub
  | .register conn =>
    if conn ∈ h.viewers then h else { h with viewers := h.viewers ++ [conn] }
  | .unregister conn => { h with viewers := h.viewers.filter (fun c => decide (c ≠ conn)) }
  | .broadcast event =>
    { h with delivered := h.delivered ++ h.viewers.map (fun c => (c, event)) }

/-- Modelled from the spec: the hub's loop over a sequence of messages. -/
def Hub.run (h : Hub) : List HubMsg → Hub
  | [] => h
  | m :: rest => (h.step m).run rest

/-- The events delivered to a connection, oldest first. -/
def Hub.received (h : Hub) (conn : Nat) : List HubEvent :=
  (h.delivered.filter (fun d => decide (d.1 = conn))).map (fun d => d.2)

/-- The events a sequence of messages asks the hub to broadcast, in order. -/
def broadcasts : List HubMsg → List HubEvent
  | [] => []
  | .broadcast event :: rest => event :: broadcasts rest
  | _ :: rest => broadcasts rest

/-- The keep-alive loop of `Stream` (lines 417-423) over the outcomes of its
calls of `conn.ReadMessage` (`true` for a message, `false` for an error): the
messages it sends to the hub. -/
def keepAlive (conn : Nat) : List Bool → List HubMsg
  | [] => []
  | ok :: rest => if ok then keepAlive conn rest else [HubMsg.unregister conn]

/-- The handler `Stream` for a connection: the messages it sends to the hub,
given whether the upgrade to a WebSocket succeeds and the outcomes of its
reads so far. -/
def Stream (upgraded : Bool) (conn : Nat) (reads : List Bool) : List HubMsg :=
  if !upgraded then [] else HubMsg.register conn :: keepAlive conn reads

/-! ## `SSHHostHandler.Update` (`internal/handlers/ssh_host.go`) -/

/-- The struct `UpdateSSHHostRequest`: the fields that bear on the columns of
`SSHHost`, and the two credentials.  Its other fields (`Host`, `Port`,
`Username`, `AuthType`, `GroupName`, `Tags`, `Description`, `HostType`,
`NotifyOfflineThreshold`, `NotifyChannels`) go to columns of their own that
`SSHHost` does not have. -/
structure UpdateSSHHostRequest where
  Name : String
  Password : String
  PrivateKey : String
  NetInterface : String
  NetResetDay : Int
  NetTrafficLimit : Nat
  NetTrafficUsedAdjustment : Nat
  NetTrafficCounterMode : String
  NotifyOfflineEnabled : Option Bool
  NotifyTrafficEnabled : Option Bool
  NotifyTrafficThreshold : Int
  ResetTraffic : Bool
deriving DecidableEq, Repr

/-- Lines 270-284 of `Update`: the interface selection. -/
def interfaceStage (req : UpdateSSHHostRequest) (host : SSHHost) : SSHHost :=
  if req.NetInterface ≠ "" then
    if host.NetInterface ≠ req.NetInterface then
      { host with NetLastRawRx := 0, NetLastRawTx := 0, NetInterface := req.NetInterface }
    else { host with NetInterface := req.NetInterface }
  else host

/-- Lines 290-350 of `Update`: the traffic reset. -/
def resetTrafficStage (req : UpdateSSHHostRequest) (now : Time) (host : SSHHost) : SSHHost :=
  if req.ResetTraffic then
    { host with
      NetMonthlyRx := 0
      NetMonthlyTx := 0
      NetLastResetDate := now.FormatDate
      TrafficAlerted := false
      NetTrafficUsedAdjustment := 0 }
  else host

/-- Lines 357-363 of `Update`: the traffic limit, the adjustment and the
counter mode. -/
def limitStage (req : UpdateSSHHostRequest) (host : SSHHost) : SSHHost :=
  if req.ResetTraffic ∨ req.NetTrafficLimit > 0 ∨ req.NetTrafficUsedAdjustment > 0
      ∨ req.NetTrafficCounterMode ≠ "" then
    { host with
      NetTrafficLimit := req.NetTrafficLimit
      NetTrafficUsedAdjustment := req.NetTrafficUsedAdjustment
      NetTrafficCounterMode :=
        if req.NetTrafficCounterMode ≠ "" then req.NetTrafficCounterMode
        else host.NetTrafficCounterMode }
  else host

/-- Lines 387-398 of `Update`: the notification settings. -/
def notifyStage (req : UpdateSSHHostRequest) (host : SSHHost) : SSHHost :=
  { host with
    NotifyOfflineEnabled := req.NotifyOfflineEnabled.getD host.NotifyOfflineEnabled
    NotifyTrafficEnabled := req.NotifyTrafficEnabled.getD host.NotifyTrafficEnabled
    NotifyTrafficThreshold :=
      if req.NotifyTrafficThreshold ≠ 0 then req.NotifyTrafficThreshold
      else host.NotifyTrafficThreshold }

/-- Lines 243-398 of `Update`: the handler's copy of the host after the
request has been applied to it. -/
def editHost (req : UpdateSSHHostRequest) (now : Time) (host : SSHHost) : SSHHost :=
  let h1 := if req.Name ≠ "" then { host with Name := req.Name } else host
  let h2 := interfaceStage req h1
  let h3 :=
    if req.NetResetDay > 0 ∧ req.NetResetDay ≤ 31 then { h2 with NetResetDay := req.NetResetDay }
    else h2
  notifyStage req (limitStage req (resetTrafficStage req now h3))

/-- Lines 424-439 of `Update`: the columns `Select(fields).Updates` writes
from the handler's copy `host` into the stored row. -/
def writeSelected (resetTraffic : Bool) (host : SSHHost) (row : SSHHost) : SSHHost :=
  let row :=
    { row with
      Name := host.Name
      MonitorEnabled := host.MonitorEnabled
      MonitorSecret := host.MonitorSecret
      NetInterface := host.NetInterface
      NetResetDay := host.NetResetDay
      NetTrafficLimit := host.NetTrafficLimit
      NetTrafficUsedAdjustment := host.NetTrafficUsedAdjustment
      NetTrafficCounterMode := host.NetTrafficCounterMode
      NotifyOfflineEnabled := host.NotifyOfflineEnabled
      NotifyTrafficEnabled := host.NotifyTrafficEnabled
      NotifyTrafficThreshold := host.NotifyTrafficThreshold }
  if resetTraffic then
    { row with
      NetMonthlyRx := host.NetMonthlyRx
      NetMonthlyTx := host.NetMonthlyTx
      NetLastResetDate := host.NetLastResetDate
      TrafficAlerted := host.TrafficAlerted }
  else row

/-- A call of `Update`: the user of the session, the `id` of the path, the
decoded body (`none` when it does not decode or fails validation), who owns
each row (the column `user_id`, which `SSHHost` does not have), and whether
`utils.EncryptAES` fails. -/
structure UpdateCall where
  userID : Nat
  id : Nat
  body : Option UpdateSSHHostRequest
  owner : Nat → Nat
  encryptFails : Bool

/-- The handler `SSHHostHandler.Update` at the instant `now`: the new table
of hosts and the HTTP status. -/
def SSHHostHandler.Update (hosts : Nat → Option SSHHost) (call : UpdateCall) (now : Time) :
    (Nat → Option SSHHost) × Nat :=
  match call.body with
  | none => (hosts, 400)
  | some req =>
    match hosts call.id with
    | none => (hosts, 404)
    | some host0 =>
      if call.owner call.id ≠ call.userID then (hosts, 404)
      else if (req.Password ≠ "" ∨ req.PrivateKey ≠ "") ∧ call.encryptFails then (hosts, 500)
      else
        (updateRow hosts call.id (writeSelected req.ResetTraffic (editHost req now host0)), 200)

/-- The columns that hold what the pulses of a host have measured. -/
def monitoringColumns (h : SSHHost) : Nat × Nat × Nat × Nat × String × Bool × String × Time :=
  (h.NetMonthlyRx, h.NetMonthlyTx, h.NetLastRawRx, h.NetLastRawTx, h.NetLastResetDate,
    h.TrafficAlerted, h.Status, h.LastPulse)

/-- A host that counts the interface `eth0`, with raw counters 1000 and 800
from its last pulse. -/
def eth0Host : SSHHost :=
  { plainHost 0 0 1000 800 with NetInterface := "eth0" }

/-- A request that changes nothing but the interface selection, to `eth1`. -/
def toEth1 : UpdateSSHHostRequest :=
  { Name := "", Password := "", PrivateKey := "", NetInterface := "eth1", NetResetDay := 0,
    NetTrafficLimit := 0, NetTrafficUsedAdjustment := 0, NetTrafficCounterMode := "",
    NotifyOfflineEnabled := none, NotifyTrafficEnabled := none, NotifyTrafficThreshold := 0,
    ResetTraffic := false }

/-- The call of `Update` on host 1 by its owner with the body `req`. -/
def callOf (req : UpdateSSHHostRequest) : UpdateCall :=
  { userID := 7, id := 1, body := some req, owner := fun _ => 7, encryptFails := false }

/-- The server whose only host is `eth0Host`, after the call `callOf toEth1`
of `Update`. -/
def afterToEth1 : Server :=
  { serverOf eth0Host with
    hosts := (SSHHostHandler.Update (serverOf eth0Host).hosts (callOf toEth1) (may2 100)).1 }

/-- A pulse of host 1 whose interface `eth0` has counted 1200 and 900 bytes
and whose interface `eth1` has counted 5000 and 4000 bytes. -/
def twoInterfaces : PulseRequest :=
  requestOf 6200 4900
    [{ Name := "eth0", Rx := 1200, Tx := 900 }, { Name := "eth1", Rx := 5000, Tx := 4000 }]

/-! ## The usage percentage -/

/-- The usage percentage in exact arithmetic:
`floor ((monthly_rx + monthly_tx) * 100 / limit)`. -/
def exactPercent (host : SSHHost) : Nat :=
  (host.NetMonthlyRx + host.NetMonthlyTx) * 100 / host.NetTrafficLimit

/-- A host with a traffic limit of one terabyte (`10 ^ 12` bytes), the
default threshold and traffic notifications enabled, whose last raw counter
is 1000 and whose monthly totals are 0. -/
def hugeHost : SSHHost :=
  { plainHost 0 0 1000 0 with NetTrafficLimit := 1000000000000 }

/-- A pulse of host 1 whose rx counter has grown by 184467440737095517 bytes,
the least number whose product by 100 does not fit a `uint64`. -/
def hugePulse : PulseRequest := requestOf (184467440737095517 + 1000) 0 []

/-! ## Allowed origins (`internal/config/db_sync.go`)

A Go string is the sequence of its bytes, each a number below 256; the
length of a string and the indices of a slice count bytes.  The loop
`for _, char := range s` reads the string as UTF-8, one rune at a time. -/

/-- A Go string: its bytes. -/
abbrev GoString : Type := List Nat

/-- The byte of the double quote. -/
def quoteByte : Nat := 34

/-- The byte of the comma. -/
def commaByte : Nat := 44

/-- The byte of the opening bracket. -/
def openByte : Nat := 91

/-- The byte of the closing bracket. -/
def closeByte : Nat := 93

/-- The rune U+FFFD that Go's decoder gives for bytes that are not UTF-8. -/
def RuneError : Nat := 65533

/-- Whether `b` is a continuation byte of UTF-8 (`0x80` to `0xBF`). -/
def isCont (b : Nat) : Bool := decide (128 ≤ b ∧ b ≤ 191)

/-- The least second byte Go's decoder takes after the first byte `b0` of a
sequence of three or four bytes. -/
def secondLo (b0 : Nat) : Nat :=
  if b0 = 224 then 160 else if b0 = 240 then 144 else 128

/-- The greatest second byte Go's decoder takes after the first byte `b0` of
a sequence of three or four bytes. -/
def secondHi (b0 : Nat) : Nat :=
  if b0 = 237 then 159 else if b0 = 244 then 143 else 191

/-- Go `utf8.DecodeRuneInString`: the rune at the start of the string and
the number of bytes it takes.  Bytes that do not start the UTF-8 encoding of
a rune (a stray or missing continuation byte, an overlong form, a surrogate,
a value above U+10FFFF) give `RuneError` and the width 1. -/
def decodeRune : GoString → Nat × Nat
  | [] => (RuneError, 0)
  | b0 :: rest =>
    if b0 < 128 then (b0, 1)
    else if 194 ≤ b0 ∧ b0 ≤ 223 then
      match rest with
      | b1 :: _ =>
        if isCont b1 then ((b0 - 192) * 64 + (b1 - 128), 2) else (RuneError, 1)
      | [] => (RuneError, 1)
    else if 224 ≤ b0 ∧ b0 ≤ 239 then
      match rest with
      | b1 :: b2 :: _ =>
        if secondLo b0 ≤ b1 ∧ b1 ≤ secondHi b0 ∧ isCont b2 = true then
          ((b0 - 224) * 4096 + (b1 - 128) * 64 + (b2 - 128), 3)
        else (RuneError, 1)
      | _ => (RuneError, 1)
    else if 240 ≤ b0 ∧ b0 ≤ 244 then
      match rest with
      | b1 :: b2 :: b3 :: _ =>
        if secondLo b0 ≤ b1 ∧ b1 ≤ secondHi b0 ∧ isCont b2 = true ∧ isCont b3 = true then
          ((b0 - 240) * 262144 + (b1 - 128) * 4096 + (b2 - 128) * 64 + (b3 - 128), 4)
        else (RuneError, 1)
      | _ => (RuneError, 1)
    else (RuneError, 1)

/-- Go `string(char)` for a rune: its UTF-8 encoding, that of U+FFFD for a
surrogate or a value above U+10FFFF. -/
def encodeRune (r : Nat) : GoString :=
  if r < 128 then [r]
  else if r < 2048 then [192 + r / 64, 128 + r % 64]
  else if r > 1114111 ∨ (55296 ≤ r ∧ r ≤ 57343) then [239, 191, 189]
  else if r < 65536 then [224 + r / 4096, 128 + r / 64 % 64, 128 + r % 64]
  else [240 + r / 262144, 128 + r / 4096 % 64, 128 + r / 64 % 64, 128 + r % 64]

/-- Go `fmt.Sprintf` with the format of line 113: the bytes of the origin
between two double quotes, nothing escaped. -/
def quoted (origin : GoString) : GoString := quoteByte :: (origin ++ [quoteByte])

/-- For each origin a comma and the origin between double quotes: what the
loop of `SaveAllowedOrigins` appends for the origins after the first. -/
def tailBytes (origins : List GoString) : GoString :=
  origins.flatMap (fun o => commaByte :: quoted o)

/-- The loop of lines 109-114 of `SaveAllowedOrigins` on `originsJSON`, from
index `i` on. -/
def appendOrigins : List GoString → Nat → GoString → GoString
  | [], _, originsJSON => originsJSON
  | origin :: rest, i, originsJSON =>
    appendOrigins rest (i + 1)
      ((if i > 0 then originsJSON ++ [commaByte] else originsJSON) ++ quoted origin)

/-- Lines 105-119 of `SaveAllowedOrigins`: `originsJSON`. -/
def originsJSON (origins : List GoString) : GoString :=
  if origins.length > 0 then appendOrigins origins 0 [openByte] ++ [closeByte]
  else [openByte, closeByte]

/-- The function `SaveAllowedOrigins` on the value stored under the key
`server.allowed_origins` (`none` when there is no such record): the value
stored afterwards. -/
def SaveAllowedOrigins (_stored : Option GoString) (origins : List GoString) :
    Option GoString :=
  some (originsJSON origins)

/-- The loop of `splitJSON` over the bytes of `s` on `result`, `current` and
`inQuote`, with the final append of lines 194-196.  The loop takes a rune at
a time: `skip` counts the bytes still to pass that belong to the rune taken
last. -/
def splitLoop : GoString → Nat → List GoString → GoString → Bool → List GoString
  | [], _, result, current, _ => if current ≠ [] then result ++ [current] else result
  | _ :: rest, skip + 1, result, current, inQuote => splitLoop rest skip result current inQuote
  | b :: rest, 0, result, current, inQuote =>
    if (decodeRune (b :: rest)).1 = quoteByte then
      splitLoop rest ((decodeRune (b :: rest)).2 - 1) result
        (current ++ encodeRune (decodeRune (b :: rest)).1) (!inQuote)
    else if (decodeRune (b :: rest)).1 = commaByte ∧ inQuote = false then
      if current ≠ [] then
        splitLoop rest ((decodeRune (b :: rest)).2 - 1) (result ++ [current]) [] inQuote
      else splitLoop rest ((decodeRune (b :: rest)).2 - 1) result current inQuote
    else
      splitLoop rest ((decodeRune (b :: rest)).2 - 1) result
        (current ++ encodeRune (decodeRune (b :: rest)).1) inQuote

/-- The function `splitJSON`. -/
def splitJSON (s : GoString) : List GoString := splitLoop s 0 [] [] false

/-- Go `s[1 : len(s)-1]` on the bytes of `s`: `none` when the slice bounds
are out of range (a string of fewer than two bytes) and the expression
panics. -/
def stripEnds (s : GoString) : Option GoString :=
  if s.length < 2 then none else some ((s.drop 1).take (s.length - 2))

/-- The loop of lines 162-166 of `LoadAllowedOrigins` over the parts. -/
def stripAll : List GoString → Option (List GoString)
  | [] => some []
  | part :: rest =>
    match stripEnds part, stripAll rest with
    | some origin, some origins => some (origin :: origins)
    | _, _ => none

/-- The function `LoadAllowedOrigins` on the value stored under the key
`server.allowed_origins` (`none` when there is no such record): the origins
it returns, or `none` when it panics. -/
def LoadAllowedOrigins (stored : Option GoString) : Option (List GoString) :=
  match stored with
  | none => some []
  | some value =>
    if value = [] ∨ value = [openByte, closeByte] then some []
    else
      match stripEnds value with
      | none => none
      | some inner => if inner = [] then some [] else stripAll (splitJSON inner)

/-- The bytes of a string of ASCII characters. -/
def bytesOf (s : String) : GoString := s.data.map Char.toNat

/-- The origin made of `a`, a double quote, a comma and `b`. -/
def oddOrigin : GoString := [97, quoteByte, commaByte, 98]

/-- The origin made of `a`, a double quote, `,b,`, a double quote and `c`. -/
def brokenOrigin : GoString := [97, quoteByte, commaByte, 98, commaByte, quoteByte, 99]

/-- What a loop `for _, char := range s` builds when it appends
`string(char)` for every rune of `s`: the string itself when it is UTF-8,
and otherwise the string with the three bytes of U+FFFD in place of each
byte that is not part of the encoding of a rune.  `skip` counts the bytes
still to pass that belong to the rune taken last. -/
def rangeCopy : GoString → Nat → GoString
  | [], _ => []
  | _ :: rest, skip + 1 => rangeCopy rest skip
  | b :: rest, 0 =>
    encodeRune (decodeRune (b :: rest)).1 ++ rangeCopy rest ((decodeRune (b :: rest)).2 - 1)

/-- Go `utf8.ValidString`: at no rune of the string does the decoder give
`RuneError` with the width 1.  `skip` counts the bytes still to pass that
belong to the rune taken last. -/
def validUTF8 : GoString → Nat → Bool
  | [], _ => true
  | _ :: rest, skip + 1 => validUTF8 rest skip
  | b :: rest, 0 =>
    decide (decodeRune (b :: rest) ≠ (RuneError, 1))
      && validUTF8 rest ((decodeRune (b :: rest)).2 - 1)

/-! ## Basic facts -/

theorem addU64_lt (a b : Nat) : addU64 a b < u64 := by
  unfold addU64; exact Nat.mod_lt _ (by unfold u64; positivity)

theorem addU64_exact {a b : Nat} (h : a + b < u64) : addU64 a b = a + b := by
  unfold addU64; exact Nat.mod_eq_of_lt h

theorem delta_le (l c : Nat) : delta l c ≤ c := by
  unfold delta; split_ifs <;> omega

theorem enable_eq (h : SSHHost) : enable h = { h with MonitorEnabled := true } := by
  unfold enable; cases hm : h.MonitorEnabled <;> simp
  cases h; simp_all

theorem resetStage_eq (now : Time) (h : SSHHost) :
    resetStage now h =
      { h with
        NetMonthlyRx := if resetDue now h then 0 else h.NetMonthlyRx
        NetMonthlyTx := if resetDue now h then 0 else h.NetMonthlyTx
        NetLastResetDate := if resetDue now h then now.FormatDate else h.NetLastResetDate
        TrafficAlerted := if resetDue now h then false else h.TrafficAlerted } := by
  unfold resetStage; split_ifs <;> rfl

theorem accumulateStage_eq (a b : Nat) (h : SSHHost) :
    accumulateStage a b h =
      { h with
        NetMonthlyRx := if a > 0 ∨ b > 0 then addU64 h.NetMonthlyRx a else h.NetMonthlyRx
        NetMonthlyTx := if a > 0 ∨ b > 0 then addU64 h.NetMonthlyTx b else h.NetMonthlyTx } := by
  unfold accumulateStage accumulate; split_ifs <;> rfl

theorem alertStage_eq (w : Bool) (h : SSHHost) :
    alertStage w h = { h with TrafficAlerted := w || h.TrafficAlerted } := by
  unfold alertStage; cases w <;> simp

theorem rawStage_eq (a b : Nat) (h : SSHHost) :
    rawStage a b h = { h with NetLastRawRx := a, NetLastRawTx := b } := by
  unfold rawStage; split_ifs with hc
  · rfl
  · have h1 : h.NetLastRawRx = a := by by_contra hne; exact hc (Or.inl hne)
    have h2 : h.NetLastRawTx = b := by by_contra hne; exact hc (Or.inr hne)
    subst h1; subst h2; rfl

theorem versionStage_eq (d : MetricData) (h : SSHHost) :
    versionStage d h =
      { h with AgentVersion := if d.AgentVersion ≠ "" then d.AgentVersion else h.AgentVersion } := by
  unfold versionStage versionChanged
  by_cases h1 : d.AgentVersion = ""
  · simp [h1]
  · by_cases h2 : h.AgentVersion = d.AgentVersion
    · simp [h1, h2]; rw [← h2]
    · simp [h1, h2]

theorem statusStage_eq (h : SSHHost) : statusStage h = { h with Status := "online" } := by
  unfold statusStage; split_ifs with hc
  · rfl
  · have h1 : h.Status = "online" := by by_contra hne; exact hc hne
    rw [← h1]

theorem account_host_eq (k : Nat) (h : SSHHost) (d : MetricData) (now : Time) :
    (account k h d now).host =
      { h with
        NetMonthlyRx :=
          if (account k h d now).deltaRx > 0 ∨ (account k h d now).deltaTx > 0 then
            addU64 (if resetDue now h then 0 else h.NetMonthlyRx) (account k h d now).deltaRx
          else if resetDue now h then 0 else h.NetMonthlyRx
        NetMonthlyTx :=
          if (account k h d now).deltaRx > 0 ∨ (account k h d now).deltaTx > 0 then
            addU64 (if resetDue now h then 0 else h.NetMonthlyTx) (account k h d now).deltaTx
          else if resetDue now h then 0 else h.NetMonthlyTx
        NetLastResetDate := if resetDue now h then now.FormatDate else h.NetLastResetDate
        TrafficAlerted :=
          (account k h d now).warned || (if resetDue now h then false else h.TrafficAlerted)
        NetLastRawRx := (selectCounters h d).1
        NetLastRawTx := (selectCounters h d).2
        LastPulse := now
        AgentVersion := if d.AgentVersion ≠ "" then d.AgentVersion else h.AgentVersion
        Status := "online" } := by
  simp only [account, resetStage_eq, accumulateStage_eq, alertStage_eq, rawStage_eq,
    versionStage_eq, statusStage_eq]


theorem persistSelected_account (k : Nat) (h : SSHHost) (d : MetricData) (now : Time) :
    persistSelected (account k h d now).host h = (account k h d now).host := by
  rw [account_host_eq]; rfl

theorem account_idle (k : Nat) (h : SSHHost) (d : MetricData) (now : Time)
    (hd : (account k h d now).dbUpdated = false) :
    { (account k h d now).host with LastPulse := h.LastPulse } = h := by
  have hd2 := hd
  simp only [account, resetStage_eq, accumulateStage_eq, alertStage_eq, rawStage_eq,
    versionStage_eq, statusStage_eq, versionChanged, Bool.or_eq_false_iff,
    decide_eq_false_iff_not] at hd2
  obtain ⟨⟨⟨⟨⟨h1, h2⟩, h3⟩, h4⟩, h5⟩, h6⟩ := hd2
  have e1 : (account k h d now).deltaRx = delta h.NetLastRawRx (selectCounters h d).1 := by
    simp only [account, resetStage_eq]
  have e2 : (account k h d now).deltaTx = delta h.NetLastRawTx (selectCounters h d).2 := by
    simp only [account, resetStage_eq]
  have e3 : (account k h d now).warned = false := by
    simp only [account, resetStage_eq, accumulateStage_eq]; exact h3
  rw [account_host_eq, e1, e2, e3]
  have r1 : (selectCounters h d).1 = h.NetLastRawRx := by
    by_contra hne; exact h4 (Or.inl (Ne.symm hne))
  have r2 : (selectCounters h d).2 = h.NetLastRawTx := by
    by_contra hne; exact h4 (Or.inr (Ne.symm hne))
  have r3 : (if d.AgentVersion ≠ "" then d.AgentVersion else h.AgentVersion) = h.AgentVersion := by
    split_ifs with hv
    · by_contra hne; exact h5 ⟨hv, Ne.symm hne⟩
    · rfl
  have r4 : h.Status = "online" := by
    by_contra hne; exact h6 hne
  rw [r1, r2] at h2
  simp only [r1, r2, r3, h1, if_neg h2, Bool.false_or, ← r4, Bool.false_eq_true, if_false]

theorem authenticate_ok {s : Server} {req : PulseRequest} {h : SSHHost} {d : MetricData}
    (ha : authenticate s req = .ok (h, d)) :
    s.hosts d.HostID = some h ∧ d.fits = true ∧ req.body = some d := by
  unfold authenticate at ha
  split_ifs at ha with h1
  cases hb : req.body with
  | none => simp [hb] at ha
  | some d0 =>
    simp only [hb] at ha
    split_ifs at ha with h2
    cases hh : s.hosts d0.HostID with
    | none => simp [hh] at ha
    | some h0 =>
      simp only [hh] at ha
      split_ifs at ha with h3
      simp only [Except.ok.injEq, Prod.mk.injEq] at ha
      obtain ⟨rfl, rfl⟩ := ha
      refine ⟨hh, ?_, rfl⟩
      simpa using h2

theorem Pulse_rejected {s : Server} {req : PulseRequest} {c : Nat} (now : Time)
    (ha : authenticate s req = .error c) : Pulse s req now = (s, c) := by
  unfold Pulse; rw [ha]

theorem updateRow_same (hosts : Nat → Option SSHHost) (k : Nat) (f : SSHHost → SSHHost) :
    updateRow hosts k f k = (hosts k).map f := by
  simp [updateRow]

theorem updateRow_other (hosts : Nat → Option SSHHost) {k j : Nat} (f : SSHHost → SSHHost)
    (hne : j ≠ k) : updateRow hosts k f j = hosts j := by
  simp [updateRow, hne]

theorem Pulse_hosts {s : Server} {req : PulseRequest} {h : SSHHost} {d : MetricData}
    (now : Time) (ha : authenticate s req = .ok (h, d)) :
    (Pulse s req now).1.hosts =
      fun k =>
        if k = d.HostID then
          some (if writable (account d.HostID (enable h) d now).host then
            storedAfter d.HostID h d now else enable h)
        else s.hosts k := by
  have hrow := (authenticate_ok ha).1
  unfold Pulse; rw [ha]
  funext k
  by_cases hk : k = d.HostID
  · rw [hk]
    simp only [if_true]
    have hen : (if (!h.MonitorEnabled) = true then
        updateRow s.hosts d.HostID (fun row => { row with MonitorEnabled := true })
        else s.hosts) d.HostID = some (enable h) := by
      unfold enable
      split_ifs with hm
      · rw [updateRow_same, hrow]; rfl
      · exact hrow
    by_cases hw : writable (account d.HostID (enable h) d now).host = true
    · by_cases hdb : (account d.HostID (enable h) d now).dbUpdated = true
      · simp only [hdb, hw, Bool.and_self, if_true, updateRow_same, hen, Option.map_some',
          persistSelected_account, storedAfter]
        rw [account_host_eq]
      · have hdb2 : (account d.HostID (enable h) d now).dbUpdated = false := by simpa using hdb
        have hidle := account_idle d.HostID (enable h) d now hdb2
        simp only [hdb2, hw, Bool.false_and, Bool.false_eq_true, if_false, if_true, hen,
          storedAfter]
        have hl : (enable h).LastPulse = h.LastPulse := by unfold enable; split_ifs <;> rfl
        rw [← hl, hidle]
    · have hw2 : writable (account d.HostID (enable h) d now).host = false := by simpa using hw
      simp only [hw2, Bool.and_false, Bool.false_eq_true, if_false, hen]
  · simp only [if_neg hk]
    split_ifs <;> simp only [updateRow_other _ _ hk]

theorem Pulse_row {s : Server} {req : PulseRequest} {h : SSHHost} {d : MetricData}
    (now : Time) (ha : authenticate s req = .ok (h, d))
    (hw : writable (account d.HostID (enable h) d now).host = true) :
    (Pulse s req now).1.hosts d.HostID = some (storedAfter d.HostID h d now) := by
  rw [Pulse_hosts now ha]; simp [hw]

theorem Pulse_row_refused {s : Server} {req : PulseRequest} {h : SSHHost} {d : MetricData}
    (now : Time) (ha : authenticate s req = .ok (h, d))
    (hw : writable (account d.HostID (enable h) d now).host = false) :
    (Pulse s req now).1.hosts d.HostID = some (enable h) := by
  rw [Pulse_hosts now ha]; simp [hw]

theorem Pulse_other {s : Server} {req : PulseRequest} {h : SSHHost} {d : MetricData}
    (now : Time) (ha : authenticate s req = .ok (h, d)) {k : Nat} (hk : k ≠ d.HostID) :
    (Pulse s req now).1.hosts k = s.hosts k := by
  rw [Pulse_hosts now ha]; simp [hk]

theorem Pulse_notifications {s : Server} {req : PulseRequest} {h : SSHHost} {d : MetricData}
    (now : Time) (ha : authenticate s req = .ok (h, d)) :
    (Pulse s req now).1.notifications =
      s.notifications ++ (account d.HostID (enable h) d now).notifications := by
  unfold Pulse; rw [ha]

theorem enable_fields (h : SSHHost) :
    (enable h).Name = h.Name ∧
      (enable h).MonitorSecret = h.MonitorSecret ∧
      (enable h).NetInterface = h.NetInterface ∧
      (enable h).NetResetDay = h.NetResetDay ∧
      (enable h).NetLastResetDate = h.NetLastResetDate ∧
      (enable h).NetMonthlyRx = h.NetMonthlyRx ∧
      (enable h).NetMonthlyTx = h.NetMonthlyTx ∧
      (enable h).NetLastRawRx = h.NetLastRawRx ∧
      (enable h).NetLastRawTx = h.NetLastRawTx ∧
      (enable h).NetTrafficLimit = h.NetTrafficLimit ∧
      (enable h).NetTrafficUsedAdjustment = h.NetTrafficUsedAdjustment ∧
      (enable h).NetTrafficCounterMode = h.NetTrafficCounterMode ∧
      (enable h).NotifyTrafficEnabled = h.NotifyTrafficEnabled ∧
      (enable h).NotifyTrafficThreshold = h.NotifyTrafficThreshold ∧
      (enable h).NotifyOfflineEnabled = h.NotifyOfflineEnabled ∧
      (enable h).TrafficAlerted = h.TrafficAlerted ∧
      (enable h).AgentVersion = h.AgentVersion ∧
      (enable h).Status = h.Status ∧
      (enable h).LastPulse = h.LastPulse := by
  rw [enable_eq]; simp only [and_self]

theorem resetDue_enable (now : Time) (h : SSHHost) :
    resetDue now (enable h) = resetDue now h := by
  rw [enable_eq]; rfl

theorem selectCounters_enable (h : SSHHost) (d : MetricData) :
    selectCounters (enable h) d = selectCounters h d := by
  rw [enable_eq]; rfl

theorem account_deltaRx (k : Nat) (h : SSHHost) (d : MetricData) (now : Time) :
    (account k (enable h) d now).deltaRx = delta h.NetLastRawRx (selectCounters h d).1 := by
  simp only [account, resetStage_eq, selectCounters_enable]
  rw [enable_eq]

theorem account_deltaTx (k : Nat) (h : SSHHost) (d : MetricData) (now : Time) :
    (account k (enable h) d now).deltaTx = delta h.NetLastRawTx (selectCounters h d).2 := by
  simp only [account, resetStage_eq, selectCounters_enable]
  rw [enable_eq]

theorem account_currentRx (k : Nat) (h : SSHHost) (d : MetricData) (now : Time) :
    (account k (enable h) d now).currentRx = (selectCounters h d).1 := by
  simp only [account, selectCounters_enable]

theorem account_currentTx (k : Nat) (h : SSHHost) (d : MetricData) (now : Time) :
    (account k (enable h) d now).currentTx = (selectCounters h d).2 := by
  simp only [account, selectCounters_enable]

theorem account_resetFired (k : Nat) (h : SSHHost) (d : MetricData) (now : Time) :
    (account k (enable h) d now).resetFired = resetDue now h := by
  simp only [account, resetDue_enable]

theorem storedAfter_lastRawRx (k : Nat) (h : SSHHost) (d : MetricData) (now : Time) :
    (storedAfter k h d now).NetLastRawRx = (selectCounters h d).1 := by
  simp only [storedAfter, account_host_eq, selectCounters_enable]

theorem storedAfter_lastRawTx (k : Nat) (h : SSHHost) (d : MetricData) (now : Time) :
    (storedAfter k h d now).NetLastRawTx = (selectCounters h d).2 := by
  simp only [storedAfter, account_host_eq, selectCounters_enable]

theorem storedAfter_monthlyRx (k : Nat) (h : SSHHost) (d : MetricData) (now : Time) :
    (storedAfter k h d now).NetMonthlyRx =
      if (account k (enable h) d now).deltaRx > 0 ∨ (account k (enable h) d now).deltaTx > 0 then
        addU64 (if resetDue now h then 0 else h.NetMonthlyRx) (account k (enable h) d now).deltaRx
      else if resetDue now h then 0 else h.NetMonthlyRx := by
  simp only [storedAfter, account_host_eq, resetDue_enable, (enable_fields h).2.2.2.2.2.1]

theorem storedAfter_monthlyTx (k : Nat) (h : SSHHost) (d : MetricData) (now : Time) :
    (storedAfter k h d now).NetMonthlyTx =
      if (account k (enable h) d now).deltaRx > 0 ∨ (account k (enable h) d now).deltaTx > 0 then
        addU64 (if resetDue now h then 0 else h.NetMonthlyTx) (account k (enable h) d now).deltaTx
      else if resetDue now h then 0 else h.NetMonthlyTx := by
  simp only [storedAfter, account_host_eq, resetDue_enable, (enable_fields h).2.2.2.2.2.2.1]

theorem storedAfter_resetDate (k : Nat) (h : SSHHost) (d : MetricData) (now : Time) :
    (storedAfter k h d now).NetLastResetDate =
      if resetDue now h then now.FormatDate else h.NetLastResetDate := by
  simp only [storedAfter, account_host_eq, resetDue_enable, (enable_fields h).2.2.2.2.1]

theorem storedAfter_alerted (k : Nat) (h : SSHHost) (d : MetricData) (now : Time) :
    (storedAfter k h d now).TrafficAlerted =
      ((account k (enable h) d now).warned
        || (if resetDue now h then false else h.TrafficAlerted)) := by
  simp only [storedAfter, account_host_eq, resetDue_enable]
  rw [(enable_fields h).2.2.2.2.2.2.2.2.2.2.2.2.2.2.2.1]

theorem storedAfter_config (k : Nat) (h : SSHHost) (d : MetricData) (now : Time) :
    (storedAfter k h d now).Name = h.Name ∧
      (storedAfter k h d now).MonitorSecret = h.MonitorSecret ∧
      (storedAfter k h d now).NetInterface = h.NetInterface ∧
      (storedAfter k h d now).NetResetDay = h.NetResetDay ∧
      (storedAfter k h d now).NetTrafficLimit = h.NetTrafficLimit ∧
      (storedAfter k h d now).NetTrafficUsedAdjustment = h.NetTrafficUsedAdjustment ∧
      (storedAfter k h d now).NetTrafficCounterMode = h.NetTrafficCounterMode ∧
      (storedAfter k h d now).NotifyTrafficEnabled = h.NotifyTrafficEnabled ∧
      (storedAfter k h d now).NotifyTrafficThreshold = h.NotifyTrafficThreshold ∧
      (storedAfter k h d now).NotifyOfflineEnabled = h.NotifyOfflineEnabled := by
  simp only [storedAfter, account_host_eq]
  rw [enable_eq]; simp only [and_self]

theorem Pulse_status {s : Server} {req : PulseRequest} {h : SSHHost} {d : MetricData}
    (now : Time) (ha : authenticate s req = .ok (h, d)) : (Pulse s req now).2 = 200 := by
  unfold Pulse; rw [ha]

theorem findInterface_none (target : String) (ifaces : List InterfaceData)
    (hno : ∀ i ∈ ifaces, i.Name ≠ target) : findInterface target ifaces = none := by
  induction ifaces with
  | nil => rfl
  | cons i rest ih =>
    unfold findInterface
    rw [if_neg (hno i (List.mem_cons_self _ _))]
    exact ih (fun j hj => hno j (List.mem_cons_of_mem _ hj))

theorem sumInterfaces_none (ifaces : List InterfaceData) (targets : List String)
    (acc : Nat × Nat × Bool)
    (hno : ∀ t ∈ targets, ∀ i ∈ ifaces, i.Name ≠ TrimSpace t) :
    sumInterfaces ifaces targets acc = acc := by
  induction targets generalizing acc with
  | nil => rfl
  | cons t rest ih =>
    obtain ⟨rx, tx, found⟩ := acc
    unfold sumInterfaces
    rw [findInterface_none _ _ (hno t (List.mem_cons_self _ _))]
    exact ih _ (fun u hu => hno u (List.mem_cons_of_mem _ hu))

theorem sumInterfaces_lt (ifaces : List InterfaceData) (targets : List String)
    (acc : Nat × Nat × Bool) (h1 : acc.1 < u64) (h2 : acc.2.1 < u64) :
    (sumInterfaces ifaces targets acc).1 < u64 ∧ (sumInterfaces ifaces targets acc).2.1 < u64 := by
  induction targets generalizing acc with
  | nil => exact ⟨h1, h2⟩
  | cons t rest ih =>
    obtain ⟨rx, tx, found⟩ := acc
    unfold sumInterfaces
    cases findInterface (TrimSpace t) ifaces with
    | none => exact ih _ h1 h2
    | some i => exact ih _ (addU64_lt _ _) (addU64_lt _ _)

theorem selectCounters_lt (h : SSHHost) (d : MetricData) (hd : d.fits = true) :
    (selectCounters h d).1 < u64 ∧ (selectCounters h d).2 < u64 := by
  have hrx : d.NetRx < u64 := by
    simp only [MetricData.fits, Bool.and_eq_true, decide_eq_true_eq] at hd; exact hd.1.1
  have htx : d.NetTx < u64 := by
    simp only [MetricData.fits, Bool.and_eq_true, decide_eq_true_eq] at hd; exact hd.1.2
  have hs := sumInterfaces_lt d.Interfaces (SplitComma h.NetInterface) (0, 0, false)
    (by unfold u64; norm_num) (by unfold u64; norm_num)
  unfold selectCounters
  split_ifs with hc
  · rcases hsum : sumInterfaces d.Interfaces (SplitComma h.NetInterface) (0, 0, false) with
      ⟨rx, tx, found⟩
    rw [hsum] at hs
    cases found
    · exact ⟨hrx, htx⟩
    · exact hs
  · exact ⟨hrx, htx⟩

theorem writable_iff (h : SSHHost) :
    writable h = true ↔
      h.NetMonthlyRx < 2 ^ 63 ∧ h.NetMonthlyTx < 2 ^ 63 ∧
        h.NetLastRawRx < 2 ^ 63 ∧ h.NetLastRawTx < 2 ^ 63 := by
  simp only [writable, sqlAccepts, Bool.and_eq_true, decide_eq_true_eq, and_assoc]

theorem writable_monthly {h : SSHHost} (hs : writable h = true) :
    h.NetMonthlyRx < u64 ∧ h.NetMonthlyTx < u64 := by
  have := (writable_iff h).mp hs
  unfold u64
  omega

theorem writable_enable (h : SSHHost) : writable (enable h) = writable h := by
  rw [enable_eq]; rfl

theorem writable_storedAfter (k : Nat) (h : SSHHost) (d : MetricData) (now : Time) :
    writable (storedAfter k h d now) = writable (account k (enable h) d now).host := rfl

theorem added_or_kept {base : Nat} (hb : base < u64) (a : Nat) (p : Prop) [Decidable p]
    (hp : ¬p → a = 0) : (if p then addU64 base a else base) = addU64 base a := by
  split_ifs with hc
  · rfl
  · rw [hp hc, addU64, Nat.add_zero, Nat.mod_eq_of_lt hb]

theorem storedAfter_monthlyRx_add (k : Nat) (h : SSHHost) (d : MetricData) (now : Time)
    (hb : (if resetDue now h then 0 else h.NetMonthlyRx) < u64) :
    (storedAfter k h d now).NetMonthlyRx =
      addU64 (if resetDue now h then 0 else h.NetMonthlyRx)
        (account k (enable h) d now).deltaRx := by
  rw [storedAfter_monthlyRx]
  exact added_or_kept hb _ _ (fun hc => by omega)

theorem storedAfter_monthlyTx_add (k : Nat) (h : SSHHost) (d : MetricData) (now : Time)
    (hb : (if resetDue now h then 0 else h.NetMonthlyTx) < u64) :
    (storedAfter k h d now).NetMonthlyTx =
      addU64 (if resetDue now h then 0 else h.NetMonthlyTx)
        (account k (enable h) d now).deltaTx := by
  rw [storedAfter_monthlyTx]
  exact added_or_kept hb _ _ (fun hc => by omega)

theorem reset_base_lt (b : Bool) {m : Nat} (hm : b = true ∨ m < u64) :
    (if b then 0 else m) < u64 := by
  cases b
  · rcases hm with hm | hm
    · cases hm
    · simpa using hm
  · simp [u64]

theorem account_delta_lt (k : Nat) (h : SSHHost) (d : MetricData) (now : Time)
    (hd : d.fits = true) :
    (account k (enable h) d now).deltaRx < u64 ∧ (account k (enable h) d now).deltaTx < u64 := by
  rw [account_deltaRx, account_deltaTx]
  have hs := selectCounters_lt h d hd
  exact ⟨lt_of_le_of_lt (delta_le _ _) hs.1, lt_of_le_of_lt (delta_le _ _) hs.2⟩

theorem addU64_zero_left {a : Nat} (ha : a < u64) : addU64 0 a = a := by
  unfold addU64; rw [Nat.zero_add, Nat.mod_eq_of_lt ha]

theorem resetDue_iff (now : Time) (h : SSHHost) :
    resetDue now h = true ↔ (now.Day = h.NetResetDay ∧ h.NetLastResetDate ≠ now.FormatDate) := by
  simp [resetDue]

theorem FormatDate_same_day {a b : Time}
    (hday : b.year = a.year ∧ b.month = a.month ∧ b.day = a.day) :
    b.FormatDate = a.FormatDate ∧ b.Day = a.Day := by
  unfold Time.FormatDate Time.Day
  rw [hday.1, hday.2.1, hday.2.2]
  exact ⟨rfl, rfl⟩

theorem account_warned (k : Nat) (h : SSHHost) (d : MetricData) (now : Time) :
    (account k (enable h) d now).warned =
      (decide ((account k (enable h) d now).deltaRx > 0 ∨
          (account k (enable h) d now).deltaTx > 0)
        && (decide (h.NetTrafficLimit > 0) && h.NotifyTrafficEnabled
          && decide (mulU64 (addU64 (storedAfter k h d now).NetMonthlyRx
              (storedAfter k h d now).NetMonthlyTx) 100 / h.NetTrafficLimit
              ≥ trafficThreshold h)
          && !(if resetDue now h then false else h.TrafficAlerted))) := by
  simp only [storedAfter, account_host_eq]
  simp only [account, warns, warningDue, usagePercent, trafficThreshold, resetStage_eq,
    accumulateStage_eq, resetDue_enable]
  rw [enable_eq]
  by_cases hl : h.NetTrafficLimit > 0
  · simp only [hl, if_true]
  · simp only [hl, decide_False, Bool.false_and, Bool.and_false]

theorem any_warning_of_two (w c : Bool) (k j p t l : Nat) (n m : String) :
    ((if w then [Notification.trafficWarning k n p t l] else [])
        ++ (if c then [Notification.backOnline j m] else [])).any
        (fun x => match x with
          | .trafficWarning _ _ _ _ _ => true
          | .backOnline _ _ => false)
      = w := by
  cases w <;> cases c <;> rfl

theorem account_notifications_any (k : Nat) (h : SSHHost) (d : MetricData) (now : Time) :
    (account k h d now).notifications.any
        (fun n => match n with
          | .trafficWarning _ _ _ _ _ => true
          | .backOnline _ _ => false)
      = (account k h d now).warned := by
  simp only [account]
  exact any_warning_of_two _ _ _ _ _ _ _ _ _

theorem sendsTrafficWarning_eq {s : Server} {req : PulseRequest} {h : SSHHost} {d : MetricData}
    (now : Time) (ha : authenticate s req = .ok (h, d)) :
    sendsTrafficWarning s req now = (account d.HostID (enable h) d now).warned := by
  unfold sendsTrafficWarning
  rw [Pulse_notifications now ha, List.drop_left]
  exact account_notifications_any _ _ _ _

theorem storedAfter_monthly_lt (k : Nat) (h : SSHHost) (d : MetricData) (now : Time)
    (hrx : resetDue now h = true ∨ h.NetMonthlyRx < u64)
    (htx : resetDue now h = true ∨ h.NetMonthlyTx < u64) :
    (storedAfter k h d now).NetMonthlyRx < u64 ∧ (storedAfter k h d now).NetMonthlyTx < u64 := by
  rw [storedAfter_monthlyRx_add _ _ _ _ (reset_base_lt _ hrx),
    storedAfter_monthlyTx_add _ _ _ _ (reset_base_lt _ htx)]
  exact ⟨addU64_lt _ _, addU64_lt _ _⟩

/-! ## Runs of pulses -/

theorem pulseLog_cons_inv {s : Server} {req : PulseRequest} {now : Time}
    {rest : List (PulseRequest × Time)} {k : Nat} {outs : List PulseOutcome}
    (hlog : pulseLog s ((req, now) :: rest) = outs.map (fun o => some (k, o))) :
    ∃ h d o os, outs = o :: os ∧ authenticate s req = .ok (h, d) ∧ d.HostID = k ∧
      s.hosts k = some h ∧ o = account k (enable h) d now ∧
      pulseLog (Pulse s req now).1 rest = os.map (fun o => some (k, o)) := by
  cases outs with
  | nil => simp [pulseLog] at hlog
  | cons o os =>
    simp only [pulseLog, List.map_cons, List.cons.injEq] at hlog
    obtain ⟨hhead, htail⟩ := hlog
    cases ha : authenticate s req with
    | error c => rw [ha] at hhead; simp at hhead
    | ok p =>
      obtain ⟨h, d⟩ := p
      rw [ha] at hhead
      simp only [Option.some.injEq, Prod.mk.injEq] at hhead
      obtain ⟨hk, ho⟩ := hhead
      refine ⟨h, d, o, os, rfl, rfl, hk, ?_, ?_, htail⟩
      · rw [← hk]; exact (authenticate_ok ha).1
      · rw [← ho, hk]

theorem pulseLog_nil_inv {s : Server} {reqs : List (PulseRequest × Time)} {k : Nat}
    (hlog : pulseLog s reqs = ([] : List PulseOutcome).map (fun o => some (k, o))) :
    reqs = [] := by
  cases reqs with
  | nil => rfl
  | cons r rest => obtain ⟨req, now⟩ := r; simp [pulseLog] at hlog

theorem trafficWarnings_two (w c : Bool) (k j p t l : Nat) (n m : String) :
    (trafficWarnings k
      ((if w then [Notification.trafficWarning k n p t l] else [])
        ++ (if c then [Notification.backOnline j m] else []))).length
      = if w then 1 else 0 := by
  cases w <;> cases c <;> simp [trafficWarnings, Notification.isTrafficWarning]

theorem trafficWarnings_account (k : Nat) (h : SSHHost) (d : MetricData) (now : Time) :
    (trafficWarnings k (account k h d now).notifications).length
      = if (account k h d now).warned then 1 else 0 := by
  simp only [account]
  exact trafficWarnings_two _ _ _ _ _ _ _ _ _

theorem trafficWarnings_append (k : Nat) (a b : List Notification) :
    (trafficWarnings k (a ++ b)).length
      = (trafficWarnings k a).length + (trafficWarnings k b).length := by
  simp [trafficWarnings]

theorem warned_not_alerted (k : Nat) (h : SSHHost) (d : MetricData) (now : Time)
    (hw : (account k (enable h) d now).warned = true) (hno : resetDue now h = false) :
    h.TrafficAlerted = false := by
  rw [account_warned, hno] at hw
  simp only [Bool.false_eq_true, if_false, Bool.and_eq_true, Bool.not_eq_true'] at hw
  exact hw.2.2

theorem one_warning_run (k : Nat) :
    ∀ (reqs : List (PulseRequest × Time)) (s : Server) (outs : List PulseOutcome),
      pulseLog s reqs = outs.map (fun o => some (k, o)) →
      (∀ o ∈ outs, o.resetFired = false) →
      (∀ o ∈ outs, writable o.host = true) →
      (trafficWarnings k (runPulses s reqs).notifications).length
          ≤ (trafficWarnings k s.notifications).length + 1 ∧
        (∀ row, s.hosts k = some row → row.TrafficAlerted = true →
          (trafficWarnings k (runPulses s reqs).notifications).length
            = (trafficWarnings k s.notifications).length) := by
  intro reqs
  induction reqs with
  | nil => intro s outs _ _ _; exact ⟨Nat.le_succ _, fun _ _ _ => rfl⟩
  | cons r rest ih =>
    obtain ⟨req, now⟩ := r
    intro s outs hlog hno hwr
    obtain ⟨h, d, o, os, rfl, ha, hk, hrow, ho, htail⟩ := pulseLog_cons_inv hlog
    have hfire : resetDue now h = false := by
      have := hno o (List.mem_cons_self _ _)
      rw [ho, account_resetFired] at this; exact this
    have hw1 : writable (account d.HostID (enable h) d now).host = true := by
      have := hwr o (List.mem_cons_self _ _)
      rw [ho, ← hk] at this; exact this
    have hih := ih (Pulse s req now).1 os htail
      (fun o' ho' => hno o' (List.mem_cons_of_mem _ ho'))
      (fun o' ho' => hwr o' (List.mem_cons_of_mem _ ho'))
    have hnot := Pulse_notifications now ha
    have hrow' := Pulse_row now ha hw1
    rw [hk] at hnot hrow'
    have hcount : (trafficWarnings k (Pulse s req now).1.notifications).length
        = (trafficWarnings k s.notifications).length
          + (if (account k (enable h) d now).warned then 1 else 0) := by
      rw [hnot, trafficWarnings_append, trafficWarnings_account]
    have hal := storedAfter_alerted k h d now
    rw [hfire] at hal
    simp only [Bool.false_eq_true, if_false] at hal
    show (trafficWarnings k (runPulses (Pulse s req now).1 rest).notifications).length ≤ _ ∧ _
    cases hw : (account k (enable h) d now).warned with
    | true =>
      rw [hw] at hcount hal
      have hflag : (storedAfter k h d now).TrafficAlerted = true := by rw [hal]; rfl
      have hfin := hih.2 _ hrow' hflag
      have hclear := warned_not_alerted k h d now hw hfire
      refine ⟨by rw [hfin, hcount]; simp, fun row hr hral => ?_⟩
      rw [hrow] at hr
      rw [← Option.some.inj hr, hclear] at hral
      cases hral
    | false =>
      rw [hw] at hcount hal
      simp only [Bool.false_eq_true, if_false, Nat.add_zero, Bool.false_or] at hcount hal
      refine ⟨by rw [← hcount]; exact hih.1, fun row hr hral => ?_⟩
      rw [hrow] at hr
      rw [← Option.some.inj hr] at hral
      show (trafficWarnings k (runPulses (Pulse s req now).1 rest).notifications).length = _
      rw [← hcount]
      exact hih.2 _ hrow' (by rw [hal]; exact hral)

theorem increasing_run_rx (k c1 : Nat) :
    ∀ (reqs : List (PulseRequest × Time)) (s : Server) (h : SSHHost) (outs : List PulseOutcome),
      s.hosts k = some h →
      pulseLog s reqs = outs.map (fun o => some (k, o)) →
      (∀ o ∈ outs, o.resetFired = false) →
      (∀ o ∈ outs, writable o.host = true) →
      List.Chain (· < ·) h.NetLastRawRx (outs.map (fun o => o.currentRx)) →
      0 < h.NetLastRawRx → h.NetMonthlyRx + c1 = h.NetLastRawRx → h.NetLastRawRx < u64 →
      ∃ row, (runPulses s reqs).hosts k = some row ∧
        row.NetMonthlyRx + c1 = (outs.map (fun o => o.currentRx)).getLastD h.NetLastRawRx ∧
        row.NetMonthlyRx = h.NetMonthlyRx + (outs.map (fun o => o.deltaRx)).sum := by
  intro reqs
  induction reqs with
  | nil =>
    intro s h outs hrow hlog _ _ _ _ hm _
    cases outs with
    | nil => exact ⟨h, hrow, hm, rfl⟩
    | cons o os => simp [pulseLog] at hlog
  | cons r rest ih =>
    obtain ⟨req, now⟩ := r
    intro s h outs hrow hlog hno hwr hchain hpos hm hlt
    obtain ⟨h', d, o, os, rfl, ha, hk, hrow2, ho, htail⟩ := pulseLog_cons_inv hlog
    rw [hrow] at hrow2
    obtain rfl : h = h' := Option.some.inj hrow2
    have hw1 : writable (account d.HostID (enable h) d now).host = true := by
      have := hwr o (List.mem_cons_self _ _)
      rw [ho, ← hk] at this; exact this
    have hfire : resetDue now h = false := by
      have := hno o (List.mem_cons_self _ _)
      rw [ho, account_resetFired] at this; exact this
    have hcur : o.currentRx = (selectCounters h d).1 := by rw [ho, account_currentRx]
    have hdel : o.deltaRx = delta h.NetLastRawRx (selectCounters h d).1 := by
      rw [ho, account_deltaRx]
    simp only [List.map_cons, List.chain_cons] at hchain
    obtain ⟨hstep, hchain'⟩ := hchain
    have hclt : (selectCounters h d).1 < u64 := (selectCounters_lt h d (authenticate_ok ha).2.1).1
    rw [hcur] at hstep
    have hdval : o.deltaRx = (selectCounters h d).1 - h.NetLastRawRx := by
      rw [hdel]; unfold delta
      rw [if_pos hpos, if_pos (le_of_lt hstep)]
    have hrow' := Pulse_row now ha hw1
    rw [hk] at hrow'
    have hmon := storedAfter_monthlyRx_add k h d now
      (reset_base_lt _ (Or.inr (by omega)))
    rw [hfire, ← ho, hdval] at hmon
    simp only [Bool.false_eq_true, if_false] at hmon
    rw [addU64_exact (by omega)] at hmon
    have hraw := storedAfter_lastRawRx k h d now
    obtain ⟨row, hfin, hlast, hsum⟩ := ih (Pulse s req now).1 (storedAfter k h d now) os hrow' htail
      (fun o' ho' => hno o' (List.mem_cons_of_mem _ ho'))
      (fun o' ho' => hwr o' (List.mem_cons_of_mem _ ho'))
      (by rw [hraw, ← hcur]; exact hchain')
      (by rw [hraw]; omega) (by rw [hraw, hmon]; omega) (by rw [hraw]; exact hclt)
    refine ⟨row, hfin, ?_, ?_⟩
    · rw [hlast, hraw, ← hcur, List.map_cons, List.getLastD_cons]
    · rw [hsum, hmon, List.map_cons, List.sum_cons, hdval]; omega

theorem first_pulse_rx (k : Nat) (h : SSHHost) (d : MetricData) (now : Time)
    (hm : h.NetMonthlyRx = 0) (hl : h.NetLastRawRx = 0) (hfire : resetDue now h = false) :
    (account k (enable h) d now).deltaRx = 0 ∧ (storedAfter k h d now).NetMonthlyRx = 0 := by
  have hd : (account k (enable h) d now).deltaRx = 0 := by
    rw [account_deltaRx, hl]; rfl
  refine ⟨hd, ?_⟩
  rw [storedAfter_monthlyRx_add k h d now (reset_base_lt _ (Or.inr (by rw [hm]; simp [u64]))),
    hfire, hd, hm]
  rfl

theorem increasing_run_tx (k c1 : Nat) :
    ∀ (reqs : List (PulseRequest × Time)) (s : Server) (h : SSHHost) (outs : List PulseOutcome),
      s.hosts k = some h →
      pulseLog s reqs = outs.map (fun o => some (k, o)) →
      (∀ o ∈ outs, o.resetFired = false) →
      (∀ o ∈ outs, writable o.host = true) →
      List.Chain (· < ·) h.NetLastRawTx (outs.map (fun o => o.currentTx)) →
      0 < h.NetLastRawTx → h.NetMonthlyTx + c1 = h.NetLastRawTx → h.NetLastRawTx < u64 →
      ∃ row, (runPulses s reqs).hosts k = some row ∧
        row.NetMonthlyTx + c1 = (outs.map (fun o => o.currentTx)).getLastD h.NetLastRawTx ∧
        row.NetMonthlyTx = h.NetMonthlyTx + (outs.map (fun o => o.deltaTx)).sum := by
  intro reqs
  induction reqs with
  | nil =>
    intro s h outs hrow hlog _ _ _ _ hm _
    cases outs with
    | nil => exact ⟨h, hrow, hm, rfl⟩
    | cons o os => simp [pulseLog] at hlog
  | cons r rest ih =>
    obtain ⟨req, now⟩ := r
    intro s h outs hrow hlog hno hwr hchain hpos hm hlt
    obtain ⟨h', d, o, os, rfl, ha, hk, hrow2, ho, htail⟩ := pulseLog_cons_inv hlog
    rw [hrow] at hrow2
    obtain rfl : h = h' := Option.some.inj hrow2
    have hw1 : writable (account d.HostID (enable h) d now).host = true := by
      have := hwr o (List.mem_cons_self _ _)
      rw [ho, ← hk] at this; exact this
    have hfire : resetDue now h = false := by
      have := hno o (List.mem_cons_self _ _)
      rw [ho, account_resetFired] at this; exact this
    have hcur : o.currentTx = (selectCounters h d).2 := by rw [ho, account_currentTx]
    have hdel : o.deltaTx = delta h.NetLastRawTx (selectCounters h d).2 := by
      rw [ho, account_deltaTx]
    simp only [List.map_cons, List.chain_cons] at hchain
    obtain ⟨hstep, hchain'⟩ := hchain
    have hclt : (selectCounters h d).2 < u64 := (selectCounters_lt h d (authenticate_ok ha).2.1).2
    rw [hcur] at hstep
    have hdval : o.deltaTx = (selectCounters h d).2 - h.NetLastRawTx := by
      rw [hdel]; unfold delta
      rw [if_pos hpos, if_pos (le_of_lt hstep)]
    have hrow' := Pulse_row now ha hw1
    rw [hk] at hrow'
    have hmon := storedAfter_monthlyTx_add k h d now
      (reset_base_lt _ (Or.inr (by omega)))
    rw [hfire, ← ho, hdval] at hmon
    simp only [Bool.false_eq_true, if_false] at hmon
    rw [addU64_exact (by omega)] at hmon
    have hraw := storedAfter_lastRawTx k h d now
    obtain ⟨row, hfin, hlast, hsum⟩ := ih (Pulse s req now).1 (storedAfter k h d now) os hrow' htail
      (fun o' ho' => hno o' (List.mem_cons_of_mem _ ho'))
      (fun o' ho' => hwr o' (List.mem_cons_of_mem _ ho'))
      (by rw [hraw, ← hcur]; exact hchain')
      (by rw [hraw]; omega) (by rw [hraw, hmon]; omega) (by rw [hraw]; exact hclt)
    refine ⟨row, hfin, ?_, ?_⟩
    · rw [hlast, hraw, ← hcur, List.map_cons, List.getLastD_cons]
    · rw [hsum, hmon, List.map_cons, List.sum_cons, hdval]; omega

theorem first_pulse_tx (k : Nat) (h : SSHHost) (d : MetricData) (now : Time)
    (hm : h.NetMonthlyTx = 0) (hl : h.NetLastRawTx = 0) (hfire : resetDue now h = false) :
    (account k (enable h) d now).deltaTx = 0 ∧ (storedAfter k h d now).NetMonthlyTx = 0 := by
  have hd : (account k (enable h) d now).deltaTx = 0 := by
    rw [account_deltaTx, hl]; rfl
  refine ⟨hd, ?_⟩
  rw [storedAfter_monthlyTx_add k h d now (reset_base_lt _ (Or.inr (by rw [hm]; simp [u64]))),
    hfire, hd, hm]
  rfl

theorem Pulse_keeps_rows (s : Server) (req : PulseRequest) (now : Time) (k : Nat)
    (hk : (s.hosts k).isSome = true) : ((Pulse s req now).1.hosts k).isSome = true := by
  cases ha : authenticate s req with
  | error c => rw [Pulse_rejected now ha]; exact hk
  | ok p =>
    obtain ⟨h, d⟩ := p
    rw [Pulse_hosts now ha]
    by_cases hkd : k = d.HostID
    · simp [hkd]
    · simp [hkd, hk]

theorem runPulses_keeps_rows (k : Nat) :
    ∀ (reqs : List (PulseRequest × Time)) (s : Server),
      (s.hosts k).isSome = true → ((runPulses s reqs).hosts k).isSome = true := by
  intro reqs
  induction reqs with
  | nil => intro s hk; exact hk
  | cons r rest ih =>
    obtain ⟨req, now⟩ := r
    intro s hk
    exact ih _ (Pulse_keeps_rows s req now k hk)

theorem getLastD_map {α β : Type} (f : α → β) :
    ∀ (l : List α) (a : α), (l.map f).getLastD (f a) = f (l.getLastD a) := by
  intro l
  induction l with
  | nil => intro a; rfl
  | cons b l ih => intro a; rw [List.map_cons, List.getLastD_cons, List.getLastD_cons, ih]

theorem authenticate_error {s : Server} {req : PulseRequest} {c : Nat}
    (ha : authenticate s req = .error c) : c = 401 ∨ c = 400 ∨ c = 404 ∨ c = 403 := by
  unfold authenticate at ha
  split_ifs at ha with h1
  · simp only [Except.error.injEq] at ha; omega
  · cases hb : req.body with
    | none => simp only [hb, Except.error.injEq] at ha; omega
    | some d0 =>
      simp only [hb] at ha
      split_ifs at ha with h2
      · simp only [Except.error.injEq] at ha; omega
      · cases hh : s.hosts d0.HostID with
        | none => simp only [hh, Except.error.injEq] at ha; omega
        | some h0 =>
          simp only [hh] at ha
          split_ifs at ha with h3
          simp only [Except.error.injEq] at ha; omega

theorem Pulse_accepted_iff (s : Server) (req : PulseRequest) (now : Time) :
    (Pulse s req now).2 = 200 ↔ ∃ h d, authenticate s req = .ok (h, d) := by
  constructor
  · intro hs
    cases ha : authenticate s req with
    | error c =>
      rw [Pulse_rejected now ha] at hs
      have := authenticate_error ha
      simp only at hs
      omega
    | ok p => exact ⟨p.1, p.2, rfl⟩
  · rintro ⟨h, d, ha⟩
    exact Pulse_status now ha

/-! ## Rejection, status and forwarding -/

theorem Pulse_hub {s : Server} {req : PulseRequest} {h : SSHHost} {d : MetricData}
    (now : Time) (ha : authenticate s req = .ok (h, d)) :
    (Pulse s req now).1.hub =
      s.hub ++ [HubEvent.update (enrich d (account d.HostID (enable h) d now).host)] := by
  unfold Pulse; rw [ha]

theorem Pulse_statusLogs {s : Server} {req : PulseRequest} {h : SSHHost} {d : MetricData}
    (now : Time) (ha : authenticate s req = .ok (h, d)) :
    (Pulse s req now).1.statusLogs =
      if (account d.HostID (enable h) d now).cameOnline then
        s.statusLogs ++ [{ HostID := d.HostID, Status := "online", CreatedAt := now }]
      else s.statusLogs := by
  unfold Pulse; rw [ha]

theorem Pulse_records {s : Server} {req : PulseRequest} {h : SSHHost} {d : MetricData}
    (now : Time) (ha : authenticate s req = .ok (h, d)) :
    (Pulse s req now).1.records =
      if shouldSave s.lastDbSave d.HostID now && insertable (snapshot d) then
        s.records ++ [(now, snapshot d)]
      else s.records := by
  unfold Pulse; rw [ha]; rfl

theorem Pulse_lastDbSave {s : Server} {req : PulseRequest} {h : SSHHost} {d : MetricData}
    (now : Time) (ha : authenticate s req = .ok (h, d)) :
    (Pulse s req now).1.lastDbSave =
      if shouldSave s.lastDbSave d.HostID now then
        fun k => if k = d.HostID then some now else s.lastDbSave k
      else s.lastDbSave := by
  unfold Pulse; rw [ha]

theorem account_cameOnline (k : Nat) (h : SSHHost) (d : MetricData) (now : Time) :
    (account k (enable h) d now).cameOnline = decide (h.Status ≠ "online") := by
  simp only [account, versionStage_eq, rawStage_eq, alertStage_eq, accumulateStage_eq,
    resetStage_eq]
  rw [enable_eq]

theorem storedAfter_status (k : Nat) (h : SSHHost) (d : MetricData) (now : Time) :
    (storedAfter k h d now).Status = "online" := by
  simp only [storedAfter, account_host_eq]

theorem account_host_config (k : Nat) (h : SSHHost) (d : MetricData) (now : Time) :
    (account k (enable h) d now).host.NetTrafficLimit = h.NetTrafficLimit ∧
      (account k (enable h) d now).host.NetTrafficUsedAdjustment = h.NetTrafficUsedAdjustment ∧
      (account k (enable h) d now).host.NetTrafficCounterMode = h.NetTrafficCounterMode ∧
      (account k (enable h) d now).host.NotifyOfflineEnabled = h.NotifyOfflineEnabled ∧
      (account k (enable h) d now).host.Name = h.Name := by
  simp only [account_host_eq]
  rw [enable_eq]; simp only [and_self]

theorem any_online_of_two (w c : Bool) (k j p t l : Nat) (n m : String) :
    ((if w then [Notification.trafficWarning k n p t l] else [])
        ++ (if c then [Notification.backOnline j m] else [])).any
        (fun x => match x with
          | .trafficWarning _ _ _ _ _ => false
          | .backOnline _ _ => true)
      = c := by
  cases w <;> cases c <;> rfl

theorem sendsBackOnline_eq {s : Server} {req : PulseRequest} {h : SSHHost} {d : MetricData}
    (now : Time) (ha : authenticate s req = .ok (h, d)) :
    sendsBackOnline s req now = (decide (h.Status ≠ "online") && h.NotifyOfflineEnabled) := by
  unfold sendsBackOnline
  rw [Pulse_notifications now ha, List.drop_left, ← account_cameOnline d.HostID h d now,
    ← (account_host_config d.HostID h d now).2.2.2.1]
  simp only [account]
  exact any_online_of_two _ _ _ _ _ _ _ _ _

/-! ## Other hosts and snapshots -/

theorem authenticate_body {s : Server} {req : PulseRequest} {h : SSHHost} {d : MetricData}
    (ha : authenticate s req = .ok (h, d)) : req.body = some d := (authenticate_ok ha).2.2

theorem authenticate_congr {s1 s2 : Server} {req : PulseRequest}
    (hs : ∀ d, req.body = some d → s1.hosts d.HostID = s2.hosts d.HostID) :
    authenticate s1 req = authenticate s2 req := by
  unfold authenticate
  cases hb : req.body with
  | none => rfl
  | some d => simp only [hs d hb]

theorem Pulse_frame (s : Server) (req : PulseRequest) (now : Time) (k : Nat)
    (hk : ∀ d, req.body = some d → d.HostID ≠ k) :
    (Pulse s req now).1.hosts k = s.hosts k ∧
      (Pulse s req now).1.lastDbSave k = s.lastDbSave k := by
  cases ha : authenticate s req with
  | error c => rw [Pulse_rejected now ha]; exact ⟨rfl, rfl⟩
  | ok p =>
    obtain ⟨h, d⟩ := p
    have hne : k ≠ d.HostID := fun e => hk d (authenticate_body ha) e.symm
    refine ⟨Pulse_other now ha hne, ?_⟩
    rw [Pulse_lastDbSave now ha]
    split_ifs
    · simp only [if_neg hne]
    · rfl

theorem Pulse_congr (s1 s2 : Server) (req : PulseRequest) (now : Time) (k : Nat)
    (hk : ∀ d, req.body = some d → d.HostID = k)
    (hh : s1.hosts k = s2.hosts k) (hl : s1.lastDbSave k = s2.lastDbSave k) :
    (Pulse s1 req now).1.hosts k = (Pulse s2 req now).1.hosts k ∧
      (Pulse s1 req now).1.lastDbSave k = (Pulse s2 req now).1.lastDbSave k := by
  have hauth : authenticate s1 req = authenticate s2 req :=
    authenticate_congr (fun d hd => by rw [hk d hd]; exact hh)
  cases ha : authenticate s1 req with
  | error c =>
    have ha2 : authenticate s2 req = .error c := by rw [← hauth]; exact ha
    rw [Pulse_rejected now ha, Pulse_rejected now ha2]; exact ⟨hh, hl⟩
  | ok p =>
    obtain ⟨h, d⟩ := p
    have ha2 : authenticate s2 req = .ok (h, d) := by rw [← hauth]; exact ha
    have hdk : d.HostID = k := hk d (authenticate_body ha)
    rw [Pulse_hosts now ha, Pulse_hosts now ha2, Pulse_lastDbSave now ha,
      Pulse_lastDbSave now ha2]
    refine ⟨by simp only [hdk, if_true], ?_⟩
    have hsv : shouldSave s1.lastDbSave d.HostID now = shouldSave s2.lastDbSave d.HostID now := by
      unfold shouldSave; rw [hdk, hl]
    rw [hsv]
    split_ifs
    · simp only [hdk, if_true]
    · exact hl

theorem run_only_own_pulses (k : Nat) :
    ∀ (reqs : List (PulseRequest × Time)) (s1 s2 : Server),
      s1.hosts k = s2.hosts k → s1.lastDbSave k = s2.lastDbSave k →
      (runPulses s1 reqs).hosts k = (runPulses s2 (reqs.filter (targets k))).hosts k ∧
        (runPulses s1 reqs).lastDbSave k
          = (runPulses s2 (reqs.filter (targets k))).lastDbSave k := by
  intro reqs
  induction reqs with
  | nil => intro s1 s2 hh hl; exact ⟨hh, hl⟩
  | cons r rest ih =>
    obtain ⟨req, now⟩ := r
    intro s1 s2 hh hl
    by_cases ht : targets k (req, now) = true
    · rw [List.filter_cons_of_pos ht]
      have hk : ∀ d, req.body = some d → d.HostID = k := by
        intro d hd
        simp only [targets, hd, decide_eq_true_eq] at ht
        exact ht
      have hc := Pulse_congr s1 s2 req now k hk hh hl
      exact ih _ _ hc.1 hc.2
    · rw [List.filter_cons_of_neg ht]
      have hk : ∀ d, req.body = some d → d.HostID ≠ k := by
        intro d hd hdk
        apply ht
        simp only [targets, hd, decide_eq_true_eq]
        exact hdk
      have hf := Pulse_frame s1 req now k hk
      exact ih _ _ (hf.1.trans hh) (hf.2.trans hl)

theorem shouldSave_iff (m : Nat → Option Time) (k : Nat) (now : Time) :
    shouldSave m k now = true ↔
      ∀ last, m k = some last → now.unixNano - last.unixNano > minute := by
  unfold shouldSave
  cases hm : m k with
  | none => simp
  | some l => simp

theorem minute_pos : (0 : Int) < minute := by decide

theorem snapshotTimes_cons (k : Nat) (s : Server) (req : PulseRequest) (now : Time)
    (rest : List (PulseRequest × Time)) :
    snapshotTimes k s ((req, now) :: rest) =
      (match authenticate s req with
        | .error _ => []
        | .ok (_, data) =>
          if shouldSave s.lastDbSave data.HostID now = true ∧ data.HostID = k then [now]
          else [])
      ++ snapshotTimes k (Pulse s req now).1 rest := by
  unfold snapshotTimes
  rw [snapshotLog, List.filter_append, List.map_append]
  congr 1
  cases authenticate s req with
  | error c => rfl
  | ok p =>
    obtain ⟨h, d⟩ := p
    by_cases hs : shouldSave s.lastDbSave d.HostID now = true
    · by_cases hk : d.HostID = k
      · subst hk
        simp [hs]
      · simp [hs, hk]
    · simp [hs]

theorem spaced_run (k : Nat) :
    ∀ (reqs : List (PulseRequest × Time)) (s : Server),
      (∀ last, s.lastDbSave k = some last →
          ∀ t ∈ snapshotTimes k s reqs, t.unixNano - last.unixNano > minute) ∧
        List.Pairwise (fun a b => b.unixNano - a.unixNano > minute) (snapshotTimes k s reqs) := by
  intro reqs
  induction reqs with
  | nil => intro s; exact ⟨fun _ _ t ht => by simp [snapshotTimes, snapshotLog] at ht,
      by simp [snapshotTimes, snapshotLog]⟩
  | cons r rest ih =>
    obtain ⟨req, now⟩ := r
    intro s
    have hih := ih (Pulse s req now).1
    rw [snapshotTimes_cons]
    cases ha : authenticate s req with
    | error c =>
      rw [Pulse_rejected now ha] at hih ⊢
      simpa using hih
    | ok p =>
      obtain ⟨h, d⟩ := p
      have hl := Pulse_lastDbSave now ha
      by_cases hc : shouldSave s.lastDbSave d.HostID now = true ∧ d.HostID = k
      · obtain ⟨hs, hk⟩ := hc
        have hnew : (Pulse s req now).1.lastDbSave k = some now := by
          rw [hl, if_pos hs]; simp [hk]
        have htail := hih.1 now hnew
        dsimp only
        rw [if_pos ⟨hs, hk⟩, List.singleton_append]
        refine ⟨fun last hlast t ht => ?_, List.pairwise_cons.mpr ⟨fun t ht => htail t ht, hih.2⟩⟩
        have hnow : now.unixNano - last.unixNano > minute := by
          rw [← hk] at hlast
          exact (shouldSave_iff _ _ _).mp hs last hlast
        rcases List.mem_cons.mp ht with rfl | ht
        · exact hnow
        · have := htail t ht
          have := minute_pos
          omega
      · have hsame : (Pulse s req now).1.lastDbSave k = s.lastDbSave k := by
          rw [hl]
          split_ifs with hs
          · have hk : k ≠ d.HostID := fun e => hc ⟨hs, e.symm⟩
            simp [hk]
          · rfl
        rw [hsame] at hih
        dsimp only
        rw [if_neg hc, List.nil_append]
        exact hih

/-! ## The allow-list -/

theorem findInterface_cons (target : String) (i : InterfaceData) (rest : List InterfaceData) :
    findInterface target (i :: rest) =
      if i.Name = target then some i else findInterface target rest := rfl

theorem sum_map_ite_of_not_mem {a : String} {x : Nat} (φ : String → Nat) :
    ∀ (T : List String), a ∉ T →
      (T.map (fun t => if a = t then x else φ t)).sum = (T.map φ).sum := by
  intro T
  induction T with
  | nil => intro _; rfl
  | cons t T ih =>
    intro hnot
    have h1 : a ≠ t := fun e => hnot (e ▸ List.mem_cons_self _ _)
    have h2 : a ∉ T := fun hm => hnot (List.mem_cons_of_mem _ hm)
    simp only [List.map_cons, List.sum_cons, if_neg h1, ih h2]

theorem sum_map_ite_of_mem {a : String} {x : Nat} (φ : String → Nat) (hφ : φ a = 0) :
    ∀ (T : List String), T.Nodup → a ∈ T →
      (T.map (fun t => if a = t then x else φ t)).sum = x + (T.map φ).sum := by
  intro T
  induction T with
  | nil => intro _ hm; cases hm
  | cons t T ih =>
    intro hnd hm
    have hnd' := List.nodup_cons.mp hnd
    by_cases h1 : a = t
    · have h2 : a ∉ T := by rw [h1]; exact hnd'.1
      simp only [List.map_cons, List.sum_cons, if_pos h1, sum_map_ite_of_not_mem φ T h2, ← h1, hφ,
        Nat.zero_add, if_true]
    · have h2 : a ∈ T := by
        rcases List.mem_cons.mp hm with e | e
        · exact absurd e h1
        · exact e
      simp only [List.map_cons, List.sum_cons, if_neg h1, ih hnd'.2 h2]
      omega

theorem firstMatch_sum (f : InterfaceData → Nat) :
    ∀ (I : List InterfaceData) (T : List String), T.Nodup → (I.map (fun i => i.Name)).Nodup →
      (T.map (fun t => match findInterface t I with
          | some i => f i
          | none => 0)).sum
        = ((I.filter (fun i => decide (i.Name ∈ T))).map f).sum := by
  intro I
  induction I with
  | nil => intro T _ _; simp [findInterface]
  | cons i I ih =>
    intro T hT hI
    rw [List.map_cons] at hI
    have hI' := List.nodup_cons.mp hI
    have hnone : findInterface i.Name I = none :=
      findInterface_none _ _ (fun j hj e => hI'.1 (List.mem_map.mpr ⟨j, hj, e⟩))
    have hrew : (fun t => match findInterface t (i :: I) with
          | some j => f j
          | none => 0)
        = (fun t => if i.Name = t then f i else
            (match findInterface t I with
              | some j => f j
              | none => 0)) := by
      funext t
      rw [findInterface_cons]
      split_ifs <;> rfl
    rw [hrew]
    by_cases hm : i.Name ∈ T
    · rw [sum_map_ite_of_mem _ (by rw [hnone]) T hT hm, ih T hT hI'.2,
        List.filter_cons_of_pos (by simpa using hm), List.map_cons, List.sum_cons]
    · rw [sum_map_ite_of_not_mem _ T hm, ih T hT hI'.2,
        List.filter_cons_of_neg (by simpa using hm)]

theorem sumInterfaces_fst (ifaces : List InterfaceData) :
    ∀ (targets : List String) (acc : Nat × Nat × Bool),
      (sumInterfaces ifaces targets acc).1 % u64 =
        (acc.1 + (targets.map (fun t => match findInterface (TrimSpace t) ifaces with
          | some i => i.Rx
          | none => 0)).sum) % u64 := by
  intro targets
  induction targets with
  | nil => intro acc; simp [sumInterfaces]
  | cons t rest ih =>
    intro acc
    obtain ⟨rx, tx, found⟩ := acc
    unfold sumInterfaces
    cases hf : findInterface (TrimSpace t) ifaces with
    | none =>
      simp only [List.map_cons, List.sum_cons, hf, Nat.zero_add]
      exact ih _
    | some i =>
      simp only [List.map_cons, List.sum_cons, hf]
      rw [ih]
      simp only [addU64]
      rw [Nat.add_mod, Nat.mod_mod, ← Nat.add_mod, Nat.add_assoc]

theorem sumInterfaces_snd (ifaces : List InterfaceData) :
    ∀ (targets : List String) (acc : Nat × Nat × Bool),
      (sumInterfaces ifaces targets acc).2.1 % u64 =
        (acc.2.1 + (targets.map (fun t => match findInterface (TrimSpace t) ifaces with
          | some i => i.Tx
          | none => 0)).sum) % u64 := by
  intro targets
  induction targets with
  | nil => intro acc; simp [sumInterfaces]
  | cons t rest ih =>
    intro acc
    obtain ⟨rx, tx, found⟩ := acc
    unfold sumInterfaces
    cases hf : findInterface (TrimSpace t) ifaces with
    | none =>
      simp only [List.map_cons, List.sum_cons, hf, Nat.zero_add]
      exact ih _
    | some i =>
      simp only [List.map_cons, List.sum_cons, hf]
      rw [ih]
      simp only [addU64]
      rw [Nat.add_mod, Nat.mod_mod, ← Nat.add_mod, Nat.add_assoc]

theorem findInterface_some_of_mem (target : String) :
    ∀ (ifaces : List InterfaceData), (∃ i ∈ ifaces, i.Name = target) →
      ∃ j, findInterface target ifaces = some j := by
  intro ifaces
  induction ifaces with
  | nil => rintro ⟨i, hi, _⟩; cases hi
  | cons a rest ih =>
    rintro ⟨i, hi, hn⟩
    rw [findInterface_cons]
    by_cases ha : a.Name = target
    · exact ⟨a, by rw [if_pos ha]⟩
    · rw [if_neg ha]
      rcases List.mem_cons.mp hi with e | e
      · exact (ha (e ▸ hn)).elim
      · exact ih ⟨i, e, hn⟩

theorem sumInterfaces_found_mono (ifaces : List InterfaceData) :
    ∀ (targets : List String) (rx tx : Nat),
      (sumInterfaces ifaces targets (rx, tx, true)).2.2 = true := by
  intro targets
  induction targets with
  | nil => intro rx tx; rfl
  | cons t rest ih =>
    intro rx tx
    unfold sumInterfaces
    cases findInterface (TrimSpace t) ifaces with
    | none => exact ih _ _
    | some i => exact ih _ _

theorem sumInterfaces_found (ifaces : List InterfaceData) :
    ∀ (targets : List String) (acc : Nat × Nat × Bool),
      (∃ t ∈ targets, ∃ i ∈ ifaces, i.Name = TrimSpace t) →
      (sumInterfaces ifaces targets acc).2.2 = true := by
  intro targets
  induction targets with
  | nil => rintro acc ⟨t, ht, _⟩; cases ht
  | cons t rest ih =>
    rintro ⟨rx, tx, found⟩ ⟨u, hu, hex⟩
    unfold sumInterfaces
    cases hf : findInterface (TrimSpace t) ifaces with
    | some i => exact sumInterfaces_found_mono _ _ _ _
    | none =>
      rcases List.mem_cons.mp hu with e | e
      · obtain ⟨j, hj⟩ := findInterface_some_of_mem _ _ hex
        rw [e, hf] at hj; cases hj
      · exact ih _ ⟨u, e, hex⟩

theorem selectCounters_listed (h : SSHHost) (d : MetricData)
    (hlist : h.NetInterface ≠ "" ∧ h.NetInterface ≠ "auto")
    (hfound : ∃ t ∈ SplitComma h.NetInterface, ∃ i ∈ d.Interfaces, i.Name = TrimSpace t)
    (hT : (allowList h).Nodup) (hI : (d.Interfaces.map (fun i => i.Name)).Nodup) :
    (selectCounters h d).1 = ((listedInterfaces h d).map (fun i => i.Rx)).sum % u64 ∧
      (selectCounters h d).2 = ((listedInterfaces h d).map (fun i => i.Tx)).sum % u64 := by
  have hf := sumInterfaces_found d.Interfaces (SplitComma h.NetInterface) (0, 0, false) hfound
  have hlt := sumInterfaces_lt d.Interfaces (SplitComma h.NetInterface) (0, 0, false)
    (by unfold u64; norm_num) (by unfold u64; norm_num)
  have h1 := sumInterfaces_fst d.Interfaces (SplitComma h.NetInterface) (0, 0, false)
  have h2 := sumInterfaces_snd d.Interfaces (SplitComma h.NetInterface) (0, 0, false)
  have m1 := firstMatch_sum (fun i => i.Rx) d.Interfaces (allowList h) hT hI
  have m2 := firstMatch_sum (fun i => i.Tx) d.Interfaces (allowList h) hT hI
  unfold allowList at m1 m2
  rw [List.map_map] at m1 m2
  unfold selectCounters
  rw [if_pos hlist]
  rcases hsum : sumInterfaces d.Interfaces (SplitComma h.NetInterface) (0, 0, false) with
    ⟨rx, tx, found⟩
  rw [hsum] at hf hlt h1 h2
  simp only at hf hlt h1 h2
  subst hf
  simp only [Bool.not_true, Bool.false_eq_true, if_false]
  rw [Nat.mod_eq_of_lt hlt.1, Nat.zero_add] at h1
  rw [Nat.mod_eq_of_lt hlt.2, Nat.zero_add] at h2
  unfold listedInterfaces allowList
  exact ⟨h1.trans (congrArg (· % u64) m1), h2.trans (congrArg (· % u64) m2)⟩

/-! ## The agent's scheduler -/

theorem wrapI64_of_fits {x : Int} (h0 : 0 ≤ x) (h1 : x < 2 ^ 63) : wrapI64 x = x := by
  unfold wrapI64
  rw [Int.emod_eq_of_lt (by omega) (by omega)]
  omega

theorem taskFreq_of_fits (t : NetworkTask) (h0 : 0 ≤ t.Frequency)
    (h1 : t.Frequency * second < 2 ^ 63) : taskFreq t = wantedSeconds t * second := by
  have hs : second = 1000000000 := rfl
  have hx : 0 ≤ t.Frequency * second := by rw [hs]; omega
  unfold taskFreq wantedSeconds
  rw [wrapI64_of_fits hx h1]
  by_cases hz : t.Frequency = 0
  · rw [hz]; simp
  · rw [if_neg hz, if_neg]
    rw [hs]; omega

theorem subTime_ge {now last f : Int} (hf : 0 < f) (h : subTime now last ≥ f) :
    now - last ≥ f := by
  unfold subTime at h
  split_ifs at h <;> omega

theorem runDue_invariant (now : Int) :
    ∀ (tasks : List NetworkTask) (st : (Nat → Option Int) × List (NetworkTask × Int)),
      (∀ id, st.1 id = lastLaunch id st.2) → wellSpaced st.2 →
      (∀ id, (runDue now tasks st).1 id = lastLaunch id (runDue now tasks st).2) ∧
        wellSpaced (runDue now tasks st).2 := by
  intro tasks
  induction tasks with
  | nil => intro st h1 h2; exact ⟨h1, h2⟩
  | cons t rest ih =>
    rintro ⟨taskState, launches⟩ h1 h2
    simp only at h1 h2
    unfold runDue
    by_cases hd : due taskState t now = true
    · rw [if_pos hd]
      apply ih
      · intro id
        simp only [lastLaunch]
        by_cases hid : id = t.ID
        · rw [if_pos hid, if_pos hid.symm]
        · rw [if_neg hid, if_neg (fun e => hid e.symm)]; exact h1 id
      · refine ⟨fun last hlast h0 hfit => ?_, h2⟩
        unfold due at hd
        rw [h1 t.ID, hlast] at hd
        simp only [decide_eq_true_eq] at hd
        rw [taskFreq_of_fits t h0 hfit] at hd
        have hpos : 0 < wantedSeconds t * second := by
          have hs : second = 1000000000 := rfl
          unfold wantedSeconds
          split_ifs with hz
          · rw [hs]; omega
          · rw [hs]; omega
        exact subTime_ge hpos hd
    · rw [if_neg hd]
      exact ih _ h1 h2

theorem run_invariant :
    ∀ (evs : List AgentEvent) (r : Runner),
      (∀ id, r.taskState id = lastLaunch id r.launches) → wellSpaced r.launches →
      (∀ id, (r.run evs).taskState id = lastLaunch id (r.run evs).launches) ∧
        wellSpaced (r.run evs).launches := by
  intro evs
  induction evs with
  | nil => intro r h1 h2; exact ⟨h1, h2⟩
  | cons e rest ih =>
    intro r h1 h2
    cases e with
    | sync reply => exact ih _ h1 h2
    | tick now =>
      have hinv := runDue_invariant now r.tasks (r.taskState, r.launches) h1 h2
      exact ih _ hinv.1 hinv.2

theorem wellSpaced_append :
    ∀ (post l : List (NetworkTask × Int)), wellSpaced (post ++ l) → wellSpaced l := by
  intro post
  induction post with
  | nil => intro l h; exact h
  | cons p post ih =>
    intro l h
    obtain ⟨t, n⟩ := p
    exact ih l h.2

theorem mapGet_replace (t : NetworkTask) (id : Nat) :
    ∀ (m : List NetworkTask),
      mapGet id (m.map (fun u => if u.ID = t.ID then t else u)) =
        if t.ID = id then (if m.any (fun u => decide (u.ID = t.ID)) then some t else none)
        else mapGet id m := by
  intro m
  induction m with
  | nil => simp [mapGet]
  | cons a m ih =>
    unfold mapGet at ih ⊢
    rw [List.map_cons, List.find?_cons, List.find?_cons, ih, List.any_cons]
    by_cases h1 : a.ID = t.ID
    · by_cases h2 : t.ID = id
      · simp [h1, h2]
      · have h3 : ¬a.ID = id := fun e => h2 (h1 ▸ e)
        simp [h1, h2, h3]
    · by_cases h2 : t.ID = id
      · have h3 : ¬a.ID = id := fun e => h1 (e.trans h2.symm)
        simp [h1, h2, h3]
      · by_cases h3 : a.ID = id
        · have h4 : ¬id = t.ID := fun e => h2 e.symm
          simp [h2, h3, h4]
        · simp [h1, h2, h3]

theorem mapGet_mapSet (m : List NetworkTask) (t : NetworkTask) (id : Nat) :
    mapGet id (mapSet m t) = if t.ID = id then some t else mapGet id m := by
  unfold mapSet
  by_cases hany : m.any (fun u => decide (u.ID = t.ID)) = true
  · rw [if_pos hany, mapGet_replace, if_pos hany]
  · rw [if_neg hany]
    unfold mapGet
    rw [List.find?_append]
    by_cases h2 : t.ID = id
    · have hnone : m.find? (fun u => decide (u.ID = id)) = none := by
        rw [List.find?_eq_none]
        intro x hx hxid
        apply hany
        rw [List.any_eq_true]
        exact ⟨x, hx, by simpa [h2] using hxid⟩
      rw [hnone, if_pos h2]
      simp [List.find?_cons, h2]
    · rw [if_neg h2]
      simp [List.find?_cons, h2]

theorem mapGet_foldl (id : Nat) :
    ∀ (ts m : List NetworkTask),
      mapGet id (ts.foldl mapSet m) =
        (ts.reverse.find? (fun u => decide (u.ID = id))).or (mapGet id m) := by
  intro ts
  induction ts with
  | nil => intro m; simp
  | cons t ts ih =>
    intro m
    rw [List.foldl_cons, ih, mapGet_mapSet, List.reverse_cons, List.find?_append]
    by_cases h2 : t.ID = id
    · cases ts.reverse.find? (fun u => decide (u.ID = id)) <;> simp [List.find?_cons, h2]
    · cases ts.reverse.find? (fun u => decide (u.ID = id)) <;> simp [List.find?_cons, h2]

theorem mapSet_mem (m : List NetworkTask) (t u : NetworkTask) (hu : u ∈ mapSet m t) :
    u ∈ m ∨ u = t := by
  unfold mapSet at hu
  split_ifs at hu
  · obtain ⟨v, hv, e⟩ := List.mem_map.mp hu
    split_ifs at e
    · exact Or.inr e.symm
    · exact Or.inl (e ▸ hv)
  · rcases List.mem_append.mp hu with h | h
    · exact Or.inl h
    · exact Or.inr (by simpa using h)

theorem foldl_mapSet_mem :
    ∀ (ts m : List NetworkTask) (u : NetworkTask), u ∈ ts.foldl mapSet m → u ∈ m ∨ u ∈ ts := by
  intro ts
  induction ts with
  | nil => intro m u hu; exact Or.inl hu
  | cons t ts ih =>
    intro m u hu
    rcases ih _ u hu with h | h
    · rcases mapSet_mem m t u h with h | h
      · exact Or.inl h
      · exact Or.inr (h ▸ List.mem_cons_self _ _)
    · exact Or.inr (List.mem_cons_of_mem _ h)

theorem runDue_launches (now : Int) :
    ∀ (tasks : List NetworkTask) (st : (Nat → Option Int) × List (NetworkTask × Int)),
      ∀ l ∈ (runDue now tasks st).2, l ∈ st.2 ∨ l.1 ∈ tasks := by
  intro tasks
  induction tasks with
  | nil => intro st l hl; exact Or.inl hl
  | cons t rest ih =>
    rintro ⟨taskState, launches⟩ l hl
    unfold runDue at hl
    split_ifs at hl
    · rcases ih _ l hl with h | h
      · rcases List.mem_cons.mp h with e | e
        · exact Or.inr (e ▸ List.mem_cons_self _ _)
        · exact Or.inl e
      · exact Or.inr (List.mem_cons_of_mem _ h)
    · rcases ih _ l hl with h | h
      · exact Or.inl h
      · exact Or.inr (List.mem_cons_of_mem _ h)

theorem ticks_launches :
    ∀ (ticks : List Int) (r : Runner),
      (r.run (ticks.map AgentEvent.tick)).tasks = r.tasks ∧
        ∀ l ∈ (r.run (ticks.map AgentEvent.tick)).launches, l ∈ r.launches ∨ l.1 ∈ r.tasks := by
  intro ticks
  induction ticks with
  | nil => intro r; exact ⟨rfl, fun l hl => Or.inl hl⟩
  | cons now rest ih =>
    intro r
    have h := ih (r.step (.tick now))
    refine ⟨h.1, fun l hl => ?_⟩
    rcases h.2 l hl with h1 | h1
    · exact runDue_launches now r.tasks (r.taskState, r.launches) l h1
    · exact Or.inr h1

/-! ## Statements the database refuses -/

theorem account_host_raw (k : Nat) (h : SSHHost) (d : MetricData) (now : Time) :
    (account k (enable h) d now).host.NetLastRawRx = (selectCounters h d).1 ∧
      (account k (enable h) d now).host.NetLastRawTx = (selectCounters h d).2 :=
  ⟨storedAfter_lastRawRx k h d now, storedAfter_lastRawTx k h d now⟩

theorem account_host_monthly (k : Nat) (h : SSHHost) (d : MetricData) (now : Time)
    (hs : writable h = true) :
    (account k (enable h) d now).host.NetMonthlyRx =
        addU64 (if resetDue now h then 0 else h.NetMonthlyRx)
          (account k (enable h) d now).deltaRx ∧
      (account k (enable h) d now).host.NetMonthlyTx =
        addU64 (if resetDue now h then 0 else h.NetMonthlyTx)
          (account k (enable h) d now).deltaTx :=
  ⟨storedAfter_monthlyRx_add k h d now (reset_base_lt _ (Or.inr (writable_monthly hs).1)),
    storedAfter_monthlyTx_add k h d now (reset_base_lt _ (Or.inr (writable_monthly hs).2))⟩

theorem reset_base_le (b : Bool) (m : Nat) : (if b then 0 else m) ≤ m := by
  cases b <;> simp

theorem account_host_exact (k : Nat) (h : SSHHost) (d : MetricData) (now : Time)
    (hs : writable h = true) (hw : writable (account k (enable h) d now).host = true) :
    (account k (enable h) d now).host.NetMonthlyRx =
        (if resetDue now h then 0 else h.NetMonthlyRx) + (account k (enable h) d now).deltaRx ∧
      (account k (enable h) d now).host.NetMonthlyTx =
        (if resetDue now h then 0 else h.NetMonthlyTx)
          + (account k (enable h) d now).deltaTx := by
  have hm := account_host_monthly k h d now hs
  have hb := (writable_iff h).mp hs
  have hc := (writable_iff _).mp hw
  have hraw := account_host_raw k h d now
  rw [hraw.1, hraw.2] at hc
  have hdr : (account k (enable h) d now).deltaRx ≤ (selectCounters h d).1 := by
    rw [account_deltaRx]; exact delta_le _ _
  have hdt : (account k (enable h) d now).deltaTx ≤ (selectCounters h d).2 := by
    rw [account_deltaTx]; exact delta_le _ _
  have b1 := reset_base_le (resetDue now h) h.NetMonthlyRx
  have b2 := reset_base_le (resetDue now h) h.NetMonthlyTx
  rw [hm.1, hm.2]
  exact ⟨addU64_exact (by unfold u64; omega), addU64_exact (by unfold u64; omega)⟩

theorem Pulse_keeps_writable {s : Server} {req : PulseRequest} {h : SSHHost} {d : MetricData}
    (now : Time) (ha : authenticate s req = .ok (h, d)) (hs : writable h = true) :
    ∃ row, (Pulse s req now).1.hosts d.HostID = some row ∧ writable row = true := by
  by_cases hw : writable (account d.HostID (enable h) d now).host = true
  · exact ⟨_, Pulse_row now ha hw, hw⟩
  · have hw2 : writable (account d.HostID (enable h) d now).host = false := by simpa using hw
    exact ⟨_, Pulse_row_refused now ha hw2, by rw [writable_enable]; exact hs⟩

theorem recordTimes_append (k : Nat) (a b : List (Time × MonitorRecord)) :
    recordTimes k (a ++ b) = recordTimes k a ++ recordTimes k b := by
  simp [recordTimes]

theorem run_records (k : Nat) :
    ∀ (reqs : List (PulseRequest × Time)) (s : Server),
      ∃ added, (runPulses s reqs).records = s.records ++ added ∧
        List.Sublist (recordTimes k added) (snapshotTimes k s reqs) := by
  intro reqs
  induction reqs with
  | nil => intro s; exact ⟨[], by simp [runPulses], by simp [recordTimes]⟩
  | cons r rest ih =>
    obtain ⟨req, now⟩ := r
    intro s
    obtain ⟨added, h1, h2⟩ := ih (Pulse s req now).1
    rw [snapshotTimes_cons]
    show ∃ added, (runPulses (Pulse s req now).1 rest).records = s.records ++ added ∧ _
    cases ha : authenticate s req with
    | error c =>
      rw [Pulse_rejected now ha] at h1 h2
      rw [Pulse_rejected now ha]
      exact ⟨added, h1, by simpa using h2⟩
    | ok p =>
      obtain ⟨h, d⟩ := p
      have hrec := Pulse_records now ha
      dsimp only
      by_cases hc : (shouldSave s.lastDbSave d.HostID now && insertable (snapshot d)) = true
      · rw [if_pos hc] at hrec
        have hsave : shouldSave s.lastDbSave d.HostID now = true := by
          simp only [Bool.and_eq_true] at hc; exact hc.1
        refine ⟨(now, snapshot d) :: added, by rw [h1, hrec]; simp, ?_⟩
        by_cases hk : d.HostID = k
        · rw [if_pos ⟨hsave, hk⟩]
          have e : recordTimes k ((now, snapshot d) :: added) = now :: recordTimes k added := by
            simp [recordTimes, snapshot, hk]
          rw [e, List.singleton_append]
          exact List.Sublist.cons₂ _ h2
        · rw [if_neg (fun e => hk e.2), List.nil_append]
          have e : recordTimes k ((now, snapshot d) :: added) = recordTimes k added := by
            simp [recordTimes, snapshot, hk]
          rw [e]; exact h2
      · rw [if_neg hc] at hrec
        refine ⟨added, by rw [h1, hrec], ?_⟩
        exact h2.trans (List.sublist_append_right _ _)

theorem run_records_spaced (k : Nat) (reqs : List (PulseRequest × Time)) (s : Server) :
    List.Pairwise (fun a b => b.unixNano - a.unixNano > minute)
        (recordTimes k ((runPulses s reqs).records.drop s.records.length)) ∧
      (∀ last, s.lastDbSave k = some last →
        ∀ t ∈ recordTimes k ((runPulses s reqs).records.drop s.records.length),
          t.unixNano - last.unixNano > minute) := by
  obtain ⟨added, h1, h2⟩ := run_records k reqs s
  rw [h1, List.drop_left]
  exact ⟨(spaced_run k reqs s).2.sublist h2,
    fun last hl t ht => (spaced_run k reqs s).1 last hl t (h2.subset ht)⟩

theorem Pulse_row_cases {s : Server} {req : PulseRequest} {h : SSHHost} {d : MetricData}
    (now : Time) (ha : authenticate s req = .ok (h, d)) :
    ∃ row, (Pulse s req now).1.hosts d.HostID = some row ∧
      (writable (account d.HostID (enable h) d now).host = true →
        row = storedAfter d.HostID h d now) ∧
      (writable (account d.HostID (enable h) d now).host = false → row = enable h) := by
  by_cases hw : writable (account d.HostID (enable h) d now).host = true
  · exact ⟨_, Pulse_row now ha hw, fun _ => rfl, fun hf => absurd (hw.symm.trans hf) (by decide)⟩
  · have hw2 : writable (account d.HostID (enable h) d now).host = false := by simpa using hw
    exact ⟨_, Pulse_row_refused now ha hw2, fun ht => absurd ht hw, fun _ => rfl⟩

theorem insertable_snapshot (d : MetricData) :
    insertable (snapshot d) = true ↔
      (d.MemUsed < 2 ^ 63 ∧ d.MemTotal < 2 ^ 63 ∧ d.DiskUsed < 2 ^ 63 ∧ d.DiskTotal < 2 ^ 63 ∧
        d.NetRx < 2 ^ 63 ∧ d.NetTx < 2 ^ 63) := by
  simp only [insertable, snapshot, sqlAccepts, Bool.and_eq_true, decide_eq_true_eq, and_assoc]

/-! ## The report buffer -/

theorem flushResults_buf (buf : List NetworkResult) (reply : PostReply) :
    (flushResults buf reply).resultsBuf = [] := by
  unfold flushResults
  split_ifs with h
  · exact List.length_eq_zero.mp h
  · rfl

theorem flushResults_batch (buf : List NetworkResult) (reply : PostReply) :
    (flushResults buf reply).batch = if buf = [] then none else some buf := by
  unfold flushResults
  by_cases h : buf = []
  · subst h; rfl
  · have hl : ¬ buf.length = 0 := fun e => h (List.length_eq_zero.mp e)
    rw [if_neg hl, if_neg h]

theorem Reporter.run_join :
    ∀ (events : List BufferEvent) (r : Reporter),
      (r.run events).batches.flatten ++ (r.run events).resultsBuf
        = r.batches.flatten ++ r.resultsBuf ++ probedResults events := by
  intro events
  induction events with
  | nil => intro r; simp [Reporter.run, probedResults]
  | cons e rest ih =>
    intro r
    cases e with
    | probed task now net =>
      simp only [Reporter.run, probedResults]
      rw [ih]
      simp [Reporter.step, executeTask]
    | flush reply =>
      simp only [Reporter.run, probedResults]
      rw [ih]
      simp only [Reporter.step, flushResults_buf, flushResults_batch]
      by_cases hb : r.resultsBuf = []
      · simp [hb]
      · simp [hb]

/-! ## Stopping the monitor -/

theorem stopLoop_hub (hostIDs : List Nat) :
    ∀ s : Server,
      (hostIDs.foldl
        (fun s id =>
          match s.hosts id with
          | none => s
          | some _ => stopMonitorOnHost s id) s).hub = s.hub := by
  induction hostIDs with
  | nil => intro s; rfl
  | cons id rest ih =>
    intro s
    rw [List.foldl_cons, ih]
    cases s.hosts id <;> rfl

theorem BatchStop_hub (s : Server) (body : Option (List Nat)) :
    (BatchStop s body).1.hub = s.hub := by
  unfold BatchStop
  cases body with
  | none => rfl
  | some hostIDs =>
    dsimp only
    split_ifs
    · rfl
    · exact stopLoop_hub hostIDs s

theorem UninstallCallback_hub (s : Server) (secret : String) (hostID : Option Nat) :
    (UninstallCallback s secret hostID).1.hub = s.hub := by
  unfold UninstallCallback
  cases hostID with
  | none => rfl
  | some id =>
    dsimp only
    split_ifs
    · rfl
    · cases s.hosts id with
      | none => rfl
      | some host =>
        dsimp only
        split_ifs <;> rfl

/-! ## Two pulses at the same time -/

theorem Pulse_eq_finish {s : Server} {req : PulseRequest} {h : SSHHost} {d : MetricData}
    (now : Time) (ha : authenticate s req = .ok (h, d)) :
    Pulse s req now = (finishPulse s h d now, 200) := by
  unfold Pulse finishPulse; rw [ha]

theorem finishPulse_hosts (s : Server) (h : SSHHost) (d : MetricData) (now : Time) :
    (finishPulse s h d now).hosts =
      fun k =>
        if k = d.HostID then
          (s.hosts k).map (fun row =>
            if ((account d.HostID (enable h) d now).dbUpdated
                && writable (account d.HostID (enable h) d now).host) = true then
              persistSelected (account d.HostID (enable h) d now).host row
            else if !h.MonitorEnabled then { row with MonitorEnabled := true }
            else row)
        else s.hosts k := by
  funext k
  unfold finishPulse
  by_cases hk : k = d.HostID
  · subst hk
    simp only [if_true]
    cases hrow : s.hosts d.HostID with
    | none => split_ifs <;> simp [updateRow, hrow]
    | some row =>
      by_cases hdb : ((account d.HostID (enable h) d now).dbUpdated
          && writable (account d.HostID (enable h) d now).host) = true
      · by_cases hm : (!h.MonitorEnabled) = true
        · simp [hdb, hm, updateRow, hrow, persistSelected]
        · simp [hdb, hm, updateRow, hrow]
      · by_cases hm : (!h.MonitorEnabled) = true
        · simp [hdb, hm, updateRow, hrow]
        · simp [hdb, hm, hrow]
  · simp only [if_neg hk]
    split_ifs <;> simp only [updateRow_other _ _ hk]

theorem persistSelected_twice (x y row : SSHHost) :
    persistSelected x (persistSelected y row) = persistSelected x row := rfl

theorem persistSelected_enabled (x row : SSHHost) :
    persistSelected x { row with MonitorEnabled := true } = persistSelected x row := rfl

theorem raced_same_host (s : Server) (h1 h2 : SSHHost) (d1 d2 : MetricData) (t1 t2 : Time)
    (hk : d1.HostID = d2.HostID)
    (hdb : (account d2.HostID (enable h2) d2 t2).dbUpdated = true)
    (hw : writable (account d2.HostID (enable h2) d2 t2).host = true) :
    (finishPulse (finishPulse s h1 d1 t1) h2 d2 t2).hosts = (finishPulse s h2 d2 t2).hosts := by
  rw [finishPulse_hosts (finishPulse s h1 d1 t1), finishPulse_hosts s h2, finishPulse_hosts s h1]
  funext k
  by_cases hkk : k = d2.HostID
  · subst hkk
    simp only [if_true, hk, hdb, hw, Bool.and_self]
    cases s.hosts d2.HostID with
    | none => rfl
    | some row =>
      simp only [Option.map_some']
      split_ifs <;> rfl
  · have hk1 : ¬ k = d1.HostID := by rw [hk]; exact hkk
    simp only [if_neg hkk, if_neg hk1]

theorem refused_second_write (s : Server) (h2 : SSHHost) (d2 : MetricData) (t2 : Time)
    (hm : h2.MonitorEnabled = true)
    (hw : writable (account d2.HostID (enable h2) d2 t2).host = false) :
    (finishPulse s h2 d2 t2).hosts = s.hosts := by
  rw [finishPulse_hosts]
  funext k
  by_cases hkk : k = d2.HostID
  · subst hkk
    simp only [if_true, hw, hm, Bool.and_false, Bool.false_eq_true, if_false, Bool.not_true]
    cases s.hosts d2.HostID <;> rfl
  · simp only [if_neg hkk]

theorem raced_other_host {s : Server} {first second : PulseRequest} {h1 h2 : SSHHost}
    {d1 d2 : MetricData} (t1 t2 : Time)
    (a1 : authenticate s first = .ok (h1, d1)) (a2 : authenticate s second = .ok (h2, d2))
    (hne : d1.HostID ≠ d2.HostID) :
    racedPulses s first second t1 t2 = runPulses s [(first, t1), (second, t2)] := by
  have hauth : authenticate (finishPulse s h1 d1 t1) second = .ok (h2, d2) := by
    rw [← a2]
    apply authenticate_congr
    intro d hd
    have hd2 : d = d2 := by
      have := authenticate_body a2
      rw [hd] at this
      exact Option.some.inj this
    rw [hd2, finishPulse_hosts]
    simp only [if_neg (Ne.symm hne)]
  unfold racedPulses
  rw [a1, a2]
  simp only [runPulses, Pulse_eq_finish t1 a1, Pulse_eq_finish t2 hauth]

/-! ## The hub -/

theorem Hub.received_broadcast (h : Hub) (event : HubEvent) (conn : Nat) :
    (h.step (.broadcast event)).received conn
      = h.received conn ++ List.replicate (h.viewers.count conn) event := by
  unfold Hub.received Hub.step
  simp only [List.filter_append, List.map_append]
  congr 1
  induction h.viewers with
  | nil => rfl
  | cons c rest ih =>
    by_cases hc : c = conn
    · subst hc
      simp only [List.map_cons, List.filter_cons, decide_True, if_true, List.count_cons_self,
        List.replicate_succ, ih]
    · have hc2 : ¬ (c == conn) = true := by simpa using hc
      simp only [List.map_cons, List.filter_cons, hc, decide_False, Bool.false_eq_true, if_false,
        List.count_cons, hc2, ih, Nat.add_zero]

theorem Hub.run_connected :
    ∀ (msgs : List HubMsg) (h : Hub) (conn : Nat),
      h.viewers.Nodup → conn ∈ h.viewers → HubMsg.unregister conn ∉ msgs →
        (h.run msgs).received conn = h.received conn ++ broadcasts msgs := by
  intro msgs
  induction msgs with
  | nil => intro h conn _ _ _; simp [Hub.run, broadcasts]
  | cons m rest ih =>
    intro h conn hn hm hu
    have hu1 : m ≠ HubMsg.unregister conn := fun e => hu (by rw [e]; exact List.mem_cons_self _ _)
    have hu2 : HubMsg.unregister conn ∉ rest := fun e => hu (List.mem_cons_of_mem _ e)
    cases m with
    | register c =>
      simp only [Hub.run, broadcasts]
      by_cases hc : c ∈ h.viewers
      · have hs : h.step (.register c) = h := by simp [Hub.step, hc]
        rw [hs]; exact ih h conn hn hm hu2
      · have hs : h.step (.register c) = { h with viewers := h.viewers ++ [c] } := by
          simp [Hub.step, hc]
        rw [hs, ih _ conn _ _ hu2]
        · rfl
        · exact List.Nodup.append hn (List.nodup_singleton c)
            (by intro a ha hb; rw [List.mem_singleton] at hb; exact hc (hb ▸ ha))
        · exact List.mem_append_left _ hm
    | unregister c =>
      have hc : c ≠ conn := fun e => hu1 (by rw [e])
      simp only [Hub.run, broadcasts]
      rw [ih _ conn _ _ hu2]
      · rfl
      · exact List.Nodup.filter _ hn
      · simp only [Hub.step, List.mem_filter]
        exact ⟨hm, by simpa using Ne.symm hc⟩
    | broadcast event =>
      simp only [Hub.run, broadcasts]
      rw [ih _ conn _ _ hu2, Hub.received_broadcast, List.count_eq_one_of_mem hn hm]
      · simp
      · exact hn
      · exact hm

theorem Hub.run_gone :
    ∀ (msgs : List HubMsg) (h : Hub) (conn : Nat),
      conn ∉ h.viewers → HubMsg.register conn ∉ msgs →
        (h.run msgs).received conn = h.received conn := by
  intro msgs
  induction msgs with
  | nil => intro h conn _ _; rfl
  | cons m rest ih =>
    intro h conn hm hr
    have hr1 : m ≠ HubMsg.register conn := fun e => hr (by rw [e]; exact List.mem_cons_self _ _)
    have hr2 : HubMsg.register conn ∉ rest := fun e => hr (List.mem_cons_of_mem _ e)
    cases m with
    | register c =>
      have hc : c ≠ conn := fun e => hr1 (by rw [e])
      simp only [Hub.run]
      by_cases hcv : c ∈ h.viewers
      · have hs : h.step (.register c) = h := by simp [Hub.step, hcv]
        rw [hs]; exact ih h conn hm hr2
      · have hs : h.step (.register c) = { h with viewers := h.viewers ++ [c] } := by
          simp [Hub.step, hcv]
        rw [hs, ih _ conn _ hr2]
        · rfl
        · simp only [List.mem_append, List.mem_singleton, not_or]
          exact ⟨hm, Ne.symm hc⟩
    | unregister c =>
      simp only [Hub.run]
      rw [ih _ conn _ hr2]
      · rfl
      · simp only [Hub.step, List.mem_filter, not_and]
        intro hin; exact absurd hin hm
    | broadcast event =>
      simp only [Hub.run]
      rw [ih _ conn _ hr2, Hub.received_broadcast, List.count_eq_zero_of_not_mem hm]
      · simp
      · exact hm

theorem Hub.unregister_gone (h : Hub) (conn : Nat) :
    conn ∉ (h.step (.unregister conn)).viewers := by
  simp [Hub.step, List.mem_filter]

theorem Hub.unregister_absent (h : Hub) (conn : Nat) (hm : conn ∉ h.viewers) :
    h.step (.unregister conn) = h := by
  have hf : h.viewers.filter (fun c => decide (c ≠ conn)) = h.viewers := by
    rw [List.filter_eq_self]
    intro c hc
    have : c ≠ conn := fun e => hm (e ▸ hc)
    simpa using this
  cases h with
  | mk viewers delivered =>
    simp only [Hub.step] at hf ⊢
    rw [hf]

theorem keepAlive_eq (conn : Nat) (reads : List Bool) :
    keepAlive conn reads = if false ∈ reads then [HubMsg.unregister conn] else [] := by
  induction reads with
  | nil => rfl
  | cons ok rest ih =>
    cases ok with
    | true => simp [keepAlive, ih]
    | false => simp [keepAlive]

/-! ## `SSHHostHandler.Update` -/

theorem writeSelected_raw (b : Bool) (host row : SSHHost) :
    (writeSelected b host row).NetLastRawRx = row.NetLastRawRx
      ∧ (writeSelected b host row).NetLastRawTx = row.NetLastRawTx := by
  cases b <;> exact ⟨rfl, rfl⟩

/-! ## The usage percentage -/

theorem usagePercent_exact (host : SSHHost) (hl : host.NetTrafficLimit > 0)
    (hf : (host.NetMonthlyRx + host.NetMonthlyTx) * 100 < u64) :
    usagePercent host = exactPercent host := by
  have h1 : host.NetMonthlyRx + host.NetMonthlyTx < u64 := by omega
  unfold usagePercent exactPercent
  rw [if_pos hl, addU64_exact h1]
  unfold mulU64
  rw [Nat.mod_eq_of_lt hf]

/-! ## Allowed origins -/

theorem decodeRune_width_le (cs : GoString) : (decodeRune cs).2 ≤ cs.length := by
  rcases cs with _ | ⟨b0, _ | ⟨b1, _ | ⟨b2, _ | ⟨b3, tl⟩⟩⟩⟩ <;>
    simp only [decodeRune, List.length_cons, List.length_nil] <;>
    (repeat' split) <;> simp

theorem decodeRune_quote (b : Nat) (rest : GoString) :
    (decodeRune (b :: rest)).1 = quoteByte ↔ b = quoteByte := by
  unfold decodeRune
  rcases rest with _ | ⟨b1, _ | ⟨b2, _ | ⟨b3, tl⟩⟩⟩ <;>
    (simp only [quoteByte, RuneError, isCont, secondLo, secondHi]; repeat' split) <;>
    simp_all <;> omega

theorem decodeRune_boundary (b : Nat) (tl rest : GoString) :
    decodeRune (b :: tl ++ quoteByte :: rest) = decodeRune (b :: tl) := by
  rcases tl with _ | ⟨b1, _ | ⟨b2, _ | ⟨b3, tl⟩⟩⟩ <;>
    rcases rest with _ | ⟨r1, _ | ⟨r2, rest⟩⟩ <;>
    simp [decodeRune, isCont, secondLo, secondHi, quoteByte] <;>
    (repeat' split) <;> simp_all

theorem encodeRune_two {b0 b1 : Nat} (h0 : 194 ≤ b0 ∧ b0 ≤ 223) (h1 : isCont b1 = true) :
    encodeRune ((b0 - 192) * 64 + (b1 - 128)) = [b0, b1] := by
  simp only [isCont, decide_eq_true_eq] at h1
  unfold encodeRune
  rw [if_neg (by omega), if_pos (by omega)]
  have e1 : 192 + ((b0 - 192) * 64 + (b1 - 128)) / 64 = b0 := by omega
  have e2 : 128 + ((b0 - 192) * 64 + (b1 - 128)) % 64 = b1 := by omega
  rw [e1, e2]

theorem encodeRune_three {b0 b1 b2 : Nat} (h0 : 224 ≤ b0 ∧ b0 ≤ 239)
    (h1 : secondLo b0 ≤ b1 ∧ b1 ≤ secondHi b0) (h2 : isCont b2 = true) :
    encodeRune ((b0 - 224) * 4096 + (b1 - 128) * 64 + (b2 - 128)) = [b0, b1, b2] := by
  simp only [isCont, decide_eq_true_eq] at h2
  have hlo : 128 ≤ b1 ∧ (b0 = 224 → 160 ≤ b1) := by
    unfold secondLo at h1; split_ifs at h1 <;> omega
  have hhi : b1 ≤ 191 ∧ (b0 = 237 → b1 ≤ 159) := by
    unfold secondHi at h1; split_ifs at h1 <;> omega
  unfold encodeRune
  rw [if_neg (by omega), if_neg (by omega), if_neg (by omega), if_pos (by omega)]
  have e1 : 224 + ((b0 - 224) * 4096 + (b1 - 128) * 64 + (b2 - 128)) / 4096 = b0 := by omega
  have e2 : 128 + ((b0 - 224) * 4096 + (b1 - 128) * 64 + (b2 - 128)) / 64 % 64 = b1 := by omega
  have e3 : 128 + ((b0 - 224) * 4096 + (b1 - 128) * 64 + (b2 - 128)) % 64 = b2 := by omega
  rw [e1, e2, e3]

theorem encodeRune_four {b0 b1 b2 b3 : Nat} (h0 : 240 ≤ b0 ∧ b0 ≤ 244)
    (h1 : secondLo b0 ≤ b1 ∧ b1 ≤ secondHi b0) (h2 : isCont b2 = true)
    (h3 : isCont b3 = true) :
    encodeRune ((b0 - 240) * 262144 + (b1 - 128) * 4096 + (b2 - 128) * 64 + (b3 - 128))
      = [b0, b1, b2, b3] := by
  simp only [isCont, decide_eq_true_eq] at h2 h3
  have hlo : 128 ≤ b1 ∧ (b0 = 240 → 144 ≤ b1) := by
    unfold secondLo at h1; split_ifs at h1 <;> omega
  have hhi : b1 ≤ 191 ∧ (b0 = 244 → b1 ≤ 143) := by
    unfold secondHi at h1; split_ifs at h1 <;> omega
  unfold encodeRune
  rw [if_neg (by omega), if_neg (by omega), if_neg (by omega), if_neg (by omega)]
  have e1 : 240 + ((b0 - 240) * 262144 + (b1 - 128) * 4096 + (b2 - 128) * 64 + (b3 - 128))
      / 262144 = b0 := by omega
  have e2 : 128 + ((b0 - 240) * 262144 + (b1 - 128) * 4096 + (b2 - 128) * 64 + (b3 - 128))
      / 4096 % 64 = b1 := by omega
  have e3 : 128 + ((b0 - 240) * 262144 + (b1 - 128) * 4096 + (b2 - 128) * 64 + (b3 - 128))
      / 64 % 64 = b2 := by omega
  have e4 : 128 + ((b0 - 240) * 262144 + (b1 - 128) * 4096 + (b2 - 128) * 64 + (b3 - 128))
      % 64 = b3 := by omega
  rw [e1, e2, e3, e4]

theorem decodeRune_cons (b0 : Nat) (rest : GoString) :
    decodeRune (b0 :: rest) =
      if b0 < 128 then (b0, 1)
      else if 194 ≤ b0 ∧ b0 ≤ 223 then
        match rest with
        | b1 :: _ =>
          if isCont b1 then ((b0 - 192) * 64 + (b1 - 128), 2) else (RuneError, 1)
        | [] => (RuneError, 1)
      else if 224 ≤ b0 ∧ b0 ≤ 239 then
        match rest with
        | b1 :: b2 :: _ =>
          if secondLo b0 ≤ b1 ∧ b1 ≤ secondHi b0 ∧ isCont b2 = true then
            ((b0 - 224) * 4096 + (b1 - 128) * 64 + (b2 - 128), 3)
          else (RuneError, 1)
        | _ => (RuneError, 1)
      else if 240 ≤ b0 ∧ b0 ≤ 244 then
        match rest with
        | b1 :: b2 :: b3 :: _ =>
          if secondLo b0 ≤ b1 ∧ b1 ≤ secondHi b0 ∧ isCont b2 = true ∧ isCont b3 = true then
            ((b0 - 240) * 262144 + (b1 - 128) * 4096 + (b2 - 128) * 64 + (b3 - 128), 4)
          else (RuneError, 1)
        | _ => (RuneError, 1)
      else (RuneError, 1) := rfl

theorem encode_decode (b0 : Nat) (rest : GoString) :
    decodeRune (b0 :: rest) = (RuneError, 1) ∨
      encodeRune (decodeRune (b0 :: rest)).1 = (b0 :: rest).take (decodeRune (b0 :: rest)).2 := by
  rw [decodeRune_cons]
  by_cases c1 : b0 < 128
  · right
    rw [if_pos c1]
    simp [encodeRune, c1]
  · rw [if_neg c1]
    by_cases c2 : 194 ≤ b0 ∧ b0 ≤ 223
    · rw [if_pos c2]
      rcases rest with _ | ⟨b1, tl⟩
      · left; rfl
      · by_cases h1 : isCont b1 = true
        · right
          simp only [h1, if_true]
          rw [encodeRune_two c2 h1]; rfl
        · left; simp only [h1, Bool.false_eq_true, if_false]
    · rw [if_neg c2]
      by_cases c3 : 224 ≤ b0 ∧ b0 ≤ 239
      · rw [if_pos c3]
        rcases rest with _ | ⟨b1, _ | ⟨b2, tl⟩⟩
        · left; rfl
        · left; rfl
        · by_cases h : secondLo b0 ≤ b1 ∧ b1 ≤ secondHi b0 ∧ isCont b2 = true
          · right
            simp only [h, and_self, if_true]
            rw [encodeRune_three c3 ⟨h.1, h.2.1⟩ h.2.2]; rfl
          · left; simp only [h, if_false]
      · rw [if_neg c3]
        by_cases c4 : 240 ≤ b0 ∧ b0 ≤ 244
        · rw [if_pos c4]
          rcases rest with _ | ⟨b1, _ | ⟨b2, _ | ⟨b3, tl⟩⟩⟩
          · left; rfl
          · left; rfl
          · left; rfl
          · by_cases h : secondLo b0 ≤ b1 ∧ b1 ≤ secondHi b0 ∧ isCont b2 = true
                ∧ isCont b3 = true
            · right
              simp only [h, and_self, if_true]
              rw [encodeRune_four c4 ⟨h.1, h.2.1⟩ h.2.2.1 h.2.2.2]; rfl
            · left; simp only [h, if_false]
        · left; rw [if_neg c4]
theorem decodeRune_width_pos (b : Nat) (rest : GoString) : 1 ≤ (decodeRune (b :: rest)).2 := by
  rcases encode_decode b rest with h | h
  · rw [h]
  · by_contra hc
    have h0 : (decodeRune (b :: rest)).2 = 0 := by omega
    rw [h0] at h
    have hne : encodeRune (decodeRune (b :: rest)).1 ≠ [] := by
      unfold encodeRune; split_ifs <;> simp
    exact hne h

theorem decodeRune_examples :
    [[194, 128], [223, 191], [224, 160, 128], [237, 159, 191], [238, 128, 128],
        [239, 191, 191], [240, 144, 128, 128], [241, 128, 128, 128], [244, 143, 191, 191],
        [0], [127]].map decodeRune
      = [(128, 2), (2047, 2), (2048, 3), (55295, 3), (57344, 3), (65535, 3), (65536, 4),
          (262144, 4), (1114111, 4), (0, 1), (127, 1)]
      ∧ [[128], [191], [192, 128], [193, 191], [194], [194, 127], [194, 192], [224, 159, 128],
          [224, 160], [224, 160, 127], [237, 160, 128], [240, 143, 128, 128],
          [240, 144, 128], [240, 144, 128, 192], [244, 144, 128, 128], [245, 128, 128, 128],
          [255]].map decodeRune
        = List.replicate 17 (RuneError, 1)
      ∧ [128, 2047, 2048, 55295, 57344, 65535, 65536, 1114111].map encodeRune
        = [[194, 128], [223, 191], [224, 160, 128], [237, 159, 191], [238, 128, 128],
            [239, 191, 191], [240, 144, 128, 128], [244, 143, 191, 191]]
      ∧ [55296, 57343, 1114112].map encodeRune = List.replicate 3 [239, 191, 189] := by
  decide

theorem validUTF8_examples :
    [[], [97], [195, 169], [226, 130, 172], [240, 159, 152, 128], [239, 191, 189],
        bytesOf "https://a.example"].map (fun s => validUTF8 s 0)
      = List.replicate 7 true
      ∧ [[255], [128], [195], [226, 130], [240, 159, 152], [97, 192, 128], [237, 160, 128]].map
          (fun s => validUTF8 s 0)
        = List.replicate 7 false
      ∧ [[255], [97, 195], [195, 169], [226, 130, 172, 255]].map (fun s => rangeCopy s 0)
        = [[239, 191, 189], [97, 239, 191, 189], [195, 169],
            [226, 130, 172, 239, 191, 189]] := by
  decide

theorem rangeCopy_valid :
    ∀ (cs : GoString) (skip : Nat), skip ≤ cs.length → validUTF8 cs skip = true →
      rangeCopy cs skip = cs.drop skip := by
  intro cs
  induction cs with
  | nil => intro skip _ _; simp [rangeCopy]
  | cons b rest ih =>
    intro skip hlen hv
    cases skip with
    | succ k =>
      rw [rangeCopy, List.drop_succ_cons]
      exact ih k (by simpa using hlen) (by simpa [validUTF8] using hv)
    | zero =>
      rw [validUTF8, Bool.and_eq_true, decide_eq_true_eq] at hv
      have hw := decodeRune_width_le (b :: rest)
      have hp := decodeRune_width_pos b rest
      rw [List.length_cons] at hw
      rcases encode_decode b rest with h | h
      · exact absurd h hv.1
      · rw [rangeCopy, h, ih _ (by omega) hv.2, List.drop_zero]
        obtain ⟨w, hwe⟩ : ∃ w, (decodeRune (b :: rest)).2 = w + 1 := ⟨_, (Nat.sub_add_cancel hp).symm⟩
        rw [hwe, Nat.add_sub_cancel, List.take_succ_cons, List.cons_append,
          List.take_append_drop]

theorem splitLoop_ascii (b : Nat) (rest : GoString) (result : List GoString)
    (current : GoString) (inQuote : Bool) (hb : b < 128) :
    splitLoop (b :: rest) 0 result current inQuote =
      if b = quoteByte then splitLoop rest 0 result (current ++ [b]) (!inQuote)
      else if b = commaByte ∧ inQuote = false then
        if current ≠ [] then splitLoop rest 0 (result ++ [current]) [] inQuote
        else splitLoop rest 0 result current inQuote
      else splitLoop rest 0 result (current ++ [b]) inQuote := by
  have hd : decodeRune (b :: rest) = (b, 1) := by rw [decodeRune_cons, if_pos hb]
  have he : encodeRune b = [b] := by unfold encodeRune; rw [if_pos hb]
  rw [splitLoop, hd, he]
  rfl

theorem appendOrigins_later :
    ∀ (origins : List GoString) (i : Nat) (acc : GoString), i > 0 →
      appendOrigins origins i acc = acc ++ tailBytes origins := by
  intro origins
  induction origins with
  | nil => intro i acc _; simp [appendOrigins, tailBytes]
  | cons o rest ih =>
    intro i acc hi
    simp only [appendOrigins, if_pos hi]
    rw [ih (i + 1) _ (Nat.succ_pos i)]
    simp [tailBytes]

theorem appendOrigins_first (o : GoString) (rest : List GoString) (acc : GoString) :
    appendOrigins (o :: rest) 0 acc = acc ++ quoted o ++ tailBytes rest := by
  simp only [appendOrigins, Nat.lt_irrefl, if_false, gt_iff_lt]
  rw [appendOrigins_later rest (0 + 1) _ (Nat.succ_pos 0)]

theorem splitLoop_inside :
    ∀ (cs : GoString) (skip : Nat) (rest : GoString) (result : List GoString)
      (current : GoString),
      quoteByte ∉ cs → skip ≤ cs.length →
        splitLoop (cs ++ quoteByte :: rest) skip result current true
          = splitLoop (quoteByte :: rest) 0 result (current ++ rangeCopy cs skip) true := by
  intro cs
  induction cs with
  | nil =>
    intro skip rest result current _ hlen
    have h0 : skip = 0 := by simpa using hlen
    subst h0
    simp [rangeCopy]
  | cons c cs ih =>
    intro skip rest result current hq hlen
    have hc : c ≠ quoteByte := fun e => hq (by rw [e]; exact List.mem_cons_self _ _)
    have hcs : quoteByte ∉ cs := fun e => hq (List.mem_cons_of_mem _ e)
    cases skip with
    | succ k =>
      rw [List.cons_append, splitLoop, rangeCopy]
      exact ih k rest result current hcs (by simpa using hlen)
    | zero =>
      have hb := decodeRune_boundary c cs rest
      rw [List.cons_append] at hb
      have hw := decodeRune_width_le (c :: cs)
      rw [List.length_cons] at hw
      have hnq : ¬ (decodeRune (c :: cs)).1 = quoteByte := fun e =>
        hc ((decodeRune_quote c cs).mp e)
      rw [List.cons_append, splitLoop, hb, if_neg hnq, if_neg (by simp),
        ih _ rest result _ hcs (by omega), rangeCopy, List.append_assoc]

theorem quoted_ne_nil (o : GoString) : quoted o ≠ [] := by simp [quoted]

theorem splitLoop_quoted (o : GoString) (rest : GoString) (result : List GoString)
    (hq : quoteByte ∉ o) :
    splitLoop (quoted o ++ rest) 0 result [] false
      = splitLoop rest 0 result (quoted (rangeCopy o 0)) false := by
  unfold quoted
  rw [List.cons_append, splitLoop_ascii _ _ _ _ _ (by decide), if_pos rfl, List.append_assoc,
    Bool.not_false, List.singleton_append, splitLoop_inside o 0 rest result _ hq (Nat.zero_le _),
    splitLoop_ascii _ _ _ _ _ (by decide), if_pos rfl]
  simp

theorem splitLoop_tail :
    ∀ (origins : List GoString) (current : GoString) (result : List GoString),
      current ≠ [] → (∀ x ∈ origins, quoteByte ∉ x) →
        splitLoop (tailBytes origins) 0 result current false
          = result ++ current :: origins.map (fun x => quoted (rangeCopy x 0)) := by
  intro origins
  induction origins with
  | nil =>
    intro current result hne _
    simp [tailBytes, splitLoop, hne]
  | cons o2 rest ih =>
    intro current result hne hq
    have h2 := hq o2 (List.mem_cons_self _ _)
    have hrest : ∀ x ∈ rest, quoteByte ∉ x := fun x hx => hq x (List.mem_cons_of_mem _ hx)
    have hcomma : ¬ commaByte = quoteByte := by decide
    simp only [tailBytes, List.cons_append, List.flatMap_cons]
    rw [splitLoop_ascii _ _ _ _ _ (by decide), if_neg hcomma, if_pos ⟨rfl, rfl⟩, if_pos hne]
    have := splitLoop_quoted o2 (tailBytes rest) (result ++ [current]) h2
    simp only [tailBytes] at this
    rw [this]
    have ih2 := ih (quoted (rangeCopy o2 0)) (result ++ [current]) (quoted_ne_nil _) hrest
    simp only [tailBytes] at ih2
    rw [ih2]
    simp

theorem stripEnds_quoted (o : GoString) : stripEnds (quoted o) = some o := by
  unfold stripEnds quoted
  have hl : ¬ (quoteByte :: (o ++ [quoteByte])).length < 2 := by simp
  rw [if_neg hl]
  simp

theorem stripAll_quoted (origins : List GoString) :
    stripAll (origins.map quoted) = some origins := by
  induction origins with
  | nil => rfl
  | cons o rest ih =>
    simp only [List.map_cons, stripAll, stripEnds_quoted, ih]

theorem originsJSON_cons (o : GoString) (rest : List GoString) :
    originsJSON (o :: rest) = openByte :: (quoted o ++ tailBytes rest ++ [closeByte]) := by
  unfold originsJSON
  rw [if_pos (by simp), appendOrigins_first]
  simp

theorem stripEnds_brackets (inner : GoString) :
    stripEnds (openByte :: (inner ++ [closeByte])) = some inner := by
  unfold stripEnds
  have hl : ¬ (openByte :: (inner ++ [closeByte])).length < 2 := by simp
  rw [if_neg hl]
  simp

theorem splitJSON_saved (o : GoString) (rest : List GoString)
    (hq : ∀ x ∈ o :: rest, quoteByte ∉ x) :
    splitJSON (quoted o ++ tailBytes rest)
      = (o :: rest).map (fun x => quoted (rangeCopy x 0)) := by
  unfold splitJSON
  rw [splitLoop_quoted o _ _ (hq o (List.mem_cons_self _ _)),
    splitLoop_tail rest _ [] (quoted_ne_nil _) (fun x hx => hq x (List.mem_cons_of_mem _ hx))]
  rfl

theorem load_saved (origins : List GoString) (hq : ∀ x ∈ origins, quoteByte ∉ x) :
    LoadAllowedOrigins (some (originsJSON origins))
      = some (origins.map (fun x => rangeCopy x 0)) := by
  cases origins with
  | nil => decide
  | cons o rest =>
    have h1 : ¬ (openByte :: (quoted o ++ tailBytes rest ++ [closeByte]) = []
        ∨ openByte :: (quoted o ++ tailBytes rest ++ [closeByte]) = [openByte, closeByte]) := by
      intro e
      rcases e with e | e
      · cases e
      · have := congrArg List.length e
        simp [quoted] at this
    have h2 : ¬ quoted o ++ tailBytes rest = [] := by
      intro e
      have := congrArg List.length e
      simp [quoted] at this
    rw [originsJSON_cons]
    unfold LoadAllowedOrigins
    simp only [h1, if_false, stripEnds_brackets, h2]
    rw [splitJSON_saved o rest hq]
    have e : (o :: rest).map (fun x => quoted (rangeCopy x 0))
        = ((o :: rest).map (fun x => rangeCopy x 0)).map quoted := by
      rw [List.map_map]; rfl
    rw [e, stripAll_quoted]

theorem load_saved_valid (origins : List GoString)
    (hq : ∀ x ∈ origins, quoteByte ∉ x ∧ validUTF8 x 0 = true) :
    LoadAllowedOrigins (some (originsJSON origins)) = some origins := by
  rw [load_saved origins (fun x hx => (hq x hx).1)]
  congr 1
  conv_rhs => rw [← List.map_id origins]
  apply List.map_congr_left
  intro x hx
  rw [rangeCopy_valid x 0 (Nat.zero_le _) (hq x hx).2, List.drop_zero]
  rfl

/-! ## Tasks and templates -/

theorem firstBy_fold_mem {α : Type} (key : α → Nat) :
    ∀ (rows : List α) (init : Option α) (r : α),
      rows.foldl
        (fun best row =>
          match best with
          | none => some row
          | some b => if key row < key b then some row else some b) init = some r →
        init = some r ∨ r ∈ rows := by
  intro rows
  induction rows with
  | nil => intro init r h; exact Or.inl h
  | cons x rest ih =>
    intro init r h
    rw [List.foldl_cons] at h
    rcases ih _ r h with h1 | h1
    · cases init with
      | none =>
        simp only [Option.some.injEq] at h1
        exact Or.inr (by rw [h1]; exact List.mem_cons_self _ _)
      | some b =>
        dsimp only at h1
        split_ifs at h1
        · simp only [Option.some.injEq] at h1
          exact Or.inr (by rw [h1]; exact List.mem_cons_self _ _)
        · exact Or.inl h1
    · exact Or.inr (List.mem_cons_of_mem _ h1)

theorem firstBy_mem {α : Type} (key : α → Nat) (p : α → Bool) (rows : List α) (r : α)
    (h : firstBy key p rows = some r) : r ∈ rows := by
  rcases firstBy_fold_mem key (rows.filter p) none r h with h1 | h1
  · cases h1
  · exact (List.mem_filter.mp h1).1

theorem insertTask_mem (tasks tasks2 : List NetworkMonitorTask) (task : NetworkMonitorTask)
    (h : insertTask tasks task = some tasks2) :
    ∀ t ∈ tasks2,
      t ∈ tasks ∨ t.Frequency = (if task.Frequency = 0 then 60 else task.Frequency) := by
  unfold insertTask at h
  dsimp only at h
  by_cases h1 : task.ID = 0
  · rw [if_pos h1, Option.some.injEq] at h
    subst h
    intro t ht
    rcases List.mem_append.mp ht with ht | ht
    · exact Or.inl ht
    · rw [List.mem_singleton] at ht; rw [ht]; exact Or.inr rfl
  · rw [if_neg h1] at h
    by_cases h2 : (tasks.any fun t => decide (t.ID = task.ID)) = true
    · rw [if_pos h2] at h; cases h
    · rw [if_neg h2, Option.some.injEq] at h
      subst h
      intro t ht
      rcases List.mem_append.mp ht with ht | ht
      · exact Or.inl ht
      · rw [List.mem_singleton] at ht; rw [ht]; exact Or.inr rfl

theorem insertTask_positive (tasks tasks2 : List NetworkMonitorTask) (task : NetworkMonitorTask)
    (hp : ∀ t ∈ tasks, t.Frequency > 0) (hf : task.Frequency ≥ 0)
    (h : insertTask tasks task = some tasks2) : ∀ t ∈ tasks2, t.Frequency > 0 := by
  intro t ht
  rcases insertTask_mem tasks tasks2 task h t ht with h1 | h1
  · exact hp t h1
  · rw [h1]
    by_cases h0 : task.Frequency = 0
    · rw [if_pos h0]; decide
    · rw [if_neg h0]; omega

theorem insertTemplate_mem (templates templates2 : List NetworkMonitorTemplate)
    (tmpl : NetworkMonitorTemplate) (h : insertTemplate templates tmpl = some templates2) :
    ∀ t ∈ templates2, t ∈ templates ∨ t.Frequency = tmpl.Frequency := by
  unfold insertTemplate at h
  dsimp only at h
  by_cases h1 : tmpl.ID = 0
  · rw [if_pos h1, Option.some.injEq] at h
    subst h
    intro t ht
    rcases List.mem_append.mp ht with ht | ht
    · exact Or.inl ht
    · rw [List.mem_singleton] at ht; rw [ht]; exact Or.inr rfl
  · rw [if_neg h1] at h
    by_cases h2 : (templates.any fun t => decide (t.ID = tmpl.ID)) = true
    · rw [if_pos h2] at h; cases h
    · rw [if_neg h2, Option.some.injEq] at h
      subst h
      intro t ht
      rcases List.mem_append.mp ht with ht | ht
      · exact Or.inl ht
      · rw [List.mem_singleton] at ht; rw [ht]; exact Or.inr rfl

theorem defaulted_task (task : NetworkMonitorTask) :
    (if task.Frequency ≤ 0 then { task with Frequency := 60 } else task).Frequency > 0 := by
  by_cases h0 : task.Frequency ≤ 0
  · rw [if_pos h0]; exact (by decide : (60 : Int) > 0)
  · rw [if_neg h0]; omega

theorem defaulted_template (tmpl : NetworkMonitorTemplate) :
    (if (if tmpl.Frequency ≤ 0 then { tmpl with Frequency := 60 } else tmpl).Color = "" then
        { (if tmpl.Frequency ≤ 0 then { tmpl with Frequency := 60 } else tmpl) with
          Color := "#1890ff" }
      else (if tmpl.Frequency ≤ 0 then { tmpl with Frequency := 60 } else tmpl)).Frequency
      > 0 := by
  have h1 : (if tmpl.Frequency ≤ 0 then { tmpl with Frequency := 60 } else tmpl).Frequency
      > 0 := by
    by_cases h0 : tmpl.Frequency ≤ 0
    · rw [if_pos h0]; exact (by decide : (60 : Int) > 0)
    · rw [if_neg h0]; omega
  by_cases hc : (if tmpl.Frequency ≤ 0 then { tmpl with Frequency := 60 } else tmpl).Color = ""
  · rw [if_pos hc]; exact h1
  · rw [if_neg hc]; exact h1

theorem saveTask_positive (tasks : List NetworkMonitorTask) (task : NetworkMonitorTask)
    (hp : ∀ t ∈ tasks, t.Frequency > 0) (hf : task.Frequency > 0) :
    ∀ t ∈ saveTask tasks task, t.Frequency > 0 := by
  intro t ht
  unfold saveTask at ht
  rcases List.mem_map.mp ht with ⟨u, hu, rfl⟩
  split_ifs
  · exact hf
  · exact hp u hu

theorem applyTemplate_positive (templateID : Nat) (tmpl : NetworkMonitorTemplate)
    (hf : tmpl.Frequency > 0) :
    ∀ (hostIDs : List Nat) (tasks tasks2 : List NetworkMonitorTask),
      (∀ t ∈ tasks, t.Frequency > 0) →
      applyTemplate templateID tmpl hostIDs tasks = some tasks2 →
        ∀ t ∈ tasks2, t.Frequency > 0 := by
  intro hostIDs
  induction hostIDs with
  | nil =>
    intro tasks tasks2 hp h
    simp only [applyTemplate, Option.some.injEq] at h
    subst h; exact hp
  | cons hostID rest ih =>
    intro tasks tasks2 hp h
    unfold applyTemplate at h
    cases hfirst : firstBy (fun t => t.ID)
        (fun t => decide (t.HostID = hostID ∧ t.Type_ = tmpl.Type_
          ∧ t.Target = tmpl.Target ∧ t.Port = tmpl.Port)) tasks with
    | some task =>
      simp only [hfirst] at h
      exact ih _ tasks2 (saveTask_positive tasks _ hp hf) h
    | none =>
      simp only [hfirst] at h
      cases hins : insertTask tasks
          { ID := 0, HostID := hostID, TemplateID := templateID, Type_ := tmpl.Type_,
            Target := tmpl.Target, Port := tmpl.Port, Frequency := tmpl.Frequency,
            Label := tmpl.Label } with
      | none => simp only [hins] at h; cases h
      | some tasks3 =>
        simp only [hins] at h
        exact ih tasks3 tasks2
          (insertTask_positive tasks tasks3 _ hp (le_of_lt hf) hins) h

theorem all_positive_iff (tasks : List NetworkMonitorTask) :
    tasks.all (fun t => decide (t.Frequency > 0)) = true ↔ ∀ t ∈ tasks, t.Frequency > 0 := by
  simp [List.all_eq_true]

theorem all_positive_iff_templates (templates : List NetworkMonitorTemplate) :
    templates.all (fun t => decide (t.Frequency > 0)) = true
      ↔ ∀ t ∈ templates, t.Frequency > 0 := by
  simp [List.all_eq_true]

/-- The handlers other than `UpdateTemplate` keep every stored frequency, of
tasks and of templates, positive. -/
theorem guarded_handlers_keep_frequencies (s : NetworkStore) (r : StoreRequest)
    (hr : ∀ id body, r ≠ .updateTemplate id body)
    (ht : frequenciesPositive s = true) (hm : templatesPositive s = true) :
    frequenciesPositive (s.handle r) = true ∧ templatesPositive (s.handle r) = true := by
  unfold frequenciesPositive at ht ⊢
  unfold templatesPositive at hm ⊢
  rw [all_positive_iff] at ht ⊢
  rw [all_positive_iff_templates] at hm ⊢
  cases r with
  | createTask body =>
    simp only [NetworkStore.handle, CreateTask]
    cases body with
    | none => exact ⟨ht, hm⟩
    | some task =>
      dsimp only
      cases s.hosts task.HostID with
      | none => exact ⟨ht, hm⟩
      | some host =>
        dsimp only
        cases hins : insertTask s.tasks
            (if task.Frequency ≤ 0 then { task with Frequency := 60 } else task) with
        | none => exact ⟨ht, hm⟩
        | some tasks2 =>
          exact ⟨insertTask_positive s.tasks tasks2 _ ht (le_of_lt (defaulted_task task)) hins,
            hm⟩
  | updateTask id body =>
    simp only [NetworkStore.handle, UpdateTask]
    cases hfirst : firstBy (fun t => t.ID) (fun t => decide (t.ID = id)) s.tasks with
    | none => exact ⟨ht, hm⟩
    | some task =>
      dsimp only
      cases body with
      | none => exact ⟨ht, hm⟩
      | some req =>
        have htask := ht task (firstBy_mem _ _ _ _ hfirst)
        refine ⟨saveTask_positive s.tasks _ ht ?_, hm⟩
        by_cases h0 : req.Frequency > 0
        · rw [if_pos h0]; exact h0
        · rw [if_neg h0]; exact htask
  | createTemplate body =>
    simp only [NetworkStore.handle, CreateTemplate]
    cases body with
    | none => exact ⟨ht, hm⟩
    | some tmpl =>
      dsimp only
      cases hins : insertTemplate s.templates
          (if (if tmpl.Frequency ≤ 0 then { tmpl with Frequency := 60 } else tmpl).Color = ""
            then { (if tmpl.Frequency ≤ 0 then { tmpl with Frequency := 60 } else tmpl) with
              Color := "#1890ff" }
            else (if tmpl.Frequency ≤ 0 then { tmpl with Frequency := 60 } else tmpl)) with
      | none => exact ⟨ht, hm⟩
      | some templates2 =>
        refine ⟨ht, fun t htm => ?_⟩
        rcases insertTemplate_mem s.templates templates2 _ hins t htm with h1 | h1
        · exact hm t h1
        · rw [h1]; exact defaulted_template tmpl
  | updateTemplate id body => exact absurd rfl (hr id body)
  | batchApplyTemplate body =>
    simp only [NetworkStore.handle, BatchApplyTemplate]
    cases body with
    | none => exact ⟨ht, hm⟩
    | some req =>
      dsimp only
      cases hfirst : firstBy (fun t => t.ID) (fun t => decide (t.ID = req.TemplateID))
          s.templates with
      | none => exact ⟨ht, hm⟩
      | some tmpl =>
        dsimp only
        cases happ : applyTemplate req.TemplateID tmpl req.HostIDs s.tasks with
        | none => exact ⟨ht, hm⟩
        | some tasks2 =>
          exact ⟨applyTemplate_positive req.TemplateID tmpl
            (hm tmpl (firstBy_mem _ _ _ _ hfirst)) req.HostIDs s.tasks tasks2 ht happ, hm⟩

/-! ## The claims -/

/-- C1 does not hold as stated: a host with all four counters at 0 receives
two accepted pulses with rx 0 and then 5, strictly increasing, with no reset;
the stored raw counter is still 0 when the second pulse arrives, its delta
is 0 and `monthly_rx` ends at 0, not at 5 - 0. -/
theorem C1_counterexample :
    (plainHost 0 0 0 0).NetMonthlyRx = 0 ∧ (plainHost 0 0 0 0).NetLastRawRx = 0 ∧
      (pulseLog (serverOf (plainHost 0 0 0 0))
          [(requestOf 0 0 [], may2 0), (requestOf 5 0 [], may2 2)]).map
          (Option.map (fun e => (e.1, e.2.resetFired, e.2.currentRx)))
        = [some (1, false, 0), some (1, false, 5)] ∧
      ((runPulses (serverOf (plainHost 0 0 0 0))
          [(requestOf 0 0 [], may2 0), (requestOf 5 0 [], may2 2)]).hosts 1).map
          (fun row => row.NetMonthlyRx) = some 0 ∧
      (0 : Nat) ≠ 5 - 0 := by
  decide

/-- C1, amended: a host starts with `monthly_rx = monthly_tx = 0` and
`last_raw_rx = last_raw_tx = 0` and handles N ≥ 1 accepted pulses on none of
which the reset fires and each of which the database takes the write of (the
totals and the raw counters the handler has computed are below `2 ^ 63`).
The first pulse contributes 0.  When the selected rx counters are strictly
increasing and the first one is not 0, the stored `monthly_rx` after the N
pulses is the sum of the deltas of pulses 2..N, which is the last counter
minus the first; the same holds for tx. -/
theorem C1_increasing_counters (s : Server) (k : Nat) (h : SSHHost)
    (reqs : List (PulseRequest × Time)) (first : PulseOutcome) (rest : List PulseOutcome)
    (hrow : s.hosts k = some h)
    (hzero : h.NetMonthlyRx = 0 ∧ h.NetMonthlyTx = 0 ∧ h.NetLastRawRx = 0 ∧ h.NetLastRawTx = 0)
    (hlog : pulseLog s reqs = (first :: rest).map (fun o => some (k, o)))
    (hno : ∀ o ∈ first :: rest, o.resetFired = false)
    (hwr : ∀ o ∈ first :: rest, writable o.host = true) :
    first.deltaRx = 0 ∧ first.deltaTx = 0 ∧
      (∃ row, (runPulses s reqs).hosts k = some row) ∧
      ∀ row, (runPulses s reqs).hosts k = some row →
        (0 < first.currentRx →
          List.Chain' (· < ·) ((first :: rest).map (fun o => o.currentRx)) →
          row.NetMonthlyRx = (rest.map (fun o => o.deltaRx)).sum ∧
          row.NetMonthlyRx =
            ((first :: rest).getLast (List.cons_ne_nil first rest)).currentRx
              - first.currentRx) ∧
        (0 < first.currentTx →
          List.Chain' (· < ·) ((first :: rest).map (fun o => o.currentTx)) →
          row.NetMonthlyTx = (rest.map (fun o => o.deltaTx)).sum ∧
          row.NetMonthlyTx =
            ((first :: rest).getLast (List.cons_ne_nil first rest)).currentTx
              - first.currentTx) := by
  have hex : ((runPulses s reqs).hosts k).isSome = true :=
    runPulses_keeps_rows k reqs s (by rw [hrow]; rfl)
  cases reqs with
  | nil => simp [pulseLog] at hlog
  | cons r tail =>
    obtain ⟨req, now⟩ := r
    obtain ⟨h', d, o, os, hcons, ha, hk, hrow2, ho, htail⟩ := pulseLog_cons_inv hlog
    obtain ⟨rfl, rfl⟩ := List.cons.inj hcons
    rw [hrow] at hrow2
    obtain rfl : h = h' := Option.some.inj hrow2
    have hfire : resetDue now h = false := by
      have := hno first (List.mem_cons_self _ _)
      rw [ho, account_resetFired] at this; exact this
    have hw1 : writable (account d.HostID (enable h) d now).host = true := by
      have := hwr first (List.mem_cons_self _ _)
      rw [ho, ← hk] at this; exact this
    have hnotail : ∀ o' ∈ rest, o'.resetFired = false :=
      fun o' ho' => hno o' (List.mem_cons_of_mem _ ho')
    have hwtail : ∀ o' ∈ rest, writable o'.host = true :=
      fun o' ho' => hwr o' (List.mem_cons_of_mem _ ho')
    have hrow' := Pulse_row now ha hw1
    rw [hk] at hrow'
    have hfit := selectCounters_lt h d (authenticate_ok ha).2.1
    have frx := first_pulse_rx k h d now hzero.1 hzero.2.2.1 hfire
    have ftx := first_pulse_tx k h d now hzero.2.1 hzero.2.2.2 hfire
    have crx : first.currentRx = (selectCounters h d).1 := by rw [ho, account_currentRx]
    have ctx : first.currentTx = (selectCounters h d).2 := by rw [ho, account_currentTx]
    refine ⟨by rw [ho]; exact frx.1, by rw [ho]; exact ftx.1,
      Option.isSome_iff_exists.mp hex, fun row hfin => ⟨fun hpos hchain => ?_, fun hpos hchain => ?_⟩⟩
    · obtain ⟨row', hfin', hlast, hsum⟩ :=
        increasing_run_rx k first.currentRx tail (Pulse s req now).1 (storedAfter k h d now) rest
          hrow' htail hnotail hwtail
          (by rw [storedAfter_lastRawRx, ← crx]; exact hchain)
          (by rw [storedAfter_lastRawRx, ← crx]; exact hpos)
          (by rw [storedAfter_lastRawRx, frx.2, ← crx]; omega)
          (by rw [storedAfter_lastRawRx]; exact hfit.1)
      have hrr : row' = row := Option.some.inj (hfin'.symm.trans hfin)
      rw [hrr, storedAfter_lastRawRx, ← crx] at hlast
      rw [hrr, frx.2] at hsum
      have hmap := getLastD_map (fun o : PulseOutcome => o.currentRx) rest first
      rw [List.getLast_eq_getLastD, ← hmap]
      exact ⟨by omega, by omega⟩
    · obtain ⟨row', hfin', hlast, hsum⟩ :=
        increasing_run_tx k first.currentTx tail (Pulse s req now).1 (storedAfter k h d now) rest
          hrow' htail hnotail hwtail
          (by rw [storedAfter_lastRawTx, ← ctx]; exact hchain)
          (by rw [storedAfter_lastRawTx, ← ctx]; exact hpos)
          (by rw [storedAfter_lastRawTx, ftx.2, ← ctx]; omega)
          (by rw [storedAfter_lastRawTx]; exact hfit.2)
      have hrr : row' = row := Option.some.inj (hfin'.symm.trans hfin)
      rw [hrr, storedAfter_lastRawTx, ← ctx] at hlast
      rw [hrr, ftx.2] at hsum
      have hmap := getLastD_map (fun o : PulseOutcome => o.currentTx) rest first
      rw [List.getLast_eq_getLastD, ← hmap]
      exact ⟨by omega, by omega⟩

/-- C1, amended, on three pulses with rx 100, 150, 400 and tx 10, 20, 50 at
a host that starts from zero: `monthly_rx` ends at 400 - 100 and `monthly_tx`
at 50 - 10. -/
theorem C1_increasing_counters_witness :
    (serverOf (plainHost 0 0 0 0)).hosts 1 = some (plainHost 0 0 0 0) ∧
      pulseLog (serverOf (plainHost 0 0 0 0)) climbRequests
        = (climbFirst :: climbRest).map (fun o => some (1, o)) ∧
      (∀ o ∈ climbFirst :: climbRest, o.resetFired = false) ∧
      (∀ o ∈ climbFirst :: climbRest, writable o.host = true) ∧
      0 < climbFirst.currentRx ∧
      List.Chain' (· < ·) ((climbFirst :: climbRest).map (fun o => o.currentRx)) ∧
      0 < climbFirst.currentTx ∧
      List.Chain' (· < ·) ((climbFirst :: climbRest).map (fun o => o.currentTx)) ∧
      ∃ row, (runPulses (serverOf (plainHost 0 0 0 0)) climbRequests).hosts 1 = some row ∧
        row.NetMonthlyRx = 300 ∧ row.NetMonthlyTx = 40 := by
  have erx : (climbFirst :: climbRest).map (fun o => o.currentRx) = [100, 150, 400] := by
    decide
  have etx : (climbFirst :: climbRest).map (fun o => o.currentTx) = [10, 20, 50] := by
    decide
  have crx : List.Chain' (· < ·) ((climbFirst :: climbRest).map (fun o => o.currentRx)) := by
    rw [erx]; simp
  have ctx : List.Chain' (· < ·) ((climbFirst :: climbRest).map (fun o => o.currentTx)) := by
    rw [etx]; simp
  obtain ⟨_, _, ⟨row, hrow⟩, hall⟩ :=
    C1_increasing_counters (serverOf (plainHost 0 0 0 0)) 1 (plainHost 0 0 0 0) climbRequests
      climbFirst climbRest rfl ⟨rfl, rfl, rfl, rfl⟩ rfl (by decide) (by decide)
  have hrx := ((hall row hrow).1 (by decide) crx).2
  have htx := ((hall row hrow).2 (by decide) ctx).2
  exact ⟨rfl, rfl, by decide, by decide, by decide, crx, by decide, ctx, row, hrow,
    hrx.trans (by decide), htx.trans (by decide)⟩

/-- C2 does not hold as stated: host 1 has `monthly_rx = 500`,
`last_raw_rx = 1000` and `last_raw_tx = 900`, and a pulse reports rx 400, a
reboot, and tx `2 ^ 63`.  The pulse is accepted and the reset does not fire;
the handler computes the delta 400 and the total 900 on its copy of the host,
but `database/sql` refuses the `UPDATE` because of the tx counter and the
handler does not look at the error: the stored `monthly_rx` is still 500,
not 900, and the stored `last_raw_rx` still 1000, not 400. -/
theorem C2_counterexample :
    (Pulse (serverOf (plainHost 500 200 1000 900)) (requestOf 400 highBit []) (may2 5)).2 = 200 ∧
      (pulseLog (serverOf (plainHost 500 200 1000 900))
          [(requestOf 400 highBit [], may2 5)]).map
          (Option.map (fun e =>
            (e.2.resetFired, e.2.currentRx, e.2.deltaRx, e.2.host.NetMonthlyRx, e.2.dbUpdated)))
        = [some (false, 400, 400, 900, true)] ∧
      ((Pulse (serverOf (plainHost 500 200 1000 900)) (requestOf 400 highBit [])
          (may2 5)).1.hosts 1).map (fun row => (row.NetMonthlyRx, row.NetLastRawRx))
        = some (500, 1000) := by
  decide

/-- C2, amended: on an accepted pulse on which the reset-day check does not
fire and whose selected rx counter is below the stored `last_raw_rx`, the
delta is the new raw value itself and the total the handler computes is the
previous one plus exactly that value (the sum does not wrap).  When the
database takes the write (the totals and raw counters computed are below
`2 ^ 63`), the stored `monthly_rx` is that sum and the stored `last_raw_rx`
the new value; when it refuses the write, the stored row is the row before
the pulse.  Likewise for tx.  The row loaded has counters below `2 ^ 63`, as
every row that was written has. -/
theorem C2_reboot_adds_new_raw (s : Server) (req : PulseRequest) (now : Time)
    (h : SSHHost) (d : MetricData) (ha : authenticate s req = .ok (h, d))
    (hs : writable h = true) (hno : resetDue now h = false) :
    ∃ row, (Pulse s req now).1.hosts d.HostID = some row ∧
      (writable (account d.HostID (enable h) d now).host = false → row = enable h) ∧
      ((selectCounters h d).1 < h.NetLastRawRx →
        (account d.HostID (enable h) d now).deltaRx = (selectCounters h d).1 ∧
        (account d.HostID (enable h) d now).host.NetMonthlyRx
          = h.NetMonthlyRx + (selectCounters h d).1 ∧
        (writable (account d.HostID (enable h) d now).host = true →
          row.NetMonthlyRx = h.NetMonthlyRx + (selectCounters h d).1 ∧
          row.NetLastRawRx = (selectCounters h d).1)) ∧
      ((selectCounters h d).2 < h.NetLastRawTx →
        (account d.HostID (enable h) d now).deltaTx = (selectCounters h d).2 ∧
        (account d.HostID (enable h) d now).host.NetMonthlyTx
          = h.NetMonthlyTx + (selectCounters h d).2 ∧
        (writable (account d.HostID (enable h) d now).host = true →
          row.NetMonthlyTx = h.NetMonthlyTx + (selectCounters h d).2 ∧
          row.NetLastRawTx = (selectCounters h d).2)) := by
  obtain ⟨row, hrow, hT, hF⟩ := Pulse_row_cases now ha
  have hm := account_host_monthly d.HostID h d now hs
  simp only [hno, Bool.false_eq_true, if_false] at hm
  have hb := (writable_iff h).mp hs
  refine ⟨row, hrow, hF, fun hlt => ?_, fun hlt => ?_⟩
  · have hd : (account d.HostID (enable h) d now).deltaRx = (selectCounters h d).1 := by
      rw [account_deltaRx]; unfold delta
      rw [if_pos (by omega), if_neg (by omega)]
    have hsum : (account d.HostID (enable h) d now).host.NetMonthlyRx
        = h.NetMonthlyRx + (selectCounters h d).1 := by
      rw [hm.1, hd]; exact addU64_exact (by unfold u64; omega)
    refine ⟨hd, hsum, fun hw => ?_⟩
    rw [hT hw]
    exact ⟨hsum, storedAfter_lastRawRx _ _ _ _⟩
  · have hd : (account d.HostID (enable h) d now).deltaTx = (selectCounters h d).2 := by
      rw [account_deltaTx]; unfold delta
      rw [if_pos (by omega), if_neg (by omega)]
    have hsum : (account d.HostID (enable h) d now).host.NetMonthlyTx
        = h.NetMonthlyTx + (selectCounters h d).2 := by
      rw [hm.2, hd]; exact addU64_exact (by unfold u64; omega)
    refine ⟨hd, hsum, fun hw => ?_⟩
    rw [hT hw]
    exact ⟨hsum, storedAfter_lastRawTx _ _ _ _⟩

/-- C2, amended, on the scenario of the specification: a host with
`last_raw_rx = 1000` and `monthly_rx = 500` receives rx 1500, which leaves
`monthly_rx = 1000` and `last_raw_rx = 1500`; the next pulse, rx 400 (and tx
100 after 950), is a reboot and leaves `monthly_rx = 1400`,
`last_raw_rx = 400`. -/
theorem C2_reboot_adds_new_raw_witness :
    ((Pulse (serverOf (plainHost 500 200 1000 900)) (requestOf 1500 950 []) (may2 0)).1.hosts 1
        = some (plainHost 1000 250 1500 950)) ∧
      authenticate
          (Pulse (serverOf (plainHost 500 200 1000 900)) (requestOf 1500 950 []) (may2 0)).1
          (requestOf 400 100 []) = .ok (plainHost 1000 250 1500 950, pulseOf 400 100 []) ∧
      writable (plainHost 1000 250 1500 950) = true ∧
      resetDue (may2 2) (plainHost 1000 250 1500 950) = false ∧
      writable (account 1 (enable (plainHost 1000 250 1500 950)) (pulseOf 400 100 [])
        (may2 2)).host = true ∧
      ∃ row,
        (Pulse (Pulse (serverOf (plainHost 500 200 1000 900)) (requestOf 1500 950 [])
          (may2 0)).1 (requestOf 400 100 []) (may2 2)).1.hosts 1 = some row ∧
        row.NetMonthlyRx = 1400 ∧ row.NetLastRawRx = 400 ∧
        row.NetMonthlyTx = 350 ∧ row.NetLastRawTx = 100 := by
  obtain ⟨row, hrow, _, hrx, htx⟩ :=
    C2_reboot_adds_new_raw
      (Pulse (serverOf (plainHost 500 200 1000 900)) (requestOf 1500 950 []) (may2 0)).1
      (requestOf 400 100 []) (may2 2) (plainHost 1000 250 1500 950) (pulseOf 400 100 [])
      rfl (by decide) (by decide)
  have a := (hrx (by decide)).2.2 (by decide)
  have b := (htx (by decide)).2.2 (by decide)
  exact ⟨by decide, rfl, by decide, by decide, by decide, row, hrow,
    a.1.trans (by decide), a.2.trans (by decide), b.1.trans (by decide), b.2.trans (by decide)⟩

/-- C3: on an accepted pulse the delta of each direction is 0 when the stored
last raw counter is 0, `current - last_raw` when `last_raw > 0` and
`current ≥ last_raw`, and `current` when `last_raw > 0` and
`current < last_raw`, with `current` the counter selected for the pulse.  The
deltas are added to the monthly totals of the handler's copy of the host, as
the reset-day check has left them: by the `uint64` addition of Go, which is
the exact sum whenever that fits in 64 bits.  These totals are the ones the
handler goes on to write and to send to the hub; the stored row has them (as
exact sums) when the database takes the write, and is the row before the
pulse when it refuses it.  The row loaded has counters below `2 ^ 63`, as
every row that was written has. -/
theorem C3_delta_rule (s : Server) (req : PulseRequest) (now : Time)
    (h : SSHHost) (d : MetricData) (ha : authenticate s req = .ok (h, d))
    (hs : writable h = true) :
    (account d.HostID (enable h) d now).deltaRx =
        (if h.NetLastRawRx = 0 then 0
         else if (selectCounters h d).1 ≥ h.NetLastRawRx then
           (selectCounters h d).1 - h.NetLastRawRx
         else (selectCounters h d).1) ∧
      (account d.HostID (enable h) d now).deltaTx =
        (if h.NetLastRawTx = 0 then 0
         else if (selectCounters h d).2 ≥ h.NetLastRawTx then
           (selectCounters h d).2 - h.NetLastRawTx
         else (selectCounters h d).2) ∧
      (account d.HostID (enable h) d now).host.NetMonthlyRx =
        ((if resetDue now h then 0 else h.NetMonthlyRx)
          + (account d.HostID (enable h) d now).deltaRx) % 2 ^ 64 ∧
      (account d.HostID (enable h) d now).host.NetMonthlyTx =
        ((if resetDue now h then 0 else h.NetMonthlyTx)
          + (account d.HostID (enable h) d now).deltaTx) % 2 ^ 64 ∧
      (∃ sent, (Pulse s req now).1.hub = s.hub ++ [HubEvent.update sent] ∧
        sent.NetMonthlyRx = (account d.HostID (enable h) d now).host.NetMonthlyRx ∧
        sent.NetMonthlyTx = (account d.HostID (enable h) d now).host.NetMonthlyTx) ∧
      ∃ row, (Pulse s req now).1.hosts d.HostID = some row ∧
        (writable (account d.HostID (enable h) d now).host = true →
          row.NetMonthlyRx =
            (if resetDue now h then 0 else h.NetMonthlyRx)
              + (account d.HostID (enable h) d now).deltaRx ∧
          row.NetMonthlyTx =
            (if resetDue now h then 0 else h.NetMonthlyTx)
              + (account d.HostID (enable h) d now).deltaTx) ∧
        (writable (account d.HostID (enable h) d now).host = false → row = enable h) := by
  obtain ⟨row, hrow, hT, hF⟩ := Pulse_row_cases now ha
  have hm := account_host_monthly d.HostID h d now hs
  refine ⟨?_, ?_, hm.1, hm.2, ⟨_, Pulse_hub now ha, rfl, rfl⟩, row, hrow, fun hw => ?_, hF⟩
  · rw [account_deltaRx]; unfold delta
    by_cases h0 : h.NetLastRawRx = 0
    · simp [h0]
    · simp [h0, Nat.pos_of_ne_zero h0]
  · rw [account_deltaTx]; unfold delta
    by_cases h0 : h.NetLastRawTx = 0
    · simp [h0]
    · simp [h0, Nat.pos_of_ne_zero h0]
  · rw [hT hw]
    exact account_host_exact d.HostID h d now hs hw

/-- C3 at a pulse with rx 1500 after 1000 and tx 100 after 900: the deltas
are 500 and 100 (a reboot), the totals 500 + 500 and 200 + 100. -/
theorem C3_delta_rule_witness :
    authenticate (serverOf (plainHost 500 200 1000 900)) (requestOf 1500 100 []) =
        .ok (plainHost 500 200 1000 900, pulseOf 1500 100 []) ∧
      writable (plainHost 500 200 1000 900) = true ∧
      (account 1 (enable (plainHost 500 200 1000 900)) (pulseOf 1500 100 []) (may2 5)).deltaRx
        = 500 ∧
      (account 1 (enable (plainHost 500 200 1000 900)) (pulseOf 1500 100 []) (may2 5)).deltaTx
        = 100 ∧
      (account 1 (enable (plainHost 500 200 1000 900)) (pulseOf 1500 100 [])
        (may2 5)).host.NetMonthlyRx = 1000 ∧
      ∃ row, (Pulse (serverOf (plainHost 500 200 1000 900)) (requestOf 1500 100 [])
          (may2 5)).1.hosts 1 = some row ∧ row.NetMonthlyRx = 1000 ∧ row.NetMonthlyTx = 300 := by
  obtain ⟨hrx, htx, mrx, _, _, row, hrow, hT, _⟩ :=
    C3_delta_rule (serverOf (plainHost 500 200 1000 900)) (requestOf 1500 100 []) (may2 5)
      (plainHost 500 200 1000 900) (pulseOf 1500 100 []) rfl (by decide)
  have a := hT (by decide)
  exact ⟨rfl, by decide, hrx, htx, mrx.trans (by decide), row, hrow, a.1.trans (by decide),
    a.2.trans (by decide)⟩

/-- C4, the code at the failing input.  Host 1 has the stored raw counters
1000 and 7, and a pulse reports rx `2 ^ 63` and tx 7.  The pulse is accepted
(200) and the selected counters are `2 ^ 63` and 7; the handler sets the raw
counters of its copy of the host to them and issues the `UPDATE`, which
`database/sql` refuses because the rx counter has its high bit set.  The
handler does not look at the error, and the stored `last_raw_rx` is still
1000.  Whenever the `UPDATE` is carried out or the handler has nothing to
write, the stored raw counters are the selected ones; whenever it is
refused, the stored row is the row before the pulse. -/
theorem C4_refused_write_keeps_old_raw_counters :
    (Pulse (serverOf (plainHost 500 0 1000 7)) (requestOf highBit 7 []) (may2 5)).2 = 200 ∧
      (pulseLog (serverOf (plainHost 500 0 1000 7)) [(requestOf highBit 7 [], may2 5)]).map
          (Option.map (fun e =>
            (e.2.currentRx, e.2.currentTx, e.2.host.NetLastRawRx, e.2.dbUpdated,
              writable e.2.host)))
        = [some (9223372036854775808, 7, 9223372036854775808, true, false)] ∧
      ((Pulse (serverOf (plainHost 500 0 1000 7)) (requestOf highBit 7 [])
          (may2 5)).1.hosts 1).map (fun row => (row.NetLastRawRx, row.NetLastRawTx))
        = some (1000, 7) ∧
      (∀ (s : Server) (req : PulseRequest) (now : Time) (h : SSHHost) (d : MetricData),
        authenticate s req = .ok (h, d) →
        ∃ row, (Pulse s req now).1.hosts d.HostID = some row ∧
          (writable (account d.HostID (enable h) d now).host = true →
            row.NetLastRawRx = (selectCounters h d).1 ∧
            row.NetLastRawTx = (selectCounters h d).2) ∧
          (writable (account d.HostID (enable h) d now).host = false → row = enable h)) := by
  refine ⟨by decide, by decide, by decide, fun s req now h d ha => ?_⟩
  obtain ⟨row, hrow, hT, hF⟩ := Pulse_row_cases now ha
  refine ⟨row, hrow, fun hw => ?_, hF⟩
  rw [hT hw]
  exact ⟨storedAfter_lastRawRx _ _ _ _, storedAfter_lastRawTx _ _ _ _⟩

/-- C5 does not hold as stated: on the second of May host 1, whose reset day
is 2 and whose last reset is of the second of April, receives two pulses, rx
`2 ^ 63` five seconds into the day and rx 1020 nine seconds into the day.
Both are accepted.  On the first the reset fires, but `database/sql` refuses
the `UPDATE` of the row because of the raw counter `2 ^ 63`, and the handler
does not look at the error: the stored `last_reset_date` is still the second
of April, and the reset fires again on the second pulse of the same day. -/
theorem C5_counterexample :
    (pulseLog (serverOf (meteredHost 10 1000 false 2))
        [(requestOf highBit 0 [], may2 5), (requestOf 1020 0 [], may2 9)]).map
        (Option.map (fun e => (e.1, e.2.resetFired)))
      = [some (1, true), some (1, true)] ∧
      (Pulse (serverOf (meteredHost 10 1000 false 2)) (requestOf highBit 0 []) (may2 5)).2
        = 200 ∧
      ((Pulse (serverOf (meteredHost 10 1000 false 2)) (requestOf highBit 0 [])
          (may2 5)).1.hosts 1).map (fun row => row.NetLastResetDate) = some "2024-04-02" := by
  decide

/-- C5, amended: of two accepted pulses of one host handled one after the
other on the same calendar day, the first of which the database takes the
write of, the reset-day check fires on at most one; when it fired on the
first, it does not fire on the second, and the totals stored after the
second are those stored after the first plus exactly the second pulse's
deltas when the database takes the write of the second, and those stored
after the first when it refuses it. -/
theorem C5_one_reset_per_day (s : Server) (req1 req2 : PulseRequest) (now1 now2 : Time)
    (h1 h2 : SSHHost) (d1 d2 : MetricData)
    (ha1 : authenticate s req1 = .ok (h1, d1))
    (ha2 : authenticate (Pulse s req1 now1).1 req2 = .ok (h2, d2))
    (hhost : d2.HostID = d1.HostID)
    (hday : now2.year = now1.year ∧ now2.month = now1.month ∧ now2.day = now1.day)
    (hw1 : writable (account d1.HostID (enable h1) d1 now1).host = true) :
    ¬((account d1.HostID (enable h1) d1 now1).resetFired = true ∧
        (account d2.HostID (enable h2) d2 now2).resetFired = true) ∧
      ((account d1.HostID (enable h1) d1 now1).resetFired = true →
        (account d2.HostID (enable h2) d2 now2).resetFired = false ∧
        ∃ row1 row2, (Pulse s req1 now1).1.hosts d1.HostID = some row1 ∧
          (Pulse (Pulse s req1 now1).1 req2 now2).1.hosts d1.HostID = some row2 ∧
          (writable (account d2.HostID (enable h2) d2 now2).host = true →
            row2.NetMonthlyRx =
              row1.NetMonthlyRx + (account d2.HostID (enable h2) d2 now2).deltaRx ∧
            row2.NetMonthlyTx =
              row1.NetMonthlyTx + (account d2.HostID (enable h2) d2 now2).deltaTx) ∧
          (writable (account d2.HostID (enable h2) d2 now2).host = false →
            row2.NetMonthlyRx = row1.NetMonthlyRx ∧ row2.NetMonthlyTx = row1.NetMonthlyTx)) := by
  have hrow1 := Pulse_row now1 ha1 hw1
  obtain ⟨row2, hrow2, hT, hF⟩ := Pulse_row_cases now2 ha2
  have hload := (authenticate_ok ha2).1
  rw [hhost, hrow1] at hload
  have hh2 : h2 = storedAfter d1.HostID h1 d1 now1 := (Option.some.inj hload).symm
  have hs2 : writable h2 = true := by rw [hh2, writable_storedAfter]; exact hw1
  rw [hhost] at hrow2
  have key : (account d1.HostID (enable h1) d1 now1).resetFired = true →
      resetDue now2 h2 = false := by
    intro hfire
    rw [account_resetFired] at hfire
    have hdate : h2.NetLastResetDate = now2.FormatDate := by
      rw [hh2, storedAfter_resetDate, if_pos hfire, (FormatDate_same_day hday).1]
    simp [resetDue, hdate]
  refine ⟨fun hboth => ?_, fun hfire => ?_⟩
  · have h2f := hboth.2
    rw [account_resetFired, key hboth.1] at h2f
    cases h2f
  · have hno := key hfire
    refine ⟨by rw [account_resetFired]; exact hno, h2, row2, by rw [hh2]; exact hrow1, hrow2,
      fun hw => ?_, fun hw => ?_⟩
    · have hx := account_host_exact d2.HostID h2 d2 now2 hs2 hw
      simp only [hno, Bool.false_eq_true, if_false] at hx
      rw [hT hw]
      exact hx
    · rw [hF hw]
      exact ⟨(enable_fields h2).2.2.2.2.2.1, (enable_fields h2).2.2.2.2.2.2.1⟩

/-- C5, amended, on the second of May at a host whose reset day is 2: the
first pulse (rx 1020 after 1000) resets and leaves 20, the second (rx 1050)
does not reset and leaves 50. -/
theorem C5_one_reset_per_day_witness :
    authenticate (serverOf (meteredHost 10 1000 false 2)) (requestOf 1020 0 []) =
        .ok (meteredHost 10 1000 false 2, pulseOf 1020 0 []) ∧
      authenticate
          (Pulse (serverOf (meteredHost 10 1000 false 2)) (requestOf 1020 0 []) (may2 5)).1
          (requestOf 1050 0 []) =
        .ok (resetHost 20 1020, pulseOf 1050 0 []) ∧
      writable (account 1 (enable (meteredHost 10 1000 false 2)) (pulseOf 1020 0 [])
        (may2 5)).host = true ∧
      (account 1 (enable (meteredHost 10 1000 false 2)) (pulseOf 1020 0 []) (may2 5)).resetFired
        = true ∧
      (account 1 (enable (resetHost 20 1020))
        (pulseOf 1050 0 []) (may2 9)).resetFired = false ∧
      ∃ row1 row2,
        (Pulse (serverOf (meteredHost 10 1000 false 2)) (requestOf 1020 0 [])
          (may2 5)).1.hosts 1 = some row1 ∧
        (Pulse (Pulse (serverOf (meteredHost 10 1000 false 2)) (requestOf 1020 0 [])
          (may2 5)).1 (requestOf 1050 0 []) (may2 9)).1.hosts 1 = some row2 ∧
        row1.NetMonthlyRx = 20 ∧ row2.NetMonthlyRx = 50 := by
  obtain ⟨_, hsecond⟩ :=
    C5_one_reset_per_day (serverOf (meteredHost 10 1000 false 2)) (requestOf 1020 0 [])
      (requestOf 1050 0 []) (may2 5) (may2 9) (meteredHost 10 1000 false 2)
      (resetHost 20 1020)
      (pulseOf 1020 0 []) (pulseOf 1050 0 []) rfl rfl rfl ⟨rfl, rfl, rfl⟩ (by decide)
  obtain ⟨hno, row1, row2, hrow1, hrow2, hT, _⟩ := hsecond (by decide)
  have h1 : row1.NetMonthlyRx = 20 := by
    have e : some row1 = some (resetHost 20 1020) := hrow1.symm.trans (by decide)
    rw [Option.some.inj e]; rfl
  refine ⟨rfl, rfl, by decide, by decide, hno, row1, row2, hrow1, hrow2, h1, ?_⟩
  have h2 := (hT (by decide)).1
  rw [h2, h1]; decide

/-- C6 does not hold as stated: on the second of May host 1, whose reset day
is 2, whose last reset is of the second of April and whose `monthly_rx` is
10, receives a pulse with rx `2 ^ 63`.  The pulse is accepted and the reset
fires, but `database/sql` refuses the `UPDATE` because of the raw counter and
the handler does not look at the error: in the state the pulse leaves,
`last_reset_date` is still the second of April and `monthly_rx` is still 10,
not this pulse's delta. -/
theorem C6_counterexample :
    (Pulse (serverOf (meteredHost 10 1000 false 2)) (requestOf highBit 0 []) (may2 5)).2 = 200 ∧
      (pulseLog (serverOf (meteredHost 10 1000 false 2))
          [(requestOf highBit 0 [], may2 5)]).map
          (Option.map (fun e => (e.2.resetFired, e.2.deltaRx)))
        = [some (true, 9223372036854774808)] ∧
      (may2 5).FormatDate = "2024-05-02" ∧
      ((Pulse (serverOf (meteredHost 10 1000 false 2)) (requestOf highBit 0 [])
          (may2 5)).1.hosts 1).map (fun row => (row.NetLastResetDate, row.NetMonthlyRx))
        = some ("2024-04-02", 10) := by
  decide

/-- C6, amended: on an accepted pulse the reset fires exactly when the day of
the month is the host's reset day and the stored `last_reset_date` is not
today's date.  When the database takes the write of the pulse (the totals
and raw counters computed are below `2 ^ 63`), a reset that fires leaves
`last_reset_date` as today and the monthly totals as this pulse's deltas
alone, and a reset that does not fire leaves `last_reset_date` unchanged and
each monthly total as the previous one plus exactly this pulse's delta; when
the database refuses the write, the stored row is the row before the pulse.
The row loaded has counters below `2 ^ 63`, as every row that was written
has. -/
theorem C6_reset_rule (s : Server) (req : PulseRequest) (now : Time)
    (h : SSHHost) (d : MetricData) (ha : authenticate s req = .ok (h, d))
    (hs : writable h = true) :
    ((account d.HostID (enable h) d now).resetFired = true ↔
        (now.Day = h.NetResetDay ∧ h.NetLastResetDate ≠ now.FormatDate)) ∧
      ∃ row, (Pulse s req now).1.hosts d.HostID = some row ∧
        (writable (account d.HostID (enable h) d now).host = false → row = enable h) ∧
        (writable (account d.HostID (enable h) d now).host = true →
          ((account d.HostID (enable h) d now).resetFired = true →
            row.NetLastResetDate = now.FormatDate ∧
            row.NetMonthlyRx = (account d.HostID (enable h) d now).deltaRx ∧
            row.NetMonthlyTx = (account d.HostID (enable h) d now).deltaTx) ∧
          ((account d.HostID (enable h) d now).resetFired = false →
            row.NetLastResetDate = h.NetLastResetDate ∧
            row.NetMonthlyRx = h.NetMonthlyRx + (account d.HostID (enable h) d now).deltaRx ∧
            row.NetMonthlyTx
              = h.NetMonthlyTx + (account d.HostID (enable h) d now).deltaTx)) := by
  obtain ⟨row, hrow, hT, hF⟩ := Pulse_row_cases now ha
  have hdate := storedAfter_resetDate d.HostID h d now
  rw [account_resetFired]
  refine ⟨resetDue_iff now h, row, hrow, hF, fun hw => ?_⟩
  have hx := account_host_exact d.HostID h d now hs hw
  rw [hT hw]
  refine ⟨fun hfire => ?_, fun hfire => ?_⟩
  · simp only [hfire, if_true, Nat.zero_add] at hx hdate
    exact ⟨hdate, hx.1, hx.2⟩
  · simp only [hfire, Bool.false_eq_true, if_false] at hx hdate
    exact ⟨hdate, hx.1, hx.2⟩

/-- C6, amended, on the second of May at a host whose reset day is 2 (the
reset fires: the totals 10 and 0 are dropped and the delta 95 is all that is
left) and at a host whose reset day is 1 (it does not fire: 500 + 500 and
200 + 100). -/
theorem C6_reset_rule_witness :
    (authenticate (serverOf (meteredHost 10 1000 false 2)) (requestOf 1095 0 []) =
        .ok (meteredHost 10 1000 false 2, pulseOf 1095 0 []) ∧
      writable (meteredHost 10 1000 false 2) = true ∧
      (account 1 (enable (meteredHost 10 1000 false 2)) (pulseOf 1095 0 []) (may2 5)).resetFired
        = true ∧
      ∃ row, (Pulse (serverOf (meteredHost 10 1000 false 2)) (requestOf 1095 0 [])
          (may2 5)).1.hosts 1 = some row ∧
        row.NetLastResetDate = "2024-05-02" ∧ row.NetMonthlyRx = 95 ∧ row.NetMonthlyTx = 0) ∧
    (authenticate (serverOf (plainHost 500 200 1000 900)) (requestOf 1500 1000 []) =
        .ok (plainHost 500 200 1000 900, pulseOf 1500 1000 []) ∧
      writable (plainHost 500 200 1000 900) = true ∧
      (account 1 (enable (plainHost 500 200 1000 900)) (pulseOf 1500 1000 []) (may2 5)).resetFired
        = false ∧
      ∃ row, (Pulse (serverOf (plainHost 500 200 1000 900)) (requestOf 1500 1000 [])
          (may2 5)).1.hosts 1 = some row ∧
        row.NetLastResetDate = "2024-05-01" ∧ row.NetMonthlyRx = 1000 ∧
        row.NetMonthlyTx = 300) := by
  obtain ⟨_, row1, hrow1, _, hT1⟩ :=
    C6_reset_rule (serverOf (meteredHost 10 1000 false 2)) (requestOf 1095 0 []) (may2 5)
      (meteredHost 10 1000 false 2) (pulseOf 1095 0 []) rfl (by decide)
  obtain ⟨_, row2, hrow2, _, hT2⟩ :=
    C6_reset_rule (serverOf (plainHost 500 200 1000 900)) (requestOf 1500 1000 []) (may2 5)
      (plainHost 500 200 1000 900) (pulseOf 1500 1000 []) rfl (by decide)
  have a := (hT1 (by decide)).1 (by decide)
  have b := (hT2 (by decide)).2 (by decide)
  exact ⟨⟨rfl, by decide, by decide, row1, hrow1, a.1.trans (by decide), a.2.1.trans (by decide),
      a.2.2.trans (by decide)⟩,
    ⟨rfl, by decide, by decide, row2, hrow2, b.1, b.2.1.trans (by decide),
      b.2.2.trans (by decide)⟩⟩

/-- C7 does not hold as stated: on the second of May a host whose reset day
is 2 and whose alert flag is set receives rx 1095 after 1000; the reset
fires, the delta 95 of this same pulse is 95 per cent of the limit 100, a
warning is sent and the flag is true in the state the pulse leaves. -/
theorem C7_counterexample :
    (account 1 (enable (meteredHost 10 1000 true 2)) (pulseOf 1095 0 []) (may2 5)).resetFired
        = true ∧
      ((Pulse (serverOf (meteredHost 10 1000 true 2)) (requestOf 1095 0 []) (may2 5)).1.hosts
        1).map (fun row => row.TrafficAlerted) = some true ∧
      (Pulse (serverOf (meteredHost 10 1000 true 2)) (requestOf 1095 0 []) (may2 5)).2 = 200 := by
  decide

/-- C7, amended: on an accepted pulse on which the reset fires the alert flag
is cleared before the threshold check, so when the database takes the write
of the pulse the flag is true in the state the pulse leaves exactly when
this same pulse sends a traffic warning; when the database refuses the write
(a total or raw counter of `2 ^ 63` or more) the stored flag is the one
before the pulse, whatever the handler has sent.  On an accepted pulse on
which the reset does not fire the stored flag never goes from true to
false. -/
theorem C7_alert_flag_and_reset (s : Server) (req : PulseRequest) (now : Time)
    (h : SSHHost) (d : MetricData) (ha : authenticate s req = .ok (h, d)) :
    ∃ row, (Pulse s req now).1.hosts d.HostID = some row ∧
      ((account d.HostID (enable h) d now).resetFired = true →
        writable (account d.HostID (enable h) d now).host = true →
        (row.TrafficAlerted = true ↔ sendsTrafficWarning s req now = true)) ∧
      (writable (account d.HostID (enable h) d now).host = false →
        row.TrafficAlerted = h.TrafficAlerted) ∧
      ((account d.HostID (enable h) d now).resetFired = false →
        h.TrafficAlerted = true → row.TrafficAlerted = true) := by
  obtain ⟨row, hrow, hT, hF⟩ := Pulse_row_cases now ha
  have hen : (enable h).TrafficAlerted = h.TrafficAlerted :=
    (enable_fields h).2.2.2.2.2.2.2.2.2.2.2.2.2.2.2.1
  refine ⟨row, hrow, ?_, fun hw => by rw [hF hw]; exact hen, ?_⟩
  · intro hfire hw
    rw [account_resetFired] at hfire
    rw [hT hw, storedAfter_alerted, sendsTrafficWarning_eq now ha, hfire]
    simp
  · intro hfire hal
    rw [account_resetFired] at hfire
    by_cases hw : writable (account d.HostID (enable h) d now).host = true
    · rw [hT hw, storedAfter_alerted, hfire, hal]
      simp
    · have hw2 : writable (account d.HostID (enable h) d now).host = false := by simpa using hw
      rw [hF hw2, hen]; exact hal

/-- C7, amended, on the second of May: at a host whose reset day is 2 and
whose flag is set, a pulse with delta 20 resets and sends nothing, the flag
is false afterwards; at a host whose reset day is 1 the set flag stays. -/
theorem C7_alert_flag_and_reset_witness :
    (authenticate (serverOf (meteredHost 10 1000 true 2)) (requestOf 1020 0 []) =
        .ok (meteredHost 10 1000 true 2, pulseOf 1020 0 []) ∧
      (account 1 (enable (meteredHost 10 1000 true 2)) (pulseOf 1020 0 []) (may2 5)).resetFired
        = true ∧
      writable (account 1 (enable (meteredHost 10 1000 true 2)) (pulseOf 1020 0 [])
        (may2 5)).host = true ∧
      sendsTrafficWarning (serverOf (meteredHost 10 1000 true 2)) (requestOf 1020 0 []) (may2 5)
        = false ∧
      ∃ row, (Pulse (serverOf (meteredHost 10 1000 true 2)) (requestOf 1020 0 [])
          (may2 5)).1.hosts 1 = some row ∧ ¬row.TrafficAlerted = true) ∧
    (authenticate (serverOf (meteredHost 10 1000 true 1)) (requestOf 1020 0 []) =
        .ok (meteredHost 10 1000 true 1, pulseOf 1020 0 []) ∧
      (account 1 (enable (meteredHost 10 1000 true 1)) (pulseOf 1020 0 []) (may2 5)).resetFired
        = false ∧
      (meteredHost 10 1000 true 1).TrafficAlerted = true ∧
      ∃ row, (Pulse (serverOf (meteredHost 10 1000 true 1)) (requestOf 1020 0 [])
          (may2 5)).1.hosts 1 = some row ∧ row.TrafficAlerted = true) := by
  obtain ⟨row1, hrow1, hfire1, _, _⟩ :=
    C7_alert_flag_and_reset (serverOf (meteredHost 10 1000 true 2)) (requestOf 1020 0 [])
      (may2 5) (meteredHost 10 1000 true 2) (pulseOf 1020 0 []) rfl
  obtain ⟨row2, hrow2, _, _, hkeep2⟩ :=
    C7_alert_flag_and_reset (serverOf (meteredHost 10 1000 true 1)) (requestOf 1020 0 [])
      (may2 5) (meteredHost 10 1000 true 1) (pulseOf 1020 0 []) rfl
  have hsend : sendsTrafficWarning (serverOf (meteredHost 10 1000 true 2))
      (requestOf 1020 0 []) (may2 5) = false := by decide
  refine ⟨⟨rfl, by decide, by decide, hsend, row1, hrow1, fun hal => ?_⟩,
    ⟨rfl, by decide, rfl, row2, hrow2, hkeep2 (by decide) rfl⟩⟩
  have := (hfire1 (by decide) (by decide)).1 hal
  rw [hsend] at this
  cases this

/-- C8 does not hold as stated: host 1 has the limit 100, the threshold 90,
the total 89 and the raw counters 1000 and 0, and receives two pulses on a
day that is not its reset day, rx 1002 and then rx 1003, both with tx
`2 ^ 63`.  Both are accepted and no reset fires.  The first takes the usage
to 91 and sends a warning, but `database/sql` refuses the `UPDATE` because of
the tx counter and the handler does not look at the error, so neither the
alert flag nor the total is stored; the second pulse starts from the same
row, takes the usage to 92 and sends a second warning. -/
theorem C8_counterexample :
    (pulseLog (serverOf (meteredHost 89 1000 false 1))
        [(requestOf 1002 highBit [], may2 0), (requestOf 1003 highBit [], may2 7)]).map
        (Option.map (fun e => (e.1, e.2.resetFired, e.2.warned)))
      = [some (1, false, true), some (1, false, true)] ∧
      (trafficWarnings 1 (runPulses (serverOf (meteredHost 89 1000 false 1))
        [(requestOf 1002 highBit [], may2 0),
          (requestOf 1003 highBit [], may2 7)]).notifications).length = 2 ∧
      ((Pulse (serverOf (meteredHost 89 1000 false 1)) (requestOf 1002 highBit [])
          (may2 0)).1.hosts 1).map (fun row => (row.TrafficAlerted, row.NetMonthlyRx))
        = some (false, 89) := by
  decide

/-- C8, amended: over a sequence of accepted pulses of one host on none of
which the reset fires and each of which the database takes the write of (the
totals and raw counters the handler has computed are below `2 ^ 63`), at
most one traffic warning is sent for that host; when the alert flag is
already set at the start, none is sent. -/
theorem C8_one_warning_per_period (s : Server) (k : Nat)
    (reqs : List (PulseRequest × Time)) (outs : List PulseOutcome)
    (hlog : pulseLog s reqs = outs.map (fun o => some (k, o)))
    (hno : ∀ o ∈ outs, o.resetFired = false)
    (hwr : ∀ o ∈ outs, writable o.host = true) :
    (trafficWarnings k (runPulses s reqs).notifications).length
        ≤ (trafficWarnings k s.notifications).length + 1 ∧
      (∀ row, s.hosts k = some row → row.TrafficAlerted = true →
        (trafficWarnings k (runPulses s reqs).notifications).length
          = (trafficWarnings k s.notifications).length) :=
  one_warning_run k reqs s outs hlog hno hwr

/-- C8, amended, on the scenario of the specification: limit 100, threshold
90, a pulse takes the usage from 89 to 91 and sends the one warning, the next
pulse (92) sends none. -/
theorem C8_one_warning_per_period_witness :
    pulseLog (serverOf (meteredHost 89 1000 false 1))
        [(requestOf 1002 0 [], may2 0), (requestOf 1003 0 [], may2 7)] =
      [account 1 (enable (meteredHost 89 1000 false 1)) (pulseOf 1002 0 []) (may2 0),
        account 1 (enable (meteredHost 91 1002 true 1)) (pulseOf 1003 0 []) (may2 7)].map
        (fun o => some (1, o)) ∧
      (∀ o ∈ [account 1 (enable (meteredHost 89 1000 false 1)) (pulseOf 1002 0 []) (may2 0),
        account 1 (enable (meteredHost 91 1002 true 1)) (pulseOf 1003 0 []) (may2 7)],
        o.resetFired = false) ∧
      (∀ o ∈ [account 1 (enable (meteredHost 89 1000 false 1)) (pulseOf 1002 0 []) (may2 0),
        account 1 (enable (meteredHost 91 1002 true 1)) (pulseOf 1003 0 []) (may2 7)],
        writable o.host = true) ∧
      (trafficWarnings 1 (runPulses (serverOf (meteredHost 89 1000 false 1))
        [(requestOf 1002 0 [], may2 0)]).notifications).length = 1 ∧
      (trafficWarnings 1 (runPulses (serverOf (meteredHost 89 1000 false 1))
        [(requestOf 1002 0 [], may2 0), (requestOf 1003 0 [], may2 7)]).notifications).length
        = 1 ∧
      (trafficWarnings 1 (runPulses (serverOf (meteredHost 89 1000 false 1))
        [(requestOf 1002 0 [], may2 0), (requestOf 1003 0 [], may2 7)]).notifications).length
        ≤ (trafficWarnings 1 (serverOf (meteredHost 89 1000 false 1)).notifications).length
          + 1 :=
  ⟨rfl, by decide, by decide, by decide, by decide,
    (C8_one_warning_per_period (serverOf (meteredHost 89 1000 false 1)) 1
      [(requestOf 1002 0 [], may2 0), (requestOf 1003 0 [], may2 7)]
      [account 1 (enable (meteredHost 89 1000 false 1)) (pulseOf 1002 0 []) (may2 0),
        account 1 (enable (meteredHost 91 1002 true 1)) (pulseOf 1003 0 []) (may2 7)]
      rfl (by decide) (by decide)).1⟩

/-- C9 does not hold as stated: a host with limit 100, notifications enabled,
the flag not set and monthly totals 95 + 0 (95 per cent, above the threshold
90) receives a pulse whose counters equal the stored raw counters; both
deltas are 0, no warning is sent and the flag stays false. -/
theorem C9_counterexample :
    (Pulse (serverOf (meteredHost 95 1000 false 1)) (requestOf 1000 0 []) (may2 5)).2 = 200 ∧
      (meteredHost 95 1000 false 1).NetTrafficLimit > 0 ∧
      (meteredHost 95 1000 false 1).NotifyTrafficEnabled = true ∧
      (meteredHost 95 1000 false 1).TrafficAlerted = false ∧
      ((Pulse (serverOf (meteredHost 95 1000 false 1)) (requestOf 1000 0 []) (may2 5)).1.hosts
        1).map (fun row =>
          decide ((row.NetMonthlyRx + row.NetMonthlyTx) * 100 / row.NetTrafficLimit ≥ 90))
        = some true ∧
      sendsTrafficWarning (serverOf (meteredHost 95 1000 false 1)) (requestOf 1000 0 [])
        (may2 5) = false ∧
      ((Pulse (serverOf (meteredHost 95 1000 false 1)) (requestOf 1000 0 []) (may2 5)).1.hosts
        1).map (fun row => row.TrafficAlerted) = some false := by
  decide

/-- C9, amended: on an accepted pulse a traffic warning is sent exactly when
one of this pulse's deltas is not zero, a limit is configured, traffic
notifications are enabled, the alert flag is not set once the reset-day check
is done, and `(monthly_rx + monthly_tx) * 100 / limit`, computed on `uint64`
from the totals the handler has accumulated on its copy of the host, is at
least the threshold (the configured percentage converted to `uint64`, 90 when
that is 0).  When the database takes the write of the pulse, the stored flag
is true afterwards exactly when the warning is sent or the flag was set and
the reset did not fire; when it refuses the write (a total or raw counter of
`2 ^ 63` or more), the stored flag is the one before the pulse. -/
theorem C9_warning_rule (s : Server) (req : PulseRequest) (now : Time)
    (h : SSHHost) (d : MetricData) (ha : authenticate s req = .ok (h, d)) :
    (sendsTrafficWarning s req now = true ↔
        (((account d.HostID (enable h) d now).deltaRx > 0 ∨
            (account d.HostID (enable h) d now).deltaTx > 0) ∧
          h.NetTrafficLimit > 0 ∧ h.NotifyTrafficEnabled = true ∧
          ((account d.HostID (enable h) d now).resetFired = true ∨ h.TrafficAlerted = false) ∧
          mulU64 (addU64 (account d.HostID (enable h) d now).host.NetMonthlyRx
              (account d.HostID (enable h) d now).host.NetMonthlyTx) 100 / h.NetTrafficLimit
            ≥ trafficThreshold h)) ∧
      ∃ row, (Pulse s req now).1.hosts d.HostID = some row ∧
        (writable (account d.HostID (enable h) d now).host = true →
          (row.TrafficAlerted = true ↔
            (sendsTrafficWarning s req now = true ∨
              ((account d.HostID (enable h) d now).resetFired = false ∧
                h.TrafficAlerted = true)))) ∧
        (writable (account d.HostID (enable h) d now).host = false →
          row.TrafficAlerted = h.TrafficAlerted) := by
  obtain ⟨row, hrow, hT, hF⟩ := Pulse_row_cases now ha
  refine ⟨?_, row, hrow, fun hw => ?_, fun hw => ?_⟩
  · rw [sendsTrafficWarning_eq now ha, account_warned, account_resetFired]
    show _ ↔ (_ ∧ _ ∧ _ ∧ _ ∧
      mulU64 (addU64 (storedAfter d.HostID h d now).NetMonthlyRx
        (storedAfter d.HostID h d now).NetMonthlyTx) 100 / h.NetTrafficLimit ≥ trafficThreshold h)
    cases hr : resetDue now h <;> cases hal : h.TrafficAlerted <;>
      simp [and_assoc]
  · rw [hT hw, storedAfter_alerted, sendsTrafficWarning_eq now ha, account_resetFired]
    cases hr : resetDue now h <;> cases hal : h.TrafficAlerted <;> simp
  · rw [hF hw]
    exact (enable_fields h).2.2.2.2.2.2.2.2.2.2.2.2.2.2.2.1

/-- C9, amended, at a host with limit 100 and monthly totals 89 + 0 that
receives rx 1002 after 1000: the totals become 91 and the warning is sent. -/
theorem C9_warning_rule_witness :
    authenticate (serverOf (meteredHost 89 1000 false 1)) (requestOf 1002 0 []) =
        .ok (meteredHost 89 1000 false 1, pulseOf 1002 0 []) ∧
      sendsTrafficWarning (serverOf (meteredHost 89 1000 false 1)) (requestOf 1002 0 [])
        (may2 5) = true ∧
      ∃ row, (Pulse (serverOf (meteredHost 89 1000 false 1)) (requestOf 1002 0 [])
          (may2 5)).1.hosts 1 = some row ∧ row.TrafficAlerted = true := by
  obtain ⟨_, row, hrow, hflag, _⟩ :=
    C9_warning_rule (serverOf (meteredHost 89 1000 false 1)) (requestOf 1002 0 []) (may2 5)
      (meteredHost 89 1000 false 1) (pulseOf 1002 0 []) rfl
  have hs : sendsTrafficWarning (serverOf (meteredHost 89 1000 false 1)) (requestOf 1002 0 [])
      (may2 5) = true := by decide
  exact ⟨rfl, hs, row, hrow, (hflag (by decide)).2 (Or.inl hs)⟩

/-- C10: on an accepted pulse the current counters are the pulse's totals
`NetRx`, `NetTx` whenever the host's interface setting is empty or `auto`,
and also whenever none of the trimmed names of its comma-separated list is
the name of an interface of the pulse; the totals, not zero, are then what
the deltas are computed from and what the handler keeps as raw counters on
its copy of the host, and what the stored row has when the database takes
the write of the pulse. -/
theorem C10_totals_when_no_interface_matches (s : Server) (req : PulseRequest) (now : Time)
    (h : SSHHost) (d : MetricData) (ha : authenticate s req = .ok (h, d))
    (hsel : h.NetInterface = "" ∨ h.NetInterface = "auto" ∨
      ∀ t ∈ SplitComma h.NetInterface, ∀ i ∈ d.Interfaces, i.Name ≠ TrimSpace t) :
    selectCounters h d = (d.NetRx, d.NetTx) ∧
      (account d.HostID (enable h) d now).currentRx = d.NetRx ∧
      (account d.HostID (enable h) d now).currentTx = d.NetTx ∧
      (account d.HostID (enable h) d now).deltaRx = delta h.NetLastRawRx d.NetRx ∧
      (account d.HostID (enable h) d now).deltaTx = delta h.NetLastRawTx d.NetTx ∧
      (account d.HostID (enable h) d now).host.NetLastRawRx = d.NetRx ∧
      (account d.HostID (enable h) d now).host.NetLastRawTx = d.NetTx ∧
      ∃ row, (Pulse s req now).1.hosts d.HostID = some row ∧
        (writable (account d.HostID (enable h) d now).host = true →
          row.NetLastRawRx = d.NetRx ∧ row.NetLastRawTx = d.NetTx) := by
  have hsc : selectCounters h d = (d.NetRx, d.NetTx) := by
    unfold selectCounters
    split_ifs with hc
    · rcases hsel with h1 | h1 | h1
      · exact absurd h1 hc.1
      · exact absurd h1 hc.2
      · rw [sumInterfaces_none _ _ _ h1]; rfl
    · rfl
  obtain ⟨row, hrow, hT, _⟩ := Pulse_row_cases now ha
  have hraw := account_host_raw d.HostID h d now
  rw [hsc] at hraw
  refine ⟨hsc, ?_, ?_, ?_, ?_, hraw.1, hraw.2, row, hrow, fun hw => ?_⟩
  · rw [account_currentRx, hsc]
  · rw [account_currentTx, hsc]
  · rw [account_deltaRx, hsc]
  · rw [account_deltaTx, hsc]
  · rw [hT hw]
    exact hraw

/-- C10 at the allow-list `eth0, eth1` and a pulse that lists only `wlan0`:
the totals 777 and 888 are used. -/
theorem C10_totals_when_no_interface_matches_witness :
    authenticate (serverOf filteredHost)
        (requestOf 777 888 [{ Name := "wlan0", Rx := 5, Tx := 6 }]) =
        .ok (filteredHost, pulseOf 777 888 [{ Name := "wlan0", Rx := 5, Tx := 6 }]) ∧
      (∀ t ∈ SplitComma filteredHost.NetInterface,
        ∀ i ∈ (pulseOf 777 888 [{ Name := "wlan0", Rx := 5, Tx := 6 }]).Interfaces,
          i.Name ≠ TrimSpace t) ∧
      selectCounters filteredHost (pulseOf 777 888 [{ Name := "wlan0", Rx := 5, Tx := 6 }])
        = (777, 888) ∧
      ∃ row, (Pulse (serverOf filteredHost)
          (requestOf 777 888 [{ Name := "wlan0", Rx := 5, Tx := 6 }]) (may2 5)).1.hosts 1
          = some row ∧ row.NetLastRawRx = 777 ∧ row.NetLastRawTx = 888 := by
  obtain ⟨hsc, _, _, _, _, _, _, row, hrow, hT⟩ :=
    C10_totals_when_no_interface_matches (serverOf filteredHost)
      (requestOf 777 888 [{ Name := "wlan0", Rx := 5, Tx := 6 }]) (may2 5) filteredHost
      (pulseOf 777 888 [{ Name := "wlan0", Rx := 5, Tx := 6 }]) rfl
      (Or.inr (Or.inr (by decide)))
  have a := hT (by decide)
  exact ⟨rfl, by decide, hsc, row, hrow, a.1, a.2⟩

/-- C11 does not hold as stated: with the allow-list `eth0,eth0` and a pulse
whose only interface is `eth0` with 5 rx bytes, the loop adds the interface
once per entry and the current rx counter is 10, while the sum over the
interfaces of the pulse that match an entry, each counted once, is 5. -/
theorem C11_counterexample :
    (Pulse (serverOf doubledHost)
        (requestOf 777 888 [{ Name := "eth0", Rx := 5, Tx := 6 }]) (may2 5)).2 = 200 ∧
      (account 1 (enable doubledHost) (pulseOf 777 888 [{ Name := "eth0", Rx := 5, Tx := 6 }])
        (may2 5)).currentRx = 10 ∧
      ((listedInterfaces doubledHost
        (pulseOf 777 888 [{ Name := "eth0", Rx := 5, Tx := 6 }])).map (fun i => i.Rx)).sum
        = 5 := by
  decide

/-- C11, amended: when the interface setting of the host is an allow-list
with pairwise distinct trimmed names, the interfaces of the pulse have
pairwise distinct names and at least one listed name appears in the pulse,
the current rx (resp. tx) counter is the `uint64` sum of the rx (resp. tx)
bytes over exactly those interfaces of the pulse whose name is an entry of
the allow-list, each counted once; it is the exact sum whenever that fits in
64 bits. -/
theorem C11_allow_list_sum (s : Server) (req : PulseRequest) (now : Time)
    (h : SSHHost) (d : MetricData) (ha : authenticate s req = .ok (h, d))
    (hlist : h.NetInterface ≠ "" ∧ h.NetInterface ≠ "auto")
    (hfound : ∃ t ∈ SplitComma h.NetInterface, ∃ i ∈ d.Interfaces, i.Name = TrimSpace t)
    (hT : (allowList h).Nodup) (hI : (d.Interfaces.map (fun i => i.Name)).Nodup) :
    (Pulse s req now).2 = 200 ∧
      (account d.HostID (enable h) d now).currentRx
        = ((listedInterfaces h d).map (fun i => i.Rx)).sum % 2 ^ 64 ∧
      (account d.HostID (enable h) d now).currentTx
        = ((listedInterfaces h d).map (fun i => i.Tx)).sum % 2 ^ 64 ∧
      (((listedInterfaces h d).map (fun i => i.Rx)).sum < 2 ^ 64 →
        (account d.HostID (enable h) d now).currentRx
          = ((listedInterfaces h d).map (fun i => i.Rx)).sum) ∧
      (((listedInterfaces h d).map (fun i => i.Tx)).sum < 2 ^ 64 →
        (account d.HostID (enable h) d now).currentTx
          = ((listedInterfaces h d).map (fun i => i.Tx)).sum) := by
  have hsel := selectCounters_listed h d hlist hfound hT hI
  rw [account_currentRx, account_currentTx]
  refine ⟨Pulse_status now ha, hsel.1, hsel.2, fun hfit => ?_, fun hfit => ?_⟩
  · rw [hsel.1]; exact Nat.mod_eq_of_lt hfit
  · rw [hsel.2]; exact Nat.mod_eq_of_lt hfit

/-- C11, amended, at the allow-list `eth0, eth1` and a pulse with `lo`,
`eth1` and `eth0`: the counters are 30 + 10 and 40 + 20, not the totals. -/
theorem C11_allow_list_sum_witness :
    authenticate (serverOf filteredHost)
        (requestOf 777 888 [{ Name := "lo", Rx := 1, Tx := 2 },
          { Name := "eth1", Rx := 10, Tx := 20 }, { Name := "eth0", Rx := 30, Tx := 40 }]) =
        .ok (filteredHost, pulseOf 777 888 [{ Name := "lo", Rx := 1, Tx := 2 },
          { Name := "eth1", Rx := 10, Tx := 20 }, { Name := "eth0", Rx := 30, Tx := 40 }]) ∧
      (allowList filteredHost).Nodup ∧
      (account 1 (enable filteredHost) (pulseOf 777 888 [{ Name := "lo", Rx := 1, Tx := 2 },
          { Name := "eth1", Rx := 10, Tx := 20 }, { Name := "eth0", Rx := 30, Tx := 40 }])
        (may2 5)).currentRx = 40 ∧
      (account 1 (enable filteredHost) (pulseOf 777 888 [{ Name := "lo", Rx := 1, Tx := 2 },
          { Name := "eth1", Rx := 10, Tx := 20 }, { Name := "eth0", Rx := 30, Tx := 40 }])
        (may2 5)).currentTx = 60 := by
  have hT : (allowList filteredHost).Nodup := by decide
  obtain ⟨_, _, _, hrx, htx⟩ :=
    C11_allow_list_sum (serverOf filteredHost)
      (requestOf 777 888 [{ Name := "lo", Rx := 1, Tx := 2 },
        { Name := "eth1", Rx := 10, Tx := 20 }, { Name := "eth0", Rx := 30, Tx := 40 }])
      (may2 5) filteredHost
      (pulseOf 777 888 [{ Name := "lo", Rx := 1, Tx := 2 },
        { Name := "eth1", Rx := 10, Tx := 20 }, { Name := "eth0", Rx := 30, Tx := 40 }])
      rfl (by decide) ⟨"eth0", by decide, { Name := "eth0", Rx := 30, Tx := 40 }, by decide,
        by decide⟩ hT (by decide)
  exact ⟨rfl, hT, (hrx (by decide)).trans (by decide), (htx (by decide)).trans (by decide)⟩

/-- C12: a pulse with a bearer header and a decodable body is rejected with
404 when no host has its host id and with 403 when the host exists but the
bearer secret is not the stored monitor secret; in both cases the server
state is the one before: no row, nothing sent to the hub, no snapshot. -/
theorem C12_unknown_host_and_bad_secret (s : Server) (req : PulseRequest) (now : Time)
    (d : MetricData) (hhdr : req.authHeader.data.take 7 = "Bearer ".data)
    (hbody : req.body = some d) (hfit : d.fits = true) :
    (s.hosts d.HostID = none → Pulse s req now = (s, 404)) ∧
      (∀ h, s.hosts d.HostID = some h →
        h.MonitorSecret ≠ String.mk (req.authHeader.data.drop 7) →
        Pulse s req now = (s, 403)) := by
  have hlen : ¬(req.authHeader.data.length < 7 ∨
      req.authHeader.data.take 7 ≠ "Bearer ".data) := by
    intro hc
    rcases hc with hc | hc
    · have := congrArg List.length hhdr
      rw [List.length_take] at this
      have h7 : ("Bearer ".data).length = 7 := by decide
      omega
    · exact hc hhdr
  refine ⟨fun hnone => ?_, fun h hsome hne => ?_⟩
  · apply Pulse_rejected
    unfold authenticate
    rw [if_neg hlen]
    simp only [hbody, hfit, hnone, Bool.not_true, Bool.false_eq_true, if_false]
  · apply Pulse_rejected
    unfold authenticate
    rw [if_neg hlen]
    simp only [hbody, hfit, hsome, Bool.not_true, Bool.false_eq_true, if_false]
    rw [if_pos hne]

/-- C12 at a pulse for host 2 on a server that only has host 1, and at a
pulse for host 1 with the secret `k3y` where `other` is stored. -/
theorem C12_unknown_host_and_bad_secret_witness :
    (Pulse (serverOf (plainHost 0 0 0 0))
        { authHeader := "Bearer k3y", body := some { pulseOf 5 5 [] with HostID := 2 } }
        (may2 5)).2 = 404 ∧
      (Pulse (serverOf { plainHost 0 0 0 0 with MonitorSecret := "other" })
        (requestOf 5 5 []) (may2 5)).2 = 403 ∧
      (Pulse (serverOf { plainHost 0 0 0 0 with MonitorSecret := "other" })
        (requestOf 5 5 []) (may2 5)).1.hub = [] := by
  have h1 := (C12_unknown_host_and_bad_secret (serverOf (plainHost 0 0 0 0))
    { authHeader := "Bearer k3y", body := some { pulseOf 5 5 [] with HostID := 2 } }
    (may2 5) { pulseOf 5 5 [] with HostID := 2 } (by decide) rfl (by decide)).1 (by decide)
  have h2 := (C12_unknown_host_and_bad_secret
    (serverOf { plainHost 0 0 0 0 with MonitorSecret := "other" })
    (requestOf 5 5 []) (may2 5) (pulseOf 5 5 []) (by decide) rfl (by decide)).2
    { plainHost 0 0 0 0 with MonitorSecret := "other" } (by decide) (by decide)
  rw [h1, h2]
  exact ⟨rfl, rfl, rfl⟩

/-- C13: on an accepted pulse on which the reset-day check does not fire,
the stored `monthly_rx` and `monthly_tx` are afterwards each at least what
they were before the pulse: when the database takes the write they are the
previous totals plus exactly this pulse's deltas, and when it refuses the
write (a total or raw counter of `2 ^ 63` or more) they are the previous
totals.  The row loaded has counters below `2 ^ 63`, as every row that was
written has, and so has the row the pulse leaves. -/
theorem C13_monthly_totals_do_not_decrease (s : Server) (req : PulseRequest) (now : Time)
    (h : SSHHost) (d : MetricData) (ha : authenticate s req = .ok (h, d))
    (hs : writable h = true)
    (hno : (account d.HostID (enable h) d now).resetFired = false) :
    ∃ row, (Pulse s req now).1.hosts d.HostID = some row ∧
      h.NetMonthlyRx ≤ row.NetMonthlyRx ∧ h.NetMonthlyTx ≤ row.NetMonthlyTx ∧
      (writable (account d.HostID (enable h) d now).host = true →
        row.NetMonthlyRx = h.NetMonthlyRx + (account d.HostID (enable h) d now).deltaRx ∧
        row.NetMonthlyTx = h.NetMonthlyTx + (account d.HostID (enable h) d now).deltaTx) ∧
      (writable (account d.HostID (enable h) d now).host = false →
        row.NetMonthlyRx = h.NetMonthlyRx ∧ row.NetMonthlyTx = h.NetMonthlyTx) ∧
      writable row = true := by
  rw [account_resetFired] at hno
  obtain ⟨row, hrow, hT, hF⟩ := Pulse_row_cases now ha
  have hen : (enable h).NetMonthlyRx = h.NetMonthlyRx ∧ (enable h).NetMonthlyTx = h.NetMonthlyTx :=
    ⟨(enable_fields h).2.2.2.2.2.1, (enable_fields h).2.2.2.2.2.2.1⟩
  have hexact : writable (account d.HostID (enable h) d now).host = true →
      row.NetMonthlyRx = h.NetMonthlyRx + (account d.HostID (enable h) d now).deltaRx ∧
      row.NetMonthlyTx = h.NetMonthlyTx + (account d.HostID (enable h) d now).deltaTx := by
    intro hw
    have hx := account_host_exact d.HostID h d now hs hw
    simp only [hno, Bool.false_eq_true, if_false] at hx
    rw [hT hw]
    exact hx
  have hkeep : writable (account d.HostID (enable h) d now).host = false →
      row.NetMonthlyRx = h.NetMonthlyRx ∧ row.NetMonthlyTx = h.NetMonthlyTx := by
    intro hw
    rw [hF hw]
    exact hen
  by_cases hw : writable (account d.HostID (enable h) d now).host = true
  · have e := hexact hw
    refine ⟨row, hrow, by omega, by omega, hexact, hkeep, ?_⟩
    rw [hT hw, writable_storedAfter]; exact hw
  · have hw2 : writable (account d.HostID (enable h) d now).host = false := by simpa using hw
    have e := hkeep hw2
    refine ⟨row, hrow, by omega, by omega, hexact, hkeep, ?_⟩
    rw [hF hw2, writable_enable]; exact hs

/-- C13 at a host with totals 500 and 200 that receives rx 1500 after 1000
and tx 1000 after 900 (the totals grow to 1000 and 300), and at the same host
when the pulse reports rx `2 ^ 63`, whose write the database refuses (the
totals stay 500 and 200). -/
theorem C13_monthly_totals_do_not_decrease_witness :
    authenticate (serverOf (plainHost 500 200 1000 900)) (requestOf 1500 1000 []) =
        .ok (plainHost 500 200 1000 900, pulseOf 1500 1000 []) ∧
      writable (plainHost 500 200 1000 900) = true ∧
      (account 1 (enable (plainHost 500 200 1000 900)) (pulseOf 1500 1000 [])
        (may2 5)).resetFired = false ∧
      (∃ row, (Pulse (serverOf (plainHost 500 200 1000 900)) (requestOf 1500 1000 [])
          (may2 5)).1.hosts 1 = some row ∧
        500 ≤ row.NetMonthlyRx ∧ 200 ≤ row.NetMonthlyTx ∧
        row.NetMonthlyRx = 1000 ∧ row.NetMonthlyTx = 300) ∧
      (∃ row, (Pulse (serverOf (plainHost 500 200 1000 900)) (requestOf highBit 1000 [])
          (may2 5)).1.hosts 1 = some row ∧
        row.NetMonthlyRx = 500 ∧ row.NetMonthlyTx = 200) := by
  obtain ⟨row, hrow, hrx, htx, hT, _, _⟩ :=
    C13_monthly_totals_do_not_decrease (serverOf (plainHost 500 200 1000 900))
      (requestOf 1500 1000 []) (may2 5) (plainHost 500 200 1000 900) (pulseOf 1500 1000 [])
      rfl (by decide) (by decide)
  obtain ⟨row2, hrow2, _, _, _, hF, _⟩ :=
    C13_monthly_totals_do_not_decrease (serverOf (plainHost 500 200 1000 900))
      (requestOf highBit 1000 []) (may2 5) (plainHost 500 200 1000 900)
      (pulseOf highBit 1000 []) rfl (by decide) (by decide)
  have a := hT (by decide)
  have b := hF (by decide)
  exact ⟨rfl, by decide, by decide,
    ⟨row, hrow, hrx, htx, a.1.trans (by decide), a.2.trans (by decide)⟩,
    ⟨row2, hrow2, b.1, b.2⟩⟩

/-- C14 fails on the code: host 1 is online with raw counters 1000 and 7 and
a heartbeat at 0 seconds; the pulse handled at 5 seconds reports the same
counters and the same agent version.  It is accepted, nothing sets
`dbUpdated`, the row is not written and the stored heartbeat is still the one
of 0 seconds. -/
theorem C14_idle_pulse_keeps_old_heartbeat :
    (Pulse (serverOf (plainHost 500 0 1000 7)) (requestOf 1000 7 []) (may2 5)).2 = 200 ∧
      (account 1 (enable (plainHost 500 0 1000 7)) (pulseOf 1000 7 []) (may2 5)).host.LastPulse
        = may2 5 ∧
      (account 1 (enable (plainHost 500 0 1000 7)) (pulseOf 1000 7 []) (may2 5)).dbUpdated
        = false ∧
      ((Pulse (serverOf (plainHost 500 0 1000 7)) (requestOf 1000 7 []) (may2 5)).1.hosts 1).map
        (fun row => row.LastPulse) = some (may2 0) ∧
      may2 0 ≠ may2 5 := by
  decide

/-- C15 does not hold as stated: host 1 is stored as offline, with offline
notifications enabled, and sends two pulses with rx `2 ^ 63`.  Both are
accepted.  On the first the handler sets the status of its copy to `online`,
records the status change and sends the "back online" notification, but
`database/sql` refuses the `UPDATE` because of the raw counter and the
handler does not look at the error: the stored status after the pulse is
still `offline`, and the second pulse records a second status change and
sends a second notification. -/
theorem C15_counterexample :
    (Pulse (serverOf (offlineHost true)) (requestOf highBit 5 []) (may2 5)).2 = 200 ∧
      ((Pulse (serverOf (offlineHost true)) (requestOf highBit 5 []) (may2 5)).1.hosts 1).map
          (fun row => row.Status) = some "offline" ∧
      (runPulses (serverOf (offlineHost true))
          [(requestOf highBit 5 [], may2 5), (requestOf highBit 5 [], may2 7)]).statusLogs
        = [{ HostID := 1, Status := "online", CreatedAt := may2 5 },
            { HostID := 1, Status := "online", CreatedAt := may2 7 }] ∧
      (runPulses (serverOf (offlineHost true))
          [(requestOf highBit 5 [], may2 5), (requestOf highBit 5 [], may2 7)]).notifications
        = [Notification.backOnline 1 "edge-1", Notification.backOnline 1 "edge-1"] := by
  decide

/-- C15, amended: on every accepted pulse a status-change row is added
exactly when the stored status before was not `online`, and a "back online"
notification is sent exactly when, in addition, offline notifications are
enabled for the host.  The stored status after the pulse is `online` when
the database takes the write of the pulse, and the status before the pulse
when it refuses the write (a total or raw counter of `2 ^ 63` or more). -/
theorem C15_liveness_transition (s : Server) (req : PulseRequest) (now : Time)
    (h : SSHHost) (d : MetricData) (ha : authenticate s req = .ok (h, d)) :
    (∃ row, (Pulse s req now).1.hosts d.HostID = some row ∧
        (writable (account d.HostID (enable h) d now).host = true → row.Status = "online") ∧
        (writable (account d.HostID (enable h) d now).host = false →
          row.Status = h.Status)) ∧
      (h.Status ≠ "online" →
        (Pulse s req now).1.statusLogs =
          s.statusLogs ++ [{ HostID := d.HostID, Status := "online", CreatedAt := now }]) ∧
      (h.Status = "online" → (Pulse s req now).1.statusLogs = s.statusLogs) ∧
      (sendsBackOnline s req now = true ↔
        (h.Status ≠ "online" ∧ h.NotifyOfflineEnabled = true)) := by
  have hlog := Pulse_statusLogs now ha
  rw [account_cameOnline] at hlog
  obtain ⟨row, hrow, hT, hF⟩ := Pulse_row_cases now ha
  refine ⟨⟨row, hrow, fun hw => ?_, fun hw => ?_⟩, fun hne => ?_, fun heq => ?_, ?_⟩
  · rw [hT hw]; exact storedAfter_status _ _ _ _
  · rw [hF hw]; exact (enable_fields h).2.2.2.2.2.2.2.2.2.2.2.2.2.2.2.2.2.1
  · rw [hlog, if_pos (by simpa using hne)]
  · rw [hlog, if_neg (by simpa using heq)]
  · rw [sendsBackOnline_eq now ha]
    simp

/-- C15, amended, at an offline host with offline notifications enabled (one
row in the status log, one notification, the stored status becomes `online`)
and at a host that is already online (no row, no notification). -/
theorem C15_liveness_transition_witness :
    (authenticate (serverOf (offlineHost true)) (requestOf 5 5 []) =
        .ok (offlineHost true, pulseOf 5 5 []) ∧
      (Pulse (serverOf (offlineHost true)) (requestOf 5 5 []) (may2 5)).1.statusLogs
        = [{ HostID := 1, Status := "online", CreatedAt := may2 5 }] ∧
      sendsBackOnline (serverOf (offlineHost true)) (requestOf 5 5 []) (may2 5) = true ∧
      ∃ row, (Pulse (serverOf (offlineHost true)) (requestOf 5 5 []) (may2 5)).1.hosts 1
        = some row ∧ row.Status = "online") ∧
    (authenticate (serverOf (plainHost 0 0 0 0)) (requestOf 5 5 []) =
        .ok (plainHost 0 0 0 0, pulseOf 5 5 []) ∧
      (Pulse (serverOf (plainHost 0 0 0 0)) (requestOf 5 5 []) (may2 5)).1.statusLogs = [] ∧
      ¬sendsBackOnline (serverOf (plainHost 0 0 0 0)) (requestOf 5 5 []) (may2 5) = true) := by
  obtain ⟨⟨row, hrow, hT, _⟩, hoff, _, hsend⟩ :=
    C15_liveness_transition (serverOf (offlineHost true)) (requestOf 5 5 []) (may2 5)
      (offlineHost true) (pulseOf 5 5 []) rfl
  obtain ⟨_, _, hon, hsend2⟩ :=
    C15_liveness_transition (serverOf (plainHost 0 0 0 0)) (requestOf 5 5 []) (may2 5)
      (plainHost 0 0 0 0) (pulseOf 5 5 []) rfl
  refine ⟨⟨rfl, hoff (by decide), hsend.2 ⟨by decide, rfl⟩, row, hrow, hT (by decide)⟩,
    ⟨rfl, hon rfl, fun hc => ?_⟩⟩
  exact absurd rfl (hsend2.1 hc).1

/-- C16: every accepted pulse adds exactly one message to the hub, the pulse
itself with `monthly_rx` and `monthly_tx` as the reset-day check and the
accumulation of this pulse leave them on the handler's copy of the host, and
with the host's traffic limit, used-adjustment and counter mode.  These
totals are those of the stored row when the database takes the write of the
pulse. -/
theorem C16_forwarded_to_hub (s : Server) (req : PulseRequest) (now : Time)
    (h : SSHHost) (d : MetricData) (ha : authenticate s req = .ok (h, d)) :
    (Pulse s req now).1.hub =
        s.hub ++ [HubEvent.update
          { d with
            NetMonthlyRx :=
              (accumulateStage (delta h.NetLastRawRx (selectCounters h d).1)
                (delta h.NetLastRawTx (selectCounters h d).2) (resetStage now h)).NetMonthlyRx
            NetMonthlyTx :=
              (accumulateStage (delta h.NetLastRawRx (selectCounters h d).1)
                (delta h.NetLastRawTx (selectCounters h d).2) (resetStage now h)).NetMonthlyTx
            NetTrafficLimit := h.NetTrafficLimit
            NetTrafficUsedAdjustment := h.NetTrafficUsedAdjustment
            NetTrafficCounterMode := h.NetTrafficCounterMode }] ∧
      ∃ row, (Pulse s req now).1.hosts d.HostID = some row ∧
        (writable (account d.HostID (enable h) d now).host = true →
          row.NetMonthlyRx =
            (accumulateStage (delta h.NetLastRawRx (selectCounters h d).1)
              (delta h.NetLastRawTx (selectCounters h d).2) (resetStage now h)).NetMonthlyRx ∧
          row.NetMonthlyTx =
            (accumulateStage (delta h.NetLastRawRx (selectCounters h d).1)
              (delta h.NetLastRawTx (selectCounters h d).2) (resetStage now h)).NetMonthlyTx) := by
  obtain ⟨row, hrow, hT, _⟩ := Pulse_row_cases now ha
  have hrx : (storedAfter d.HostID h d now).NetMonthlyRx =
      (accumulateStage (delta h.NetLastRawRx (selectCounters h d).1)
        (delta h.NetLastRawTx (selectCounters h d).2) (resetStage now h)).NetMonthlyRx := by
    rw [storedAfter_monthlyRx, accumulateStage_eq, resetStage_eq, account_deltaRx,
      account_deltaTx]
  have htx : (storedAfter d.HostID h d now).NetMonthlyTx =
      (accumulateStage (delta h.NetLastRawRx (selectCounters h d).1)
        (delta h.NetLastRawTx (selectCounters h d).2) (resetStage now h)).NetMonthlyTx := by
    rw [storedAfter_monthlyTx, accumulateStage_eq, resetStage_eq, account_deltaRx,
      account_deltaTx]
  refine ⟨?_, row, hrow, fun hw => by rw [hT hw]; exact ⟨hrx, htx⟩⟩
  rw [Pulse_hub now ha, ← hrx, ← htx]
  have hc := account_host_config d.HostID h d now
  simp only [enrich, hc.1, hc.2.1, hc.2.2.1, storedAfter]

/-- C16 at a host with limit 100 and total 89 that receives rx 1002 after
1000: the message sent to the hub carries the total 91 and the limit 100. -/
theorem C16_forwarded_to_hub_witness :
    authenticate (serverOf (meteredHost 89 1000 false 1)) (requestOf 1002 0 []) =
        .ok (meteredHost 89 1000 false 1, pulseOf 1002 0 []) ∧
      (Pulse (serverOf (meteredHost 89 1000 false 1)) (requestOf 1002 0 []) (may2 5)).1.hub =
        [HubEvent.update
          { pulseOf 1002 0 [] with
            NetMonthlyRx := 91, NetTrafficLimit := 100, NetTrafficCounterMode := "total" }] := by
  obtain ⟨hhub, _⟩ :=
    C16_forwarded_to_hub (serverOf (meteredHost 89 1000 false 1)) (requestOf 1002 0 [])
      (may2 5) (meteredHost 89 1000 false 1) (pulseOf 1002 0 []) rfl
  exact ⟨rfl, hhub.trans (by decide)⟩

/-- C17 does not hold as stated: host 1 has no snapshot, and sends a pulse
with rx `2 ^ 63` at 0 seconds and a pulse with rx 6 at 30 seconds.  Both are
accepted and handed to the hub.  For the first the handler notes the instant
in `lastDbSave` and issues the `INSERT`, which `database/sql` refuses because
of the rx counter; the handler does not look at the error.  When the second
pulse arrives no snapshot of the host has ever been persisted, yet the
handler persists none, because the instant it has noted is 30 seconds
old. -/
theorem C17_counterexample :
    (Pulse (serverOf (plainHost 0 0 0 0)) (requestOf highBit 5 []) (may2 0)).2 = 200 ∧
      (Pulse (serverOf (plainHost 0 0 0 0)) (requestOf highBit 5 []) (may2 0)).1.records = [] ∧
      (Pulse (serverOf (plainHost 0 0 0 0)) (requestOf highBit 5 []) (may2 0)).1.lastDbSave 1
        = some (may2 0) ∧
      (Pulse (Pulse (serverOf (plainHost 0 0 0 0)) (requestOf highBit 5 []) (may2 0)).1
        (requestOf 6 5 []) (may2 30)).2 = 200 ∧
      (Pulse (Pulse (serverOf (plainHost 0 0 0 0)) (requestOf highBit 5 []) (may2 0)).1
        (requestOf 6 5 []) (may2 30)).1.records = [] ∧
      (Pulse (Pulse (serverOf (plainHost 0 0 0 0)) (requestOf highBit 5 []) (may2 0)).1
        (requestOf 6 5 []) (may2 30)).1.hub.length = 2 := by
  decide

/-- C17, amended: an accepted pulse is always handed to the hub.  It notes
its instant as the instant of the host's last snapshot exactly when the
handler has noted none for that host or the one noted is more than 60 seconds
old, and then it inserts a snapshot, which holds the host id, the CPU, memory
and disk figures and the rx and tx totals of the pulse; the insert is carried
out when these byte counts are below `2 ^ 63` and is refused otherwise, the
instant being noted all the same.  Otherwise the pulse inserts nothing and
notes nothing.  Hence, of two snapshots of one host that a run adds to the
table, the later is more than 60 seconds after the earlier one, and each is
more than 60 seconds after the instant noted before the run. -/
theorem C17_snapshot_downsampling (s : Server) (req : PulseRequest) (now : Time)
    (h : SSHHost) (d : MetricData) (ha : authenticate s req = .ok (h, d))
    (k : Nat) (reqs : List (PulseRequest × Time)) :
    (Pulse s req now).1.hub.length = s.hub.length + 1 ∧
      ((∀ last, s.lastDbSave d.HostID = some last →
          now.unixNano - last.unixNano > 60 * 1000000000) →
        (Pulse s req now).1.lastDbSave d.HostID = some now ∧
        (Pulse s req now).1.records =
          if d.MemUsed < 2 ^ 63 ∧ d.MemTotal < 2 ^ 63 ∧ d.DiskUsed < 2 ^ 63 ∧
              d.DiskTotal < 2 ^ 63 ∧ d.NetRx < 2 ^ 63 ∧ d.NetTx < 2 ^ 63 then
            s.records ++
              [(now, { HostID := d.HostID, CPU := d.CPU, MemUsed := d.MemUsed,
                       MemTotal := d.MemTotal, DiskUsed := d.DiskUsed,
                       DiskTotal := d.DiskTotal, NetRx := d.NetRx, NetTx := d.NetTx })]
          else s.records) ∧
      (¬(∀ last, s.lastDbSave d.HostID = some last →
          now.unixNano - last.unixNano > 60 * 1000000000) →
        (Pulse s req now).1.records = s.records ∧
        (Pulse s req now).1.lastDbSave = s.lastDbSave) ∧
      List.Pairwise (fun a b => b.unixNano - a.unixNano > 60 * 1000000000)
        (recordTimes k ((runPulses s reqs).records.drop s.records.length)) ∧
      (∀ last, s.lastDbSave k = some last →
        ∀ t ∈ recordTimes k ((runPulses s reqs).records.drop s.records.length),
          t.unixNano - last.unixNano > 60 * 1000000000) := by
  have hiff := shouldSave_iff s.lastDbSave d.HostID now
  have hrec := Pulse_records now ha
  have hl := Pulse_lastDbSave now ha
  refine ⟨by rw [Pulse_hub now ha]; simp, fun hdue => ?_, fun hnot => ?_,
    (run_records_spaced k reqs s).1, (run_records_spaced k reqs s).2⟩
  · have hs := hiff.mpr hdue
    rw [hrec, hl, if_pos hs, hs, Bool.true_and]
    refine ⟨by simp, ?_⟩
    by_cases hc : d.MemUsed < 2 ^ 63 ∧ d.MemTotal < 2 ^ 63 ∧ d.DiskUsed < 2 ^ 63 ∧
        d.DiskTotal < 2 ^ 63 ∧ d.NetRx < 2 ^ 63 ∧ d.NetTx < 2 ^ 63
    · rw [if_pos ((insertable_snapshot d).mpr hc), if_pos hc]
      rfl
    · rw [if_neg (fun e => hc ((insertable_snapshot d).mp e)), if_neg hc]
  · have hs : ¬shouldSave s.lastDbSave d.HostID now = true := fun hc => hnot (hiff.mp hc)
    have hs2 : shouldSave s.lastDbSave d.HostID now = false := by simpa using hs
    rw [hrec, hl, if_neg hs, hs2]
    exact ⟨rfl, rfl⟩

/-- C17, amended, on pulses of host 1 handled 0, 30, 60 and 61 seconds into
the day: all four reach the hub, snapshots are inserted at 0 and at 61
seconds. -/
theorem C17_snapshot_downsampling_witness :
    authenticate (serverOf (plainHost 0 0 0 0)) (requestOf 5 5 []) =
        .ok (plainHost 0 0 0 0, pulseOf 5 5 []) ∧
      (Pulse (serverOf (plainHost 0 0 0 0)) (requestOf 5 5 []) (may2 0)).1.records
        = [(may2 0, { HostID := 1, CPU := 3, MemUsed := 10, MemTotal := 20, DiskUsed := 30,
                      DiskTotal := 40, NetRx := 5, NetTx := 5 })] ∧
      (Pulse (serverOf (plainHost 0 0 0 0)) (requestOf 5 5 []) (may2 0)).1.lastDbSave 1
        = some (may2 0) ∧
      (Pulse (Pulse (serverOf (plainHost 0 0 0 0)) (requestOf 5 5 []) (may2 0)).1
        (requestOf 6 5 []) (may2 30)).1.records.length = 1 ∧
      recordTimes 1 (runPulses (serverOf (plainHost 0 0 0 0))
          [(requestOf 5 5 [], may2 0), (requestOf 6 5 [], may2 30),
            (requestOf 7 5 [], may2 60), (requestOf 8 5 [], may2 61)]).records
        = [may2 0, may2 61] ∧
      (runPulses (serverOf (plainHost 0 0 0 0))
          [(requestOf 5 5 [], may2 0), (requestOf 6 5 [], may2 30),
            (requestOf 7 5 [], may2 60), (requestOf 8 5 [], may2 61)]).hub.length = 4 ∧
      List.Pairwise (fun a b => b.unixNano - a.unixNano > 60 * 1000000000)
        (recordTimes 1 (runPulses (serverOf (plainHost 0 0 0 0))
          [(requestOf 5 5 [], may2 0), (requestOf 6 5 [], may2 30),
            (requestOf 7 5 [], may2 60), (requestOf 8 5 [], may2 61)]).records) := by
  obtain ⟨_, hdue, _, hpair, _⟩ :=
    C17_snapshot_downsampling (serverOf (plainHost 0 0 0 0)) (requestOf 5 5 []) (may2 0)
      (plainHost 0 0 0 0) (pulseOf 5 5 []) rfl 1
      [(requestOf 5 5 [], may2 0), (requestOf 6 5 [], may2 30),
        (requestOf 7 5 [], may2 60), (requestOf 8 5 [], may2 61)]
  have hfirst := hdue (fun last hlast => by cases hlast)
  obtain ⟨_, _, hskip, _, _⟩ :=
    C17_snapshot_downsampling
      (Pulse (serverOf (plainHost 0 0 0 0)) (requestOf 5 5 []) (may2 0)).1
      (requestOf 6 5 []) (may2 30) (plainHost 0 0 5 5) (pulseOf 6 5 []) rfl 1 []
  have hsecond := hskip (fun hall => by
    have := hall (may2 0) hfirst.1
    revert this; decide)
  refine ⟨rfl, hfirst.2.trans (by decide), hfirst.1, by rw [hsecond.1, hfirst.2]; decide,
    by decide, by decide, hpair⟩

/-- C18: handling a request that is not a pulse of host `k` leaves the row of
`k` and the instant of its last snapshot as they were; hence after any run
the row of `k` (its monthly totals among the rest) and its last snapshot
instant are those of the run restricted to the pulses of `k`, in their
order. -/
theorem C18_other_hosts_untouched (s : Server) (k : Nat)
    (reqs : List (PulseRequest × Time)) :
    (∀ req now, (∀ d, req.body = some d → d.HostID ≠ k) →
        (Pulse s req now).1.hosts k = s.hosts k ∧
        (Pulse s req now).1.lastDbSave k = s.lastDbSave k) ∧
      (runPulses s reqs).hosts k = (runPulses s (reqs.filter (targets k))).hosts k ∧
      (runPulses s reqs).lastDbSave k
        = (runPulses s (reqs.filter (targets k))).lastDbSave k :=
  ⟨fun req now hk => Pulse_frame s req now k hk, run_only_own_pulses k reqs s s rfl rfl⟩

/-- C18 on a server with hosts 1 and 2: a pulse of host 1 leaves the row of
host 2 alone, and the pulses 60, 90 of host 2 leave `monthly_rx = 40` whether
or not pulses of host 1 are handled in between. -/
theorem C18_other_hosts_untouched_witness :
    (∀ d, (requestFor 1 1500).body = some d → d.HostID ≠ 2) ∧
      (Pulse twoHosts (requestFor 1 1500) (may2 5)).1.hosts 2 = twoHosts.hosts 2 ∧
      (runPulses twoHosts [(requestFor 1 1500, may2 5), (requestFor 2 60, may2 6),
          (requestFor 1 1700, may2 7), (requestFor 2 90, may2 8)]).hosts 2
        = (runPulses twoHosts [(requestFor 2 60, may2 6), (requestFor 2 90, may2 8)]).hosts 2 ∧
      ((runPulses twoHosts [(requestFor 2 60, may2 6), (requestFor 2 90, may2 8)]).hosts 2).map
        (fun row => row.NetMonthlyRx) = some 40 := by
  have hne : ∀ d, (requestFor 1 1500).body = some d → d.HostID ≠ 2 := by
    intro d hd
    have e : d = { pulseOf 1500 0 [] with HostID := 1 } := (Option.some.inj hd).symm
    rw [e]; decide
  have h := C18_other_hosts_untouched twoHosts 2
    [(requestFor 1 1500, may2 5), (requestFor 2 60, may2 6),
      (requestFor 1 1700, may2 7), (requestFor 2 90, may2 8)]
  exact ⟨hne, (h.1 _ _ hne).1, h.2.1, by decide⟩

/-- C19 does not hold as stated: a task with frequency 9223372037 seconds is
launched by the tick at 0 and again by the tick one second later, because
`time.Duration(9223372037) * time.Second` does not fit 64 bits and wraps to a
negative `freq`, which every elapsed time exceeds. -/
theorem C19_counterexample :
    (Runner.start.run [AgentEvent.sync (.response 200 (some [pingTask 7 9223372037])),
        AgentEvent.tick 0, AgentEvent.tick 1000000000]).launches
      = [(pingTask 7 9223372037, 1000000000), (pingTask 7 9223372037, 0)] ∧
      taskFreq (pingTask 7 9223372037) = -9223372036709551616 ∧
      ¬((1000000000 : Int) - 0 ≥ 9223372037 * 1000000000) := by
  decide

/-- C19, amended: in the execution loop, started with no launch made, every
launch of a task whose frequency F satisfies 0 ≤ F ≤ 9223372036 (F seconds
fit a `time.Duration`) comes at least F seconds, 60 seconds when F is 0,
after the launch before it of the same task id; the instant kept in
`taskState` for a task id is always that of its latest launch, set by the
tick that launches. -/
theorem C19_launches_spaced (evs : List AgentEvent) (post pre : List (NetworkTask × Int))
    (t : NetworkTask) (n last : Int)
    (hsplit : (Runner.start.run evs).launches = post ++ (t, n) :: pre)
    (hprev : lastLaunch t.ID pre = some last)
    (h0 : 0 ≤ t.Frequency) (hfit : t.Frequency * 1000000000 < 2 ^ 63) :
    n - last ≥ wantedSeconds t * 1000000000 ∧
      ∀ id, (Runner.start.run evs).taskState id
        = lastLaunch id (Runner.start.run evs).launches := by
  have hinv := run_invariant evs Runner.start (fun _ => rfl) trivial
  have hw := hinv.2
  rw [hsplit] at hw
  exact ⟨(wellSpaced_append post _ hw).1 last hprev h0 hfit, hinv.1⟩

/-- C19, amended, on a task with frequency 5: ticks at 0, 1 and 5 seconds
launch it at 0 and at 5 seconds. -/
theorem C19_launches_spaced_witness :
    (Runner.start.run [AgentEvent.sync (.response 200 (some [pingTask 7 5])),
        AgentEvent.tick 0, AgentEvent.tick 1000000000, AgentEvent.tick 5000000000]).launches
      = [] ++ (pingTask 7 5, 5000000000) :: [(pingTask 7 5, 0)] ∧
      lastLaunch (pingTask 7 5).ID [(pingTask 7 5, 0)] = some 0 ∧
      (0 : Int) ≤ (pingTask 7 5).Frequency ∧
      (pingTask 7 5).Frequency * 1000000000 < 2 ^ 63 ∧
      (5000000000 : Int) - 0 ≥ wantedSeconds (pingTask 7 5) * 1000000000 :=
  ⟨by decide, by decide, by decide, by decide,
    (C19_launches_spaced
      [AgentEvent.sync (.response 200 (some [pingTask 7 5])),
        AgentEvent.tick 0, AgentEvent.tick 1000000000, AgentEvent.tick 5000000000]
      [] [(pingTask 7 5, 0)] (pingTask 7 5) 5000000000 0 (by decide) (by decide) (by decide)
      (by decide)).1⟩

/-- C20: a sync answered with status 200 and a decodable body replaces the
task map by the tasks of the response keyed by id (the last one for an id
that occurs twice), so its entries are tasks of the response and every
launch made by later ticks is a launch of one of them; a sync whose request
fails, whose status is not 200 or whose body does not decode leaves the task
map as it was. -/
theorem C20_sync_replaces_task_set (r : Runner) (respTasks : List NetworkTask)
    (ticks : List Int) :
    (∀ id, mapGet id (r.step (.sync (.response 200 (some respTasks)))).tasks
        = respTasks.reverse.find? (fun u => decide (u.ID = id))) ∧
      (∀ u ∈ (r.step (.sync (.response 200 (some respTasks)))).tasks, u ∈ respTasks) ∧
      (∀ l ∈ ((r.step (.sync (.response 200 (some respTasks)))).run
          (ticks.map AgentEvent.tick)).launches,
        l ∈ r.launches ∨ l.1 ∈ respTasks) ∧
      (r.step (.sync .requestFailed)).tasks = r.tasks ∧
      (∀ status body, status ≠ 200 → (r.step (.sync (.response status body))).tasks = r.tasks) ∧
      (∀ status, (r.step (.sync (.response status none))).tasks = r.tasks) := by
  have hin : ∀ u ∈ (r.step (.sync (.response 200 (some respTasks)))).tasks, u ∈ respTasks := by
    intro u hu
    rcases foldl_mapSet_mem respTasks [] u hu with h | h
    · cases h
    · exact h
  refine ⟨fun id => ?_, hin, fun l hl => ?_, rfl, fun status body hs => ?_, fun status => ?_⟩
  · show mapGet id (respTasks.foldl mapSet []) = _
    rw [mapGet_foldl]
    simp [mapGet]
  · rcases (ticks_launches ticks _).2 l hl with h | h
    · exact Or.inl h
    · exact Or.inr (hin _ h)
  · show syncConfig r.tasks (.response status body) = r.tasks
    unfold syncConfig
    dsimp only
    rw [if_pos hs]
  · show syncConfig r.tasks (.response status none) = r.tasks
    unfold syncConfig
    dsimp only
    split_ifs <;> rfl

/-- C20 on an agent that holds tasks 7 and 8: a sync that returns only task
8 (with a new frequency) leaves only that task, later ticks launch nothing
but it, and a sync answered with status 500 changes nothing. -/
theorem C20_sync_replaces_task_set_witness :
    mapGet 7 (({ Runner.start with tasks := [pingTask 7 5, pingTask 8 5] } : Runner).step
        (.sync (.response 200 (some [pingTask 8 9])))).tasks = none ∧
      mapGet 8 (({ Runner.start with tasks := [pingTask 7 5, pingTask 8 5] } : Runner).step
        (.sync (.response 200 (some [pingTask 8 9])))).tasks = some (pingTask 8 9) ∧
      ((({ Runner.start with tasks := [pingTask 7 5, pingTask 8 5] } : Runner).step
        (.sync (.response 200 (some [pingTask 8 9])))).run
          ([0, 1000000000, 9000000000].map AgentEvent.tick)).launches
        = [(pingTask 8 9, 9000000000), (pingTask 8 9, 0)] ∧
      (500 : Int) ≠ 200 ∧
      (({ Runner.start with tasks := [pingTask 7 5, pingTask 8 5] } : Runner).step
        (.sync (.response 500 (some [pingTask 8 9])))).tasks = [pingTask 7 5, pingTask 8 5] := by
  obtain ⟨hget, _, _, _, hbad, _⟩ :=
    C20_sync_replaces_task_set { Runner.start with tasks := [pingTask 7 5, pingTask 8 5] }
      [pingTask 8 9] [0, 1000000000, 9000000000]
  exact ⟨(hget 7).trans (by decide), (hget 8).trans (by decide), by decide, by decide,
    hbad 500 (some [pingTask 8 9]) (by decide)⟩

/-- C21: `flushResults` leaves the buffer empty whatever becomes of the POST
(request not built, client error or response), and the batch it takes out
for the POST is the whole buffer, in the order in which `executeTask`
appended the results; on an empty buffer there is no batch.  Over any
sequence of probes and flushes the batches one after the other, followed by
what is left in the buffer, are the results of the probes in the order in
which they were appended: no result is put back, sent twice or reordered. -/
theorem C21_flush_takes_the_buffer_once (resultsBuf : List NetworkResult) (reply : PostReply) :
    (flushResults resultsBuf reply).resultsBuf = []
      ∧ (flushResults resultsBuf reply).batch
          = (if resultsBuf = [] then none else some resultsBuf)
      ∧ (∀ task now net,
          executeTask resultsBuf task now net = resultsBuf ++ [probeResult task now net])
      ∧ (∀ (r : Reporter) (events : List BufferEvent),
          (r.run events).batches.flatten ++ (r.run events).resultsBuf
            = r.batches.flatten ++ r.resultsBuf ++ probedResults events) :=
  ⟨flushResults_buf resultsBuf reply, flushResults_batch resultsBuf reply,
    fun _ _ _ => rfl, fun r events => Reporter.run_join events r⟩

/-- C21 on a buffer that two probes have filled: a flush whose POST fails
takes both results as one batch, in the order of the probes, and leaves the
buffer empty; the flush after it finds nothing to send. -/
theorem C21_flush_takes_the_buffer_once_witness :
    (flushResults
        (executeTask (executeTask [] (pingTask 7 5) 100 ⟨lossyPing, .failed⟩)
          (pingTask 8 5) 200 ⟨.runFailed, .failed⟩) .sendFailed)
      = { resultsBuf := []
          batch := some
            [probeResult (pingTask 7 5) 100 ⟨lossyPing, .failed⟩,
              probeResult (pingTask 8 5) 200 ⟨.runFailed, .failed⟩]
          logged := true }
      ∧ flushResults [] .responded = { resultsBuf := [], batch := none, logged := false } := by
  have h := C21_flush_takes_the_buffer_once
    (executeTask (executeTask [] (pingTask 7 5) 100 ⟨lossyPing, .failed⟩)
      (pingTask 8 5) 200 ⟨.runFailed, .failed⟩) .sendFailed
  exact ⟨by rw [Flushed.mk.injEq]; exact ⟨h.1, h.2.1, rfl⟩, rfl⟩

/-- C22: `ping` is a total function of what the pinger does.  When the
pinger cannot be created or its run returns an error the result is
`(false, 0, 100)`; otherwise `success` holds exactly when at least one reply
was received, and `packetLoss` is the loss percentage of the statistics. -/
theorem C22_ping_failure_is_a_result :
    ping .notCreated = (false, 0, 100)
      ∧ ping .runFailed = (false, 0, 100)
      ∧ ∀ stats : Statistics,
          ((ping (.finished stats)).1 = true ↔ stats.PacketsRecv ≥ 1)
            ∧ (ping (.finished stats)).2.2 = stats.PacketLoss := by
  refine ⟨rfl, rfl, fun stats => ⟨?_, rfl⟩⟩
  simp only [ping, decide_eq_true_eq]
  omega

/-- C23, the code at the failing input.  From a store without tasks, a
template is created with frequency 30 and applied to host 1, which stores a
task with frequency 30; `UpdateTemplate` with a body that has no frequency
(so 0) stores 0 in the template, and applying the template again writes 0
into the task.  With a body whose frequency is -5, applying the template to
a host that has no such task yet inserts a task with frequency -5.  The
other four handlers keep every stored frequency, of tasks and of templates,
positive. -/
theorem C23_updated_template_frequency_reaches_tasks :
    frequenciesPositive emptyStore = true
      ∧ (emptyStore.handleAll ((retuneRequests 0).take 2)).tasks.map (fun t => t.Frequency)
          = [30]
      ∧ (emptyStore.handleAll (retuneRequests 0)).tasks.map (fun t => t.Frequency) = [0]
      ∧ frequenciesPositive (emptyStore.handleAll (retuneRequests 0)) = false
      ∧ (emptyStore.handleAll (freshRequests (-5))).tasks.map (fun t => t.Frequency) = [-5]
      ∧ frequenciesPositive (emptyStore.handleAll (freshRequests (-5))) = false
      ∧ (∀ (s : NetworkStore) (r : StoreRequest), (∀ id body, r ≠ .updateTemplate id body) →
          frequenciesPositive s = true → templatesPositive s = true →
          frequenciesPositive (s.handle r) = true ∧ templatesPositive (s.handle r) = true) :=
  ⟨by decide, by decide, by decide, by decide, by decide, by decide,
    guarded_handlers_keep_frequencies⟩

/-- C24, the code at the failing input.  On a server whose host 1 is
monitored, `Stop` sets `monitor_enabled` to false and hands the removal of
host 1 to the hub; `BatchStop` for host 1 and `UninstallCallback` with the
secret of host 1 answer 200 and set `monitor_enabled` to false as well, but
hand nothing to the hub; no call of either of them ever does. -/
theorem C24_batch_stop_and_uninstall_send_no_removal :
    (Stop (serverOf (plainHost 0 0 0 0)) 1).1.hub = [HubEvent.removeHost 1]
      ∧ ((Stop (serverOf (plainHost 0 0 0 0)) 1).1.hosts 1).map (fun h => h.MonitorEnabled)
          = some false
      ∧ (BatchStop (serverOf (plainHost 0 0 0 0)) (some [1])).2 = 200
      ∧ ((BatchStop (serverOf (plainHost 0 0 0 0)) (some [1])).1.hosts 1).map
          (fun h => h.MonitorEnabled) = some false
      ∧ (BatchStop (serverOf (plainHost 0 0 0 0)) (some [1])).1.hub = []
      ∧ (UninstallCallback (serverOf (plainHost 0 0 0 0)) "k3y" (some 1)).2 = 200
      ∧ ((UninstallCallback (serverOf (plainHost 0 0 0 0)) "k3y" (some 1)).1.hosts 1).map
          (fun h => h.MonitorEnabled) = some false
      ∧ (UninstallCallback (serverOf (plainHost 0 0 0 0)) "k3y" (some 1)).1.hub = []
      ∧ (∀ s body, (BatchStop s body).1.hub = s.hub)
      ∧ (∀ s secret hostID, (UninstallCallback s secret hostID).1.hub = s.hub) :=
  ⟨by decide, by decide, by decide, by decide, by decide, by decide, by decide, by decide,
    BatchStop_hub, UninstallCallback_hub⟩

/-- C25 fails: host 1 has raw counter 1000 and monthly total 0, and two
pulses with rx 1500 and rx 1700 are handled at the same time.  Both handlers
load the row before either writes; the handler of the pulse with 1700 writes
first, the one with 1500 then writes what it computed from the row it had
loaded.  The stored total is 500 and the stored raw counter 1500, which is
the outcome of neither serial order (700 and 1700, or 2200 and 1500): the
200 bytes between the two pulses are lost. -/
theorem C25_counterexample :
    ((racedPulses (serverOf (plainHost 0 0 1000 1000)) (requestOf 1700 1000 [])
        (requestOf 1500 1000 []) (may2 10) (may2 11)).hosts 1).map
          (fun h => (h.NetMonthlyRx, h.NetLastRawRx)) = some (500, 1500)
      ∧ ((runPulses (serverOf (plainHost 0 0 1000 1000))
          [(requestOf 1500 1000 [], may2 10), (requestOf 1700 1000 [], may2 11)]).hosts 1).map
            (fun h => (h.NetMonthlyRx, h.NetLastRawRx)) = some (700, 1700)
      ∧ ((runPulses (serverOf (plainHost 0 0 1000 1000))
          [(requestOf 1700 1000 [], may2 10), (requestOf 1500 1000 [], may2 11)]).hosts 1).map
            (fun h => (h.NetMonthlyRx, h.NetLastRawRx)) = some (2200, 1500) := by
  decide

/-- C25 as the code has it: `Pulse` is its load of the row followed by the
rest of the handler, with nothing held in between.  When two handlers have
both loaded their rows before either goes on, then for pulses of different
hosts the outcome is that of handling the two requests one after the other;
for pulses of the same host, when the handler that writes last has something
to write and the database takes its write, it stores the columns it computed
from the row it had loaded, so the table of hosts is what it would be had
the other pulse never been handled; and when the database refuses the write
of the handler that goes on last (a total or raw counter of `2 ^ 63` or
more), the table of hosts is the one the other handler has left. -/
theorem C25_last_write_wins (s : Server) (first second : PulseRequest) (t1 t2 : Time)
    (h1 h2 : SSHHost) (d1 d2 : MetricData)
    (a1 : authenticate s first = .ok (h1, d1)) (a2 : authenticate s second = .ok (h2, d2)) :
    Pulse s first t1 = (finishPulse s h1 d1 t1, 200)
      ∧ (d1.HostID ≠ d2.HostID →
          racedPulses s first second t1 t2 = runPulses s [(first, t1), (second, t2)])
      ∧ (d1.HostID = d2.HostID → (account d2.HostID (enable h2) d2 t2).dbUpdated = true →
          writable (account d2.HostID (enable h2) d2 t2).host = true →
          (racedPulses s first second t1 t2).hosts = (Pulse s second t2).1.hosts)
      ∧ (writable (account d2.HostID (enable h2) d2 t2).host = false →
          h2.MonitorEnabled = true →
          (racedPulses s first second t1 t2).hosts = (Pulse s first t1).1.hosts) := by
  refine ⟨Pulse_eq_finish t1 a1, fun hne => raced_other_host t1 t2 a1 a2 hne,
    fun hk hdb hw => ?_, fun hw hm => ?_⟩
  · rw [Pulse_eq_finish t2 a2]
    unfold racedPulses
    rw [a1, a2]
    exact raced_same_host s h1 h2 d1 d2 t1 t2 hk hdb hw
  · rw [Pulse_eq_finish t1 a1]
    unfold racedPulses
    rw [a1, a2]
    exact refused_second_write (finishPulse s h1 d1 t1) h2 d2 t2 hm hw

/-- C25 on the two pulses of the counterexample: the table of hosts after
the race is the table after the pulse with rx 1500 alone.  When the pulse
that goes on last reports rx `2 ^ 63` instead, its write is refused and the
table is the one the pulse with rx 1500 has left. -/
theorem C25_last_write_wins_witness :
    authenticate (serverOf (plainHost 0 0 1000 1000)) (requestOf 1700 1000 [])
        = .ok (plainHost 0 0 1000 1000, pulseOf 1700 1000 [])
      ∧ authenticate (serverOf (plainHost 0 0 1000 1000)) (requestOf 1500 1000 [])
        = .ok (plainHost 0 0 1000 1000, pulseOf 1500 1000 [])
      ∧ (racedPulses (serverOf (plainHost 0 0 1000 1000)) (requestOf 1700 1000 [])
          (requestOf 1500 1000 []) (may2 10) (may2 11)).hosts
        = (Pulse (serverOf (plainHost 0 0 1000 1000)) (requestOf 1500 1000 [])
            (may2 11)).1.hosts
      ∧ (racedPulses (serverOf (plainHost 0 0 1000 1000)) (requestOf 1500 1000 [])
          (requestOf highBit 1000 []) (may2 10) (may2 11)).hosts
        = (Pulse (serverOf (plainHost 0 0 1000 1000)) (requestOf 1500 1000 [])
            (may2 10)).1.hosts :=
  ⟨rfl, rfl,
    (C25_last_write_wins (serverOf (plainHost 0 0 1000 1000)) (requestOf 1700 1000 [])
      (requestOf 1500 1000 []) (may2 10) (may2 11) (plainHost 0 0 1000 1000)
      (plainHost 0 0 1000 1000) (pulseOf 1700 1000 []) (pulseOf 1500 1000 []) rfl rfl).2.2.1
      rfl (by decide) (by decide),
    (C25_last_write_wins (serverOf (plainHost 0 0 1000 1000)) (requestOf 1500 1000 [])
      (requestOf highBit 1000 []) (may2 10) (may2 11) (plainHost 0 0 1000 1000)
      (plainHost 0 0 1000 1000) (pulseOf 1500 1000 []) (pulseOf highBit 1000 []) rfl rfl).2.2.2
      (by decide) rfl⟩

/-- C26: for a hub whose viewer set holds no connection twice, a viewer that
is in the set and is not unregistered while a sequence of messages is taken
receives every event the sequence broadcasts, in order; once a connection
has been unregistered it receives nothing more as long as it is not
registered again; unregistering a connection that is not in the set leaves
the hub as it is.  `Stream` registers its connection once, at the start, and
unregisters it once, at the first read that fails; without an upgrade it
sends the hub nothing. -/
theorem C26_hub_delivers_to_connected_viewers (h : Hub) (conn : Nat) (msgs : List HubMsg)
    (hn : h.viewers.Nodup) :
    (conn ∈ h.viewers → HubMsg.unregister conn ∉ msgs →
        (h.run msgs).received conn = h.received conn ++ broadcasts msgs)
      ∧ (HubMsg.register conn ∉ msgs →
          ((h.step (.unregister conn)).run msgs).received conn = h.received conn)
      ∧ (conn ∉ h.viewers → h.step (.unregister conn) = h)
      ∧ (∀ reads, Stream true conn reads
          = HubMsg.register conn :: (if false ∈ reads then [HubMsg.unregister conn] else []))
      ∧ (∀ reads, Stream false conn reads = []) := by
  refine ⟨fun hm hu => Hub.run_connected msgs h conn hn hm hu, fun hr => ?_,
    fun hm => Hub.unregister_absent h conn hm, fun reads => ?_, fun _ => rfl⟩
  · rw [Hub.run_gone msgs _ conn (Hub.unregister_gone h conn) hr]
    rfl
  · simp only [Stream, Bool.not_true, Bool.false_eq_true, if_false, keepAlive_eq]

/-- C26 on a hub with viewers 1 and 2: while two events are broadcast, viewer
2 is unregistered after the first; viewer 1 receives both events and viewer 2
only the first. -/
theorem C26_hub_delivers_to_connected_viewers_witness :
    (({ viewers := [1, 2], delivered := [] } : Hub).run
        [.broadcast (.removeHost 5), .unregister 2, .broadcast (.removeHost 6)]).received 1
      = [HubEvent.removeHost 5, HubEvent.removeHost 6]
      ∧ (({ viewers := [1, 2], delivered := [] } : Hub).run
        [.broadcast (.removeHost 5), .unregister 2, .broadcast (.removeHost 6)]).received 2
      = [HubEvent.removeHost 5]
      ∧ Stream true 2 [true, true, false, true] = [.register 2, .unregister 2] := by
  have h1 := C26_hub_delivers_to_connected_viewers { viewers := [1, 2], delivered := [] } 1
    [.broadcast (.removeHost 5), .unregister 2, .broadcast (.removeHost 6)] (by decide)
  have h2 := C26_hub_delivers_to_connected_viewers
    (({ viewers := [1, 2], delivered := [] } : Hub).step (.broadcast (.removeHost 5))) 2
    [.broadcast (.removeHost 6)] (by decide)
  exact ⟨h1.1 (by decide) (by decide), h2.2.1 (by decide), (h2.2.2.2.1 [true, true, false, true]).trans (by decide)⟩

/-- C27, the code at the failing input.  Host 1 counts `eth0` and its stored
raw counters are 1000 and 800.  `Update` with `net_interface` `eth1` answers
200 and sets the raw counters to 0 in the handler's copy, but the stored row
keeps 1000 and 800 next to the new interface: the raw counters are not among
the columns the handler writes.  The next pulse, whose `eth1` has counted
5000 and 4000, computes the deltas 4000 and 3200 and adds them to the
monthly totals.  Whatever the request, the write of `Update` leaves the
stored raw counters as they are. -/
theorem C27_interface_change_keeps_stored_raw_counters :
    (SSHHostHandler.Update (serverOf eth0Host).hosts (callOf toEth1) (may2 100)).2 = 200
      ∧ ((editHost toEth1 (may2 100) eth0Host).NetLastRawRx,
          (editHost toEth1 (may2 100) eth0Host).NetLastRawTx) = (0, 0)
      ∧ (afterToEth1.hosts 1).map (fun h => (h.NetInterface, h.NetLastRawRx, h.NetLastRawTx))
          = some ("eth1", 1000, 800)
      ∧ (pulseLog afterToEth1 [(twoInterfaces, may2 130)]).map
          (fun o => o.map (fun p => (p.2.deltaRx, p.2.deltaTx))) = [some (4000, 3200)]
      ∧ ((Pulse afterToEth1 twoInterfaces (may2 130)).1.hosts 1).map
          (fun h => (h.NetMonthlyRx, h.NetMonthlyTx)) = some (4000, 3200)
      ∧ (∀ resetTraffic host row,
          (writeSelected resetTraffic host row).NetLastRawRx = row.NetLastRawRx
            ∧ (writeSelected resetTraffic host row).NetLastRawTx = row.NetLastRawTx) :=
  ⟨by decide, by decide, by decide, by decide, by decide, writeSelected_raw⟩

/-- C28: a call of `Update` whose body does not ask for a traffic reset
leaves, for every host, the stored monthly totals, raw counters, last reset
date, alert flag, status and heartbeat as they are; and the write of such a
call changes none of these columns of whatever row it finds, so it keeps
what a pulse has written since the handler loaded the row. -/
theorem C28_update_keeps_monitoring_columns (hosts : Nat → Option SSHHost) (call : UpdateCall)
    (now : Time) (hr : ∀ req, call.body = some req → req.ResetTraffic = false) :
    (∀ k, ((SSHHostHandler.Update hosts call now).1 k).map monitoringColumns
        = (hosts k).map monitoringColumns)
      ∧ (∀ host row, monitoringColumns (writeSelected false host row)
          = monitoringColumns row) := by
  refine ⟨fun k => ?_, fun _ _ => rfl⟩
  unfold SSHHostHandler.Update
  cases hb : call.body with
  | none => rfl
  | some req =>
    have hreset := hr req hb
    cases hrow : hosts call.id with
    | none => simp only [hrow]
    | some host0 =>
      simp only [hrow]
      split_ifs
      · rfl
      · rfl
      · by_cases hk : k = call.id
        · subst hk
          dsimp only
          rw [updateRow_same, hrow, hreset]
          rfl
        · dsimp only
          rw [updateRow_other _ _ hk]

/-- C28 on the change of interface of host 1: the accounting columns of the
stored row are those of `eth0Host`. -/
theorem C28_update_keeps_monitoring_columns_witness :
    (callOf toEth1).body = some toEth1 ∧ toEth1.ResetTraffic = false
      ∧ ((SSHHostHandler.Update (serverOf eth0Host).hosts (callOf toEth1) (may2 100)).1 1).map
          monitoringColumns = some (monitoringColumns eth0Host) :=
  ⟨rfl, rfl,
    (C28_update_keeps_monitoring_columns (serverOf eth0Host).hosts (callOf toEth1) (may2 100)
      (fun req hb => by
        have : req = toEth1 := (Option.some.inj hb).symm
        rw [this]; rfl)).1 1⟩

/-- C29, the code at the failing input.  A host with a limit of one terabyte
has counted nothing this month; a pulse adds 184467440737095517 bytes.  In
exact arithmetic that is 18446744 per cent of the limit, but the product by
100 does not fit a `uint64` and wraps to 84: the percentage the handler
compares with the threshold of 90 is 0, it sends no warning and leaves the
alert flag down.  When the product fits, the percentage is the exact one. -/
theorem C29_percent_wraps_at_large_totals :
    (pulseLog (serverOf hugeHost) [(hugePulse, may2 30)]).map
        (fun o => o.map (fun p =>
          (p.2.host.NetMonthlyRx, exactPercent p.2.host, usagePercent p.2.host, p.2.warned)))
        = [some (184467440737095517, 18446744, 0, false)]
      ∧ (Pulse (serverOf hugeHost) hugePulse (may2 30)).1.notifications = []
      ∧ ((Pulse (serverOf hugeHost) hugePulse (may2 30)).1.hosts 1).map
          (fun h => (h.NetMonthlyRx, h.NetTrafficLimit, h.TrafficAlerted))
          = some (184467440737095517, 1000000000000, false)
      ∧ (∀ host : SSHHost, host.NetTrafficLimit > 0 →
          (host.NetMonthlyRx + host.NetMonthlyTx) * 100 < u64 →
          usagePercent host = exactPercent host) :=
  ⟨by decide, by decide, by decide, usagePercent_exact⟩

/-- C30, the code at the failing input.  The origin made of `a`, a double
quote, a comma and `b` is saved between two double quotes with nothing
escaped, as the value `[`, quote, `a`, quote, `,`, `b`, quote, `]`, which is
not the JSON of the list; the value loads as two origins, `a` and the empty
string.  The origin made of `a`, a double quote, `,b,`, a double quote and
`c` is saved as a value whose middle part `b` is one byte long, so that the
slice that takes off the quotes is out of range and the load panics.  A list
of origins without a double quote loads as the list of what the loop of
`splitJSON` makes of each origin, rune by rune: an origin that is UTF-8
loads as it was saved (the empty list, empty origins and origins with commas
included, whatever was stored before), and an origin with a byte that is not
UTF-8, such as the one byte 255, loads with the three bytes of U+FFFD in its
place. -/
theorem C30_unescaped_quote_breaks_round_trip :
    SaveAllowedOrigins none [oddOrigin] = some [91, 34, 97, 34, 44, 98, 34, 93]
      ∧ LoadAllowedOrigins (SaveAllowedOrigins none [oddOrigin]) = some [[97], []]
      ∧ LoadAllowedOrigins (SaveAllowedOrigins none [brokenOrigin]) = none
      ∧ LoadAllowedOrigins (SaveAllowedOrigins none [[255]]) = some [[239, 191, 189]]
      ∧ LoadAllowedOrigins (SaveAllowedOrigins (some [91, 93])
          [bytesOf "https://a.example", [], bytesOf "b,c", [195, 169]])
        = some [bytesOf "https://a.example", [], bytesOf "b,c", [195, 169]]
      ∧ (∀ (stored : Option GoString) (origins : List GoString),
          (∀ o ∈ origins, quoteByte ∉ o) →
          LoadAllowedOrigins (SaveAllowedOrigins stored origins)
            = some (origins.map (fun o => rangeCopy o 0)))
      ∧ (∀ (stored : Option GoString) (origins : List GoString),
          (∀ o ∈ origins, quoteByte ∉ o ∧ validUTF8 o 0 = true) →
          LoadAllowedOrigins (SaveAllowedOrigins stored origins) = some origins) :=
  ⟨by decide, by decide, by decide, by decide, by decide,
    fun _ origins hq => load_saved origins hq,
    fun _ origins hq => load_saved_valid origins hq⟩

end TermiScope
